import Mathlib

/-!
# Tutorial22_HybridRendering: maze compiler and gameplay update

A shallow embedding of the gameplay part of `src/src/Tutorial22_HybridRendering.cpp`.

Conventions of the embedding:

* `float` values are elements of an arbitrary linearly ordered field `F` (exact arithmetic,
  no rounding); the square root used by `length` is a parameter `sqrt : F → F`, so that the
  definitions stay executable and the theorems can be read at `F = ℝ` with `Real.sqrt`.
* A division by a zero length (IEEE `0/0`, a NaN) is not a value of `F`: the collision
  resolver returns `none` there, and the camera position of the state is then `none`.
* `std::vector` tables are lists, indices are natural numbers; an index outside its table is
  undefined behaviour in the source and a no-op (write) or a default value (read) here.
-/

namespace HybridRendering

/-! ## Vectors, matrices, boxes -/

/-- Three `float` components (`float3` of the maths library). -/
structure float3 (F : Type) where
  x : F
  y : F
  z : F

/-- Square 4x4 matrix, indexed `m i j` as row `i`, column `j` (`float4x4`). -/
abbrev float4x4 (F : Type) := Matrix (Fin 4) (Fin 4) F

/-- Axis-aligned box `struct AABB { float3 min; float3 max; }`. -/
structure AABB (F : Type) where
  min : float3 F
  max : float3 F

section Scalars

variable {F : Type} [LinearOrderedField F]

/-- Componentwise difference `a - b`. -/
def float3.sub (a b : float3 F) : float3 F := ⟨a.x - b.x, a.y - b.y, a.z - b.z⟩

/-- Componentwise sum `a + b`. -/
def float3.add (a b : float3 F) : float3 F := ⟨a.x + b.x, a.y + b.y, a.z + b.z⟩

/-- Product with a scalar on the right, `v * s`. -/
def float3.scale (v : float3 F) (s : F) : float3 F := ⟨v.x * s, v.y * s, v.z * s⟩

/-- Quotient by a scalar, `v / s`. -/
def float3.divScalar (v : float3 F) (s : F) : float3 F := ⟨v.x / s, v.y / s, v.z / s⟩

/-- Scalar product `dot(a, b)`. -/
def dot (a b : float3 F) : F := a.x * b.x + a.y * b.y + a.z * b.z

/-- Euclidean length `length(v) = sqrt(dot(v, v))`. -/
def length (sqrt : F → F) (v : float3 F) : F := sqrt (dot v v)

/-- Matrix `float4x4::Scale(x, y, z)`. -/
def Scale (x y z : F) : float4x4 F :=
  Matrix.of ![![x, 0, 0, 0], ![0, y, 0, 0], ![0, 0, z, 0], ![0, 0, 0, 1]]

/-- Matrix `float4x4::Translation(x, y, z)`: the offset sits in the last row. -/
def Translation (x y z : F) : float4x4 F :=
  Matrix.of ![![1, 0, 0, 0], ![0, 1, 0, 0], ![0, 0, 1, 0], ![x, y, z, 1]]

/-- The box `{{0, 0, 0}, {0, 0, 0}}`. -/
def zeroBox : AABB F := ⟨⟨0, 0, 0⟩, ⟨0, 0, 0⟩⟩

/-! ## HandleCollisions (lines 706-726) -/

/-- Closest point of the box to `p`, one `std::max(min, std::min(p, max))` per axis. -/
def closestPoint (wall : AABB F) (p : float3 F) : float3 F :=
  ⟨max wall.min.x (min p.x wall.max.x),
   max wall.min.y (min p.y wall.max.y),
   max wall.min.z (min p.z wall.max.z)⟩

/-- Body of the loop of `HandleCollisions` for one wall. `none` stands for the position the
source computes when it divides `delta` by a zero `distance`: not a number. -/
def collideWall (sqrt : F → F) (CamRadius : F) (CameraPos : float3 F) (wall : AABB F) :
    Option (float3 F) :=
  let delta := CameraPos.sub (closestPoint wall CameraPos)
  let distance := length sqrt delta
  if distance < CamRadius then
    if distance = 0 then none
    else
      let collisionNormal := delta.divScalar distance
      let penetrationDepth := CamRadius - distance
      some (CameraPos.add ((collisionNormal.scale penetrationDepth).scale (11 / 10)))
  else some CameraPos

/-- The loop `for (const auto& wall : MazeWalls)` of `HandleCollisions`: walls in table order,
each reading the position left by the previous ones. Once the position is not a number every
later comparison `distance < CamRadius` is false, so it stays so. -/
def HandleCollisions (sqrt : F → F) : List (AABB F) → float3 F → F → Option (float3 F)
  | [], CameraPos, _ => some CameraPos
  | wall :: rest, CameraPos, CamRadius =>
    match collideWall sqrt CamRadius CameraPos wall with
    | none => none
    | some p => HandleCollisions sqrt rest p CamRadius

/-! ## Scene tables (lines 49-94) -/

/-- The fields of `HLSL::ObjectAttribs` that the gameplay code reads or compares: the model
matrix, the material and the mesh. `NormalMat`, `FirstIndex` and `FirstVertex` are render data
copied from the mesh table and are left out. `MaterialId` is a 32-bit unsigned value. -/
structure ObjectAttribs (F : Type) where
  ModelMat : float4x4 F
  MaterialId : Int
  MeshId : Nat

/-- Record `struct Key`. -/
structure Key (F : Type) where
  Min : float3 F
  Max : float3 F
  Collected : Bool
  ObjectIdx : Nat
  WallIdx : Int
  DoorIds : List Int

/-- Record `struct Door`; `BlockType` is never written nor read by the source and is left
out. -/
structure Door (F : Type) where
  WallIdx : Nat
  ObjectIdx : Nat
  Opened : Bool
  Rising : Bool
  RiseTimer : F
  RiseSpeed : F
  OriginalMat : float4x4 F
  Id : Int

/-- Record `struct KeyDoorBinding`. -/
structure KeyDoorBinding where
  KeyBlockType : Int
  DoorBlockType : Int

/-- Record `InstancedObjects`: a contiguous range of the object table drawn with one mesh. -/
structure InstancedObjects where
  MeshInd : Nat
  NumObjects : Nat
  ObjectAttribsOffset : Nat

/-- The mutable tables and gameplay variables of the sample: the globals of lines 55-94 and
the members the update reads and writes. `CameraPos` is the position held by `m_Camera`;
`none` stands for a position with not-a-number components, as `HandleCollisions` can leave
it: every comparison of a length computed from it is false. -/
structure GameState (F : Type) where
  Objects : List (ObjectAttribs F)
  ObjectInstances : List InstancedObjects
  DynamicObjects : List Nat
  MazeWalls : List (AABB F)
  m_Keys : List (Key F)
  m_KeysCollected : Int
  m_Doors : List (Door F)
  m_ShowUnlockMsg : Bool
  m_UnlockMsgTimer : F
  m_UnlockMsgTime : F
  m_KeyDoorBindings : List KeyDoorBinding
  m_nextDoorId : Int
  m_Health : Int
  m_IsGameOver : Bool
  m_TimeSinceLastDamage : F
  m_DamageCooldown : F
  m_DamageEffectTimer : F
  m_PostDamageOverlayAlpha : F
  m_PostDamageOverlayTimer : F
  m_PostDamageOverlayDuration : F
  m_FlashlightEnabled : Bool
  m_ShowStartScreen : Bool
  m_ShowControlsScreen : Bool
  CameraPos : Option (float3 F)

/-- Arguments of `CreateSceneObjects` and the mesh ids it reads: `CubeMaterialRange.x` and
`GroundMaterial` are 32-bit unsigned values. -/
structure SceneParams where
  CubeMaterialRangeX : Nat
  GroundMaterial : Nat
  CubeMeshId : Nat
  PlaneMeshId : Nat

/-- The tile table `int maze[mazeRows][mazeCols]`, read as `maze z x`. The source fixes a
50 x 100 table; the passes below are stated for any table. -/
structure TileGrid where
  mazeRows : Nat
  mazeCols : Nat
  maze : Nat → Nat → Int

/-- The loop `for (int i = 0; i < n; ++i) body`. -/
def forLoop {σ : Type} (n : Nat) (body : Nat → σ → σ) (s : σ) : σ :=
  (List.range n).foldl (fun acc i => body i acc) s

/-- Read `table[i]`. -/
def objectAt (Objects : List (ObjectAttribs F)) (i : Nat) : ObjectAttribs F :=
  Objects.getD i ⟨0, 0, 0⟩

/-- Read `MazeWalls[i]`. -/
def wallAt (MazeWalls : List (AABB F)) (i : Nat) : AABB F :=
  MazeWalls.getD i zeroBox

/-- Write `Objects[i].ModelMat = m`. -/
def setModelMat (Objects : List (ObjectAttribs F)) (i : Nat) (m : float4x4 F) :
    List (ObjectAttribs F) :=
  Objects.modify (fun o => { o with ModelMat := m }) i

/-! ## CreateSceneObjects: the two grid passes (lines 374-611) -/

/-- The eight `m_KeyDoorBindings.push_back` of lines 375-382. -/
def defaultBindings : List KeyDoorBinding :=
  [⟨20, 10⟩, ⟨21, 11⟩, ⟨22, 12⟩, ⟨23, 13⟩, ⟨24, 14⟩, ⟨25, 15⟩, ⟨26, 16⟩, ⟨27, 17⟩]

/-- The value `CubeMaterialRange.x + (blockType - 1)` as a 32-bit unsigned integer. -/
def materialOf (P : SceneParams) (blockType : Int) : Int :=
  ((P.CubeMaterialRangeX : Int) + (blockType - 1)) % 4294967296

/-- One emitted run of Pass 1: seed cell, tile code, axis and length. The source keeps these
in locals (`z`, `x`, `blockType`, `horizontal`, `runLength`) while it emits the run. -/
structure Run where
  z : Nat
  x : Nat
  blockType : Int
  horizontal : Bool
  runLength : Nat

/-- Whether the cell `(cz, cx)` is one of the cells `visited[z][x + i]` (horizontal) or
`visited[z + i][x]` (vertical), `i < runLength`, that the run marks. -/
def Run.covers (r : Run) (cz cx : Nat) : Bool :=
  if r.horizontal then decide (cz = r.z ∧ r.x ≤ cx ∧ cx < r.x + r.runLength)
  else decide (cx = r.x ∧ r.z ≤ cz ∧ cz < r.z + r.runLength)

/-- The loop `while (x + runX < mazeCols && maze[z][x + runX] == blockType &&
!visited[z][x + runX]) runX++`, with a bound on the number of iterations. -/
def scanRunX (g : TileGrid) (visited : Nat → Nat → Bool) (z x : Nat) (blockType : Int) :
    Nat → Nat → Nat
  | 0, runX => runX
  | fuel + 1, runX =>
    if x + runX < g.mazeCols ∧ g.maze z (x + runX) = blockType ∧ visited z (x + runX) = false
    then scanRunX g visited z x blockType fuel (runX + 1)
    else runX

/-- The loop `while (z + runZ < mazeRows && maze[z + runZ][x] == blockType &&
!visited[z + runZ][x]) runZ++`, with a bound on the number of iterations. -/
def scanRunZ (g : TileGrid) (visited : Nat → Nat → Bool) (z x : Nat) (blockType : Int) :
    Nat → Nat → Nat
  | 0, runZ => runZ
  | fuel + 1, runZ =>
    if z + runZ < g.mazeRows ∧ g.maze (z + runZ) x = blockType ∧ visited (z + runZ) x = false
    then scanRunZ g visited z x blockType fuel (runZ + 1)
    else runZ

/-- The run chosen at a door or decoration seed (lines 423-431 and 493-502): `runX`, `runZ`,
`horizontal = runX >= runZ`, `runLength = horizontal ? runX : runZ`. -/
def seedRun (g : TileGrid) (visited : Nat → Nat → Bool) (z x : Nat) (blockType : Int) : Run :=
  let runX := scanRunX g visited z x blockType g.mazeCols 1
  let runZ := scanRunZ g visited z x blockType g.mazeRows 1
  let horizontal := decide (runX ≥ runZ)
  ⟨z, x, blockType, horizontal, if horizontal then runX else runZ⟩

/-- The marking loop `for (i < runLength) visited[..] = true` of a run. -/
def markRun (visited : Nat → Nat → Bool) (r : Run) : Nat → Nat → Bool :=
  fun cz cx => if r.covers cz cx then true else visited cz cx

/-- Placement `(posX, posZ, scaleX, scaleZ)` of a door or decoration run (lines 441-459 and
512-531), with `spacing = 2`. -/
def runPlacement (g : TileGrid) (r : Run) : F × F × F × F :=
  if r.horizontal then
    (((r.x : F) + ((r.runLength : F) - 1) * (1 / 2) - (g.mazeCols : F) / 2) * 2,
     ((r.z : F) - (g.mazeRows : F) / 2) * 2,
     2 * (r.runLength : F) * (1 / 2),
     2 * (1 / 2))
  else
    (((r.x : F) - (g.mazeCols : F) / 2) * 2,
     ((r.z : F) + ((r.runLength : F) - 1) * (1 / 2) - (g.mazeRows : F) / 2) * 2,
     2 * (1 / 2),
     2 * (r.runLength : F) * (1 / 2))

/-- Placement of a wall cell (lines 396-402). -/
def wallPlacement (g : TileGrid) (z x : Nat) : F × F × F × F :=
  (((x : F) - (g.mazeCols : F) / 2) * 2, ((z : F) - (g.mazeRows : F) / 2) * 2,
   2 * (1 / 2), 2 * (1 / 2))

/-- The cube object of a block: `(Scale(scaleX, scaleY, scaleZ) * Translation(posX, posY,
posZ)).Transpose()` with `scaleY = 3`, `posY = scaleY - 0.2`. -/
def blockObject (P : SceneParams) (blockType : Int) (pl : F × F × F × F) : ObjectAttribs F :=
  { ModelMat := (Scale pl.2.2.1 3 pl.2.2.2 * Translation pl.1 (3 - 1 / 5) pl.2.1).transpose
    MaterialId := materialOf P blockType
    MeshId := P.CubeMeshId }

/-- The collision box of a block: `{posX - scaleX, 0, posZ - scaleZ}`,
`{posX + scaleX, scaleY, posZ + scaleZ}`. -/
def blockVolume (pl : F × F × F × F) : AABB F :=
  ⟨⟨pl.1 - pl.2.2.1, 0, pl.2.1 - pl.2.2.2⟩, ⟨pl.1 + pl.2.2.1, 3, pl.2.1 + pl.2.2.2⟩⟩

/-- State of Pass 1: the local `visited` table, the scene tables, and the list of the runs
emitted so far (a ghost log; the source does not store it). -/
structure Pass1State (F : Type) where
  visited : Nat → Nat → Bool
  scene : GameState F
  runs : List Run

/-- Push an object and its wall volume (walls and decorations). -/
def pushBlock (P : SceneParams) (blockType : Int) (pl : F × F × F × F) (s : GameState F) :
    GameState F :=
  { s with Objects := s.Objects ++ [blockObject P blockType pl]
           MazeWalls := s.MazeWalls ++ [blockVolume pl] }

/-- Push an object, its wall volume and the `Door` record that refers to both (lines
461-489). -/
def pushDoor (P : SceneParams) (blockType : Int) (pl : F × F × F × F) (s : GameState F) :
    GameState F :=
  { s with Objects := s.Objects ++ [blockObject P blockType pl]
           MazeWalls := s.MazeWalls ++ [blockVolume pl]
           m_Doors := s.m_Doors ++
             [{ WallIdx := s.MazeWalls.length
                ObjectIdx := s.Objects.length
                Opened := false
                Rising := false
                RiseTimer := 0
                RiseSpeed := 2
                OriginalMat := 0
                Id := s.m_nextDoorId }]
           m_nextDoorId := s.m_nextDoorId + 1 }

/-- Body of the loops of Pass 1 for the cell `(z, x)` (lines 389-550). -/
def pass1Cell (P : SceneParams) (g : TileGrid) (z x : Nat) (st : Pass1State F) : Pass1State F :=
  if st.visited z x = false ∧ g.maze z x ≠ 0 then
    let blockType := g.maze z x
    if blockType = 1 then
      let r : Run := ⟨z, x, blockType, true, 1⟩
      { visited := fun cz cx => if cz = z ∧ cx = x then true else st.visited cz cx
        scene := pushBlock P blockType (wallPlacement g z x) st.scene
        runs := st.runs ++ [r] }
    else if 10 ≤ blockType ∧ blockType ≤ 17 then
      let r := seedRun g st.visited z x blockType
      { visited := markRun st.visited r
        scene := pushDoor P blockType (runPlacement g r) st.scene
        runs := st.runs ++ [r] }
    else if (2 ≤ blockType ∧ blockType ≤ 9) ∨ blockType = 19 then
      let r := seedRun g st.visited z x blockType
      { visited := markRun st.visited r
        scene := pushBlock P blockType (runPlacement g r) st.scene
        runs := st.runs ++ [r] }
    else st
  else st

/-- Pass 1 (lines 385-552): rows outside, columns inside. -/
def pass1 (P : SceneParams) (g : TileGrid) (st : Pass1State F) : Pass1State F :=
  forLoop g.mazeRows (fun z acc => forLoop g.mazeCols (fun x acc2 => pass1Cell P g z x acc2) acc) st

/-- The lookup of lines 588-596: the door code of the first binding of the key code, and
`-1` when there is none. -/
def findDoorType : List KeyDoorBinding → Int → Int
  | [], _ => -1
  | binding :: rest, blockType =>
    if binding.KeyBlockType = blockType then binding.DoorBlockType
    else findDoorType rest blockType

/-- The loop of lines 598-605: the ids of the doors whose object has the material of
`doorType`, in table order. -/
def matchingDoorIds (P : SceneParams) (Objects : List (ObjectAttribs F)) (doorType : Int) :
    List (Door F) → List Int
  | [] => []
  | door :: rest =>
    if (objectAt Objects door.ObjectIdx).MaterialId = materialOf P doorType
    then door.Id :: matchingDoorIds P Objects doorType rest
    else matchingDoorIds P Objects doorType rest

/-- State of Pass 2: the `visited` table left by Pass 1, the scene tables, and the list of
the key cells emitted so far (a ghost log). -/
structure Pass2State (F : Type) where
  visited : Nat → Nat → Bool
  scene : GameState F
  keyCells : List (Nat × Nat)

/-- The object pushed for the key tile at `(z, x)` (lines 564-578), with `spacing = 2`,
`size = 0.5`, `posY = size + 2`. -/
def keyObject (P : SceneParams) (g : TileGrid) (z x : Nat) (blockType : Int) :
    ObjectAttribs F :=
  { ModelMat := (Scale (1 / 2) (1 / 2) (1 / 2) *
      Translation (((x : F) - (g.mazeCols : F) / 2) * 2) (1 / 2 + 2)
        (((z : F) - (g.mazeRows : F) / 2) * 2)).transpose
    MaterialId := materialOf P blockType
    MeshId := P.CubeMeshId }

/-- The `Key` record pushed for the key tile at `(z, x)` (lines 583-586): the box of half
size `size` around `(posX, posY, posZ)`, `WallIdx` left at its default `-1`. -/
def makeKey (g : TileGrid) (z x : Nat) (objIdx : Nat) (doorIds : List Int) : Key F :=
  { Min := ⟨((x : F) - (g.mazeCols : F) / 2) * 2 - 1 / 2, (1 / 2 + 2) - 1 / 2,
            ((z : F) - (g.mazeRows : F) / 2) * 2 - 1 / 2⟩
    Max := ⟨((x : F) - (g.mazeCols : F) / 2) * 2 + 1 / 2, (1 / 2 + 2) + 1 / 2,
            ((z : F) - (g.mazeRows : F) / 2) * 2 + 1 / 2⟩
    Collected := false
    ObjectIdx := objIdx
    WallIdx := -1
    DoorIds := doorIds }

/-- Body of the loops of Pass 2 for the cell `(z, x)` (lines 559-609). -/
def pass2Cell (P : SceneParams) (g : TileGrid) (z x : Nat) (st : Pass2State F) : Pass2State F :=
  let blockType := g.maze z x
  if 20 ≤ blockType ∧ blockType ≤ 27 ∧ st.visited z x = false then
    let objIdx := st.scene.Objects.length
    let objects := st.scene.Objects ++ [keyObject P g z x blockType]
    let doorType := findDoorType st.scene.m_KeyDoorBindings blockType
    let newKey : Key F := makeKey g z x objIdx (matchingDoorIds P objects doorType st.scene.m_Doors)
    { visited := fun cz cx => if cz = z ∧ cx = x then true else st.visited cz cx
      scene := { st.scene with Objects := objects, m_Keys := st.scene.m_Keys ++ [newKey] }
      keyCells := st.keyCells ++ [(z, x)] }
  else st

/-- Pass 2 (lines 555-611). -/
def pass2 (P : SceneParams) (g : TileGrid) (st : Pass2State F) : Pass2State F :=
  forLoop g.mazeRows (fun z acc => forLoop g.mazeCols (fun x acc2 => pass2Cell P g z x acc2) acc) st

/-- State after Pass 1 of `CreateSceneObjects` started on the tables `s`: a fresh `visited`
table and the eight bindings pushed (lines 374-382), then the pass. -/
def afterPass1 (P : SceneParams) (g : TileGrid) (s : GameState F) : Pass1State F :=
  pass1 P g
    { visited := fun _ _ => false
      scene := { s with m_KeyDoorBindings := s.m_KeyDoorBindings ++ defaultBindings }
      runs := [] }

/-- State after both grid passes of `CreateSceneObjects` started on the tables `s`. -/
def afterPass2 (P : SceneParams) (g : TileGrid) (s : GameState F) : Pass2State F :=
  let st1 := afterPass1 P g s
  pass2 P g { visited := st1.visited, scene := st1.scene, keyCells := [] }

/-- The grid passes of `CreateSceneObjects` (lines 374-611) as a map of the scene tables. -/
def gridPasses (P : SceneParams) (g : TileGrid) (s : GameState F) : GameState F :=
  (afterPass2 P g s).scene

/-! ## HandleKeyCollection (lines 728-767) -/

/-- The loop `for (auto& x : table) body`, where the body may write the element and the rest
of the state. -/
def forEachMut {α σ : Type} (body : σ → α → σ × α) : List α → σ → σ × List α
  | [], s => (s, [])
  | a :: rest, s =>
    let r := body s a
    let r2 := forEachMut body rest r.1
    (r2.1, r.2 :: r2.2)

/-- Distance from `camPos` to the clamped closest point of the key's box (lines 734-740). -/
def keyDistance (sqrt : F → F) (camPos : float3 F) (key : Key F) : F :=
  length sqrt (camPos.sub (closestPoint ⟨key.Min, key.Max⟩ camPos))

/-- The four assignments that open a door (lines 754-757 and 778-782). -/
def openDoor (Objects : List (ObjectAttribs F)) (door : Door F) : Door F :=
  { door with Opened := true, Rising := true, RiseTimer := 0,
              OriginalMat := (objectAt Objects door.ObjectIdx).ModelMat }

/-- The loop `for (auto& door : m_Doors)` of lines 750-760: the first door that has the id and
is not opened is opened, and the loop is left. -/
def openDoorWithId (Objects : List (ObjectAttribs F)) (doorId : Int) :
    List (Door F) → List (Door F)
  | [] => []
  | door :: rest =>
    if door.Id = doorId ∧ door.Opened = false then openDoor Objects door :: rest
    else door :: openDoorWithId Objects doorId rest

/-- The loop `for (int doorId : key.DoorIds)` of lines 748-761. -/
def openDoors (Objects : List (ObjectAttribs F)) : List Int → List (Door F) → List (Door F)
  | [], doors => doors
  | doorId :: rest, doors => openDoors Objects rest (openDoorWithId Objects doorId doors)

/-- Body of the loop of `HandleKeyCollection` for one key (lines 732-765). -/
def collectKey (sqrt : F → F) (camPos : float3 F) (camRadius : F) (s : GameState F)
    (key : Key F) : GameState F × Key F :=
  if key.Collected = true then (s, key)
  else if keyDistance sqrt camPos key < camRadius then
    ({ s with m_ShowUnlockMsg := true
              m_UnlockMsgTimer := 0
              m_Doors := openDoors s.Objects key.DoorIds s.m_Doors
              Objects := setModelMat s.Objects key.ObjectIdx (Scale 0 0 0).transpose },
     { key with Collected := true })
  else (s, key)

/-- The function `HandleKeyCollection(camPos, camRadius)`. -/
def HandleKeyCollection (sqrt : F → F) (camPos : float3 F) (camRadius : F) (s : GameState F) :
    GameState F :=
  let r := forEachMut (collectKey sqrt camPos camRadius) s.m_Keys s
  { r.1 with m_Keys := r.2 }

/-! ## Update: the door animation loop (lines 1519-1537) -/

/-- Body of the door animation loop for one door. -/
def animateDoor (dt : F) (s : GameState F) (door : Door F) : GameState F × Door F :=
  if door.Rising = false then (s, door)
  else
    let RiseTimer := door.RiseTimer + dt
    let offsetY := RiseTimer * door.RiseSpeed
    let riseTrans := (Translation 0 offsetY 0).transpose
    let Objects := setModelMat s.Objects door.ObjectIdx (door.OriginalMat * riseTrans)
    if offsetY > 3 then
      ({ s with MazeWalls := s.MazeWalls.set door.WallIdx zeroBox
                Objects := setModelMat Objects door.ObjectIdx (Scale 0 0 0).transpose },
       { door with RiseTimer := RiseTimer, Rising := false })
    else ({ s with Objects := Objects }, { door with RiseTimer := RiseTimer })

/-- The door animation loop of `Update`. -/
def doorAnimation (dt : F) (s : GameState F) : GameState F :=
  let r := forEachMut (animateDoor dt) s.m_Doors s
  { r.1 with m_Doors := r.2 }

/-! ## Update: the damage state machine (lines 1474-1497) and the reset button -/

/-- The loop `while (m_TimeSinceLastDamage >= m_DamageCooldown)` of lines 1478-1492. Every
iteration that does not leave the loop keeps a positive health 25 below the previous one, so
the loop ends whatever the cooldown is. -/
def damageLoop (s : GameState F) : GameState F :=
  if s.m_TimeSinceLastDamage ≥ s.m_DamageCooldown then
    if max 0 (s.m_Health - 25) ≤ 0 then
      { s with m_Health := max 0 (s.m_Health - 25)
               m_TimeSinceLastDamage := s.m_TimeSinceLastDamage - s.m_DamageCooldown
               m_DamageEffectTimer := 3 / 10
               m_PostDamageOverlayAlpha := 1
               m_PostDamageOverlayTimer := 0
               m_IsGameOver := true }
    else
      damageLoop
        { s with m_Health := max 0 (s.m_Health - 25)
                 m_TimeSinceLastDamage := s.m_TimeSinceLastDamage - s.m_DamageCooldown
                 m_DamageEffectTimer := 3 / 10
                 m_PostDamageOverlayAlpha := 1
                 m_PostDamageOverlayTimer := 0 }
  else s
termination_by s.m_Health.toNat
decreasing_by
  simp_wf
  omega

/-- The damage block of `Update` (lines 1474-1497), `distance` being the distance between
the player and the hostile. -/
def damageUpdate (distance dt : F) (s : GameState F) : GameState F :=
  if distance < 2 ∧ s.m_IsGameOver = false then
    damageLoop { s with m_TimeSinceLastDamage := s.m_TimeSinceLastDamage + dt }
  else { s with m_TimeSinceLastDamage := 0 }

/-- Number of iterations of the loop `while (m_TimeSinceLastDamage >= m_DamageCooldown)`
(a ghost count: the recursion is that of `damageLoop`, one damage step per iteration). -/
def damageLoopSteps (s : GameState F) : Nat :=
  if s.m_TimeSinceLastDamage ≥ s.m_DamageCooldown then
    if max 0 (s.m_Health - 25) ≤ 0 then 1
    else
      1 + damageLoopSteps
        { s with m_Health := max 0 (s.m_Health - 25)
                 m_TimeSinceLastDamage := s.m_TimeSinceLastDamage - s.m_DamageCooldown
                 m_DamageEffectTimer := 3 / 10
                 m_PostDamageOverlayAlpha := 1
                 m_PostDamageOverlayTimer := 0 }
  else 0
termination_by s.m_Health.toNat
decreasing_by
  simp_wf
  omega

/-- The reset button of the game-over screen (lines 1755-1761). -/
def resetGame (s : GameState F) : GameState F :=
  { s with m_Health := 100, m_IsGameOver := false, m_DamageEffectTimer := 0,
           CameraPos := some ⟨-(157 / 10), 37 / 10, -(58 / 10)⟩ }

/-! ## TryOpenDoors (lines 770-787) -/

/-- The function `TryOpenDoors()`: with a positive pending counter every door that is not
opened is opened and the counter is cleared. -/
def TryOpenDoors (s : GameState F) : GameState F :=
  if s.m_KeysCollected > 0 then
    { s with m_Doors := s.m_Doors.map
               (fun door => if door.Opened = false then openDoor s.Objects door else door)
             m_KeysCollected := 0 }
  else s

/-! ## CreateSceneObjects: instancing groups, ground, ceiling, hostile (lines 614-704) -/

/-- The ground plane object (lines 626-633). -/
def groundObject (P : SceneParams) : ObjectAttribs F :=
  { ModelMat := (Scale (100 : F) 1 50 * Translation 0 (-(1 / 5)) 0).transpose
    MaterialId := (P.GroundMaterial : Int)
    MeshId := P.PlaneMeshId }

/-- The ceiling object (lines 644-670): `spacing = 2`, `thickness = 0.5`,
`ceilingHeight = 6`. -/
def ceilingObject (P : SceneParams) (g : TileGrid) : ObjectAttribs F :=
  { ModelMat := (Scale ((g.mazeCols : F) * 2 * (1 / 2)) (1 / 2) ((g.mazeRows : F) * 2 * (1 / 2)) *
      Translation 0 (6 + 1 / 2 * (1 / 2)) 0).transpose
    MaterialId := materialOf P 9
    MeshId := P.CubeMeshId }

/-- The hostile object (lines 683-694): `startPos = (0, 3, -20)`, `monsterScale = 0.01`. -/
def monsterObject (P : SceneParams) : ObjectAttribs F :=
  { ModelMat := (Scale (1 / 100 : F) (1 / 100) (1 / 100) * Translation 0 3 (-20)).transpose
    MaterialId := materialOf P 18
    MeshId := P.CubeMeshId }

/-- The end of `CreateSceneObjects` (lines 614-704): the group of all the cubes pushed so
far, then ground, ceiling and hostile, each pushed with a group of its own; the hostile is
registered as dynamic object. -/
def pushSceneTail (P : SceneParams) (g : TileGrid) (s : GameState F) : GameState F :=
  let cubes : InstancedObjects :=
    { MeshInd := P.CubeMeshId, NumObjects := s.Objects.length, ObjectAttribsOffset := 0 }
  let groundOffset := s.Objects.length
  let objects1 := s.Objects ++ [groundObject P]
  let groundInst : InstancedObjects :=
    { MeshInd := P.PlaneMeshId, NumObjects := objects1.length - groundOffset,
      ObjectAttribsOffset := groundOffset }
  let ceilingOffset := objects1.length
  let objects2 := objects1 ++ [ceilingObject P g]
  let ceilingInst : InstancedObjects :=
    { MeshInd := P.CubeMeshId, NumObjects := objects2.length - ceilingOffset,
      ObjectAttribsOffset := ceilingOffset }
  let monsterIndex := objects2.length
  let objects3 := objects2 ++ [monsterObject P]
  let monsterInst : InstancedObjects :=
    { MeshInd := P.CubeMeshId, NumObjects := 1, ObjectAttribsOffset := monsterIndex }
  { s with Objects := objects3
           ObjectInstances := s.ObjectInstances ++ [cubes, groundInst, ceilingInst, monsterInst]
           DynamicObjects := s.DynamicObjects ++ [monsterIndex] }

/-- The function `CreateSceneObjects` from the grid passes on (lines 374-704); the ids of the
two meshes pushed before (lines 233-318) are in `P`. -/
def CreateSceneObjects (P : SceneParams) (g : TileGrid) (s : GameState F) : GameState F :=
  pushSceneTail P g (gridPasses P g s)

/-! ## UpdateUI (lines 1639-1999) and Update (lines 1421-1568) -/

/-- Functions of the engine's maths library that `Update` calls and that are not among the
sources: the square root behind `length` and `normalize`, the constant `PI_F`, and the
matrix `float4x4::RotationY`. -/
structure MathLib (F : Type) where
  sqrt : F → F
  PI_F : F
  RotationY : F → float4x4 F

/-- What the buttons of the overlay report in one frame (`ImGui::Button` returning true),
in the order of the source: "REINICIAR JUEGO", "VER CONTROLES", "INICIAR JUEGO", "VOLVER",
"JUGAR" and the flashlight button. -/
structure UIInput where
  ResetClicked : Bool
  VerControlesClicked : Bool
  IniciarJuegoClicked : Bool
  VolverClicked : Bool
  JugarClicked : Bool
  FlashlightClicked : Bool

/-- Inputs of one call of `Update`: the buttons, `ImGui::IsKeyReleased(ImGuiKey_F)`, the
elapsed time, and what `m_Camera.Update(m_InputController, dt)` does to the camera position
(the camera class is not among the sources). -/
structure FrameInput (F : Type) where
  ui : UIInput
  KeyF_Released : Bool
  ElapsedTime : F
  CameraUpdate : float3 F → float3 F

/-- The writes of `UpdateUI`: the reset button of the game-over screen, then the start
screen or the controls screen (each returns), then the flashlight button. -/
def UpdateUI (ui : UIInput) (s : GameState F) : GameState F :=
  let s1 := if s.m_IsGameOver = true ∧ ui.ResetClicked = true then resetGame s else s
  if s1.m_ShowStartScreen = true then
    let s2 := if ui.VerControlesClicked = true
      then { s1 with m_ShowControlsScreen := true, m_ShowStartScreen := false } else s1
    if ui.IniciarJuegoClicked = true then { s2 with m_ShowStartScreen := false } else s2
  else if s1.m_ShowControlsScreen = true then
    let s2 := if ui.VolverClicked = true
      then { s1 with m_ShowControlsScreen := false, m_ShowStartScreen := true } else s1
    if ui.JugarClicked = true then { s2 with m_ShowControlsScreen := false } else s2
  else if ui.FlashlightClicked = true
    then { s1 with m_FlashlightEnabled := !s1.m_FlashlightEnabled } else s1

/-- The position `{modelMat[3][0], modelMat[3][1], modelMat[3][2]}` read in the transpose of
a model matrix (lines 1450-1451 and 1469-1471). -/
def monsterPosOf (ModelMat : float4x4 F) : float3 F :=
  ⟨ModelMat.transpose 3 0, ModelMat.transpose 3 1, ModelMat.transpose 3 2⟩

/-- The hostile chase (lines 1444-1465): past the distance 1.5 the hostile steps towards the
camera by `3 * dt` along `normalize(camPos - monsterPos)` and is put at height 3; its model
matrix is rewritten in both cases. With a camera position that is not a number the
comparison `distance > 1.5` is false. -/
def hostileChase (M : MathLib F) (dt : F) (s : GameState F) : GameState F :=
  match s.DynamicObjects with
  | [] => s
  | idx :: _ =>
    let monsterPos := monsterPosOf (objectAt s.Objects idx).ModelMat
    let newPos : float3 F :=
      match s.CameraPos with
      | none => monsterPos
      | some camPos =>
        let distance := length M.sqrt (camPos.sub monsterPos)
        if distance > 3 / 2 then
          let dirToCamera := (camPos.sub monsterPos).divScalar (length M.sqrt (camPos.sub monsterPos))
          let moved := monsterPos.add ((dirToCamera.scale 3).scale dt)
          ⟨moved.x, 3, moved.z⟩
        else monsterPos
    { s with Objects := setModelMat s.Objects idx
               (Scale 1 1 1 * Translation newPos.x newPos.y newPos.z).transpose }

/-- The distance `length(playerPos - monsterPos)` of line 1472, the hostile being the first
dynamic object (reading it in an empty list is undefined in the source); `none` when the
camera position is not a number. -/
def playerDistance (M : MathLib F) (s : GameState F) : Option F :=
  s.CameraPos.map (fun playerPos =>
    length M.sqrt (playerPos.sub
      (monsterPosOf (objectAt s.Objects (s.DynamicObjects.headD 0)).ModelMat)))

/-- The damage block of `Update` on the distance of line 1472; with a distance that is not
a number `distance < 2.0f` is false. -/
def damageStage (M : MathLib F) (dt : F) (s : GameState F) : GameState F :=
  match playerDistance M s with
  | some distance => damageUpdate distance dt s
  | none => { s with m_TimeSinceLastDamage := 0 }

/-- The fade of the damage overlay (lines 1499-1504). -/
def overlayFade (dt : F) (s : GameState F) : GameState F :=
  if s.m_PostDamageOverlayAlpha > 0 then
    { s with m_PostDamageOverlayTimer := s.m_PostDamageOverlayTimer + dt
             m_PostDamageOverlayAlpha :=
               max 0 (1 - (s.m_PostDamageOverlayTimer + dt) / s.m_PostDamageOverlayDuration) }
  else s

/-- The local `NewCamPos` after `HandleCollisions(NewCamPos, 0.5f)` (lines 1507-1508). -/
def resolveCamera (M : MathLib F) (s : GameState F) : Option (float3 F) :=
  s.CameraPos.bind (fun p => HandleCollisions M.sqrt s.MazeWalls p (1 / 2))

/-- The call `HandleKeyCollection(NewCamPos, 0.5f)` (line 1509); with a position that is not
a number no comparison `dist < camRadius` holds and no key is collected. -/
def keyStage (M : MathLib F) (NewCamPos : Option (float3 F)) (s : GameState F) : GameState F :=
  match NewCamPos with
  | some p => HandleKeyCollection M.sqrt p (1 / 2) s
  | none => s

/-- The timer of the unlock message (lines 1510-1515). -/
def unlockMsgTick (dt : F) (s : GameState F) : GameState F :=
  if s.m_ShowUnlockMsg = true then
    if s.m_UnlockMsgTimer + dt ≥ s.m_UnlockMsgTime then
      { s with m_UnlockMsgTimer := s.m_UnlockMsgTimer + dt, m_ShowUnlockMsg := false }
    else { s with m_UnlockMsgTimer := s.m_UnlockMsgTimer + dt }
  else s

/-- The library function `clamp` on one component, for bounds `lo <= hi`. -/
def clamp (v lo hi : F) : F := max lo (min v hi)

/-- The camera clamp (lines 1539-1553): `NewCamPos.y` is clamped to `[0.1, 60]`, the
position is set, its height is put at 3 and it is clamped to the box from
`(-100, 0.1, -100)` to `(100, 60, 100)`. -/
def clampCamera (NewCamPos : Option (float3 F)) : Option (float3 F) :=
  NewCamPos.map (fun p =>
    let p1 : float3 F := ⟨p.x, max (1 / 10) (min p.y 60), p.z⟩
    let Pos : float3 F := ⟨p1.x, 3, p1.z⟩
    ⟨clamp Pos.x (-100) 100, clamp Pos.y (1 / 10) 60, clamp Pos.z (-100) 100⟩)

/-- The loop over the dynamic objects (lines 1558-1567): each is rotated about the vertical
axis, the speed growing by the factor 1.5 from one object to the next. -/
def rotateDynamic (M : MathLib F) (dt : F) :
    List Nat → F → List (ObjectAttribs F) → List (ObjectAttribs F)
  | [], _, Objects => Objects
  | idx :: rest, RotationSpeed, Objects =>
    rotateDynamic M dt rest (RotationSpeed * (3 / 2))
      (setModelMat Objects idx
        (M.RotationY (M.PI_F * dt * RotationSpeed) *
          (objectAt Objects idx).ModelMat.transpose).transpose)

/-- The start of the simulation (lines 1428-1442): the flashlight key, the damage effect
timer, and the camera advanced from the input. -/
def advanceCamera (inp : FrameInput F) (s : GameState F) : GameState F :=
  let s1 := if inp.KeyF_Released = true
    then { s with m_FlashlightEnabled := !s.m_FlashlightEnabled } else s
  let s2 := if s1.m_DamageEffectTimer > 0
    then { s1 with m_DamageEffectTimer := s1.m_DamageEffectTimer - inp.ElapsedTime } else s1
  { s2 with CameraPos := s2.CameraPos.map inp.CameraUpdate }

/-- The part of `Update` between the screens test and the door loop (lines 1428-1517): the
state the door loop starts from, and the local `NewCamPos`. -/
def tickBeforeDoors (M : MathLib F) (inp : FrameInput F) (s : GameState F) :
    GameState F × Option (float3 F) :=
  let dt := inp.ElapsedTime
  let s3 := advanceCamera inp s
  let s4 := hostileChase M dt s3
  let s5 := damageStage M dt s4
  let s6 := overlayFade dt s5
  let NewCamPos := resolveCamera M s6
  let s7 := keyStage M NewCamPos s6
  let s8 := unlockMsgTick dt s7
  (TryOpenDoors s8, NewCamPos)

/-- The part of `Update` after the screens test (lines 1428-1568). The second call
`m_Camera.Update(m_InputController, 0)`, with no elapsed time, leaves the position. -/
def simulate (M : MathLib F) (inp : FrameInput F) (s : GameState F) : GameState F :=
  let r := tickBeforeDoors M inp s
  let s1 := doorAnimation inp.ElapsedTime r.1
  let s2 := { s1 with CameraPos := clampCamera r.2 }
  { s2 with Objects := rotateDynamic M inp.ElapsedTime s2.DynamicObjects (15 / 100) s2.Objects }

/-- The function `Update`: `UpdateUI`, the return while the start screen or the controls
screen is shown, then the simulation. -/
def Update (M : MathLib F) (inp : FrameInput F) (s : GameState F) : GameState F :=
  if (UpdateUI inp.ui s).m_ShowStartScreen = true ∨ (UpdateUI inp.ui s).m_ShowControlsScreen = true
  then UpdateUI inp.ui s
  else simulate M inp (UpdateUI inp.ui s)

/-- The order of the stages as the specification words it (section 4.5): advance the camera
from input, resolve collisions against the wall volumes, run the key and door controller,
run the hostile and damage update on the state so produced, clamp the camera. -/
def simulateSpecOrder (M : MathLib F) (inp : FrameInput F) (s : GameState F) : GameState F :=
  let dt := inp.ElapsedTime
  let s3 := advanceCamera inp s
  let NewCamPos := resolveCamera M s3
  let s4 := { s3 with CameraPos := NewCamPos }
  let s5 := keyStage M NewCamPos s4
  let s6 := unlockMsgTick dt s5
  let s7 := doorAnimation dt (TryOpenDoors s6)
  let s8 := hostileChase M dt s7
  let s9 := damageStage M dt s8
  let s10 := overlayFade dt s9
  let s11 := { s10 with CameraPos := clampCamera NewCamPos }
  { s11 with Objects := rotateDynamic M dt s11.DynamicObjects (15 / 100) s11.Objects }

/-! ## Vocabulary of the claims about the grid passes -/

/-- Tile class `Door(10..17)`: the test of line 421. -/
def isDoorCode (c : Int) : Bool := decide (10 ≤ c ∧ c ≤ 17)

/-- Tile class `Decoration(2..9, 19)`: the test of line 491. -/
def isDecorationCode (c : Int) : Bool := decide ((2 ≤ c ∧ c ≤ 9) ∨ c = 19)

/-- Tile classes emitted by Pass 1: `Wall(1)`, `Door`, `Decoration`. -/
def isStructuralCode (c : Int) : Bool := decide (c = 1) || isDoorCode c || isDecorationCode c

/-- Tile class `Key(20..27)`: the test of line 560. -/
def isKeyCode (c : Int) : Bool := decide (20 ≤ c ∧ c ≤ 27)

/-- Placement of an emitted run: the wall branch for code 1, the run branch otherwise. -/
def placementOf (g : TileGrid) (r : Run) : F × F × F × F :=
  if r.blockType = 1 then wallPlacement g r.z r.x else runPlacement g r

/-- What Pass 1 pushes for the run `r`: object, volume and, for a door code, the door. -/
def emitRun (P : SceneParams) (g : TileGrid) (r : Run) (s : GameState F) : GameState F :=
  if isDoorCode r.blockType then pushDoor P r.blockType (placementOf g r) s
  else pushBlock P r.blockType (placementOf g r) s

/-- The door records pushed for a list of runs when the wall table, the object table and the
id counter start at `wallBase`, `objBase` and `nextId`. -/
def doorsOfRuns (wallBase objBase : Nat) (nextId : Int) : List Run → List (Door F)
  | [] => []
  | r :: rs =>
    if isDoorCode r.blockType then
      { WallIdx := wallBase, ObjectIdx := objBase, Opened := false, Rising := false,
        RiseTimer := 0, RiseSpeed := 2, OriginalMat := 0, Id := nextId } ::
        doorsOfRuns (wallBase + 1) (objBase + 1) (nextId + 1) rs
    else doorsOfRuns (wallBase + 1) (objBase + 1) nextId rs

/-- Invariant of Pass 1 on the grid `g`: a cell is marked visited exactly when one emitted run
covers it, no cell is covered twice, and every run lies in the grid on cells of its own,
structural, code. -/
def Pass1Inv (g : TileGrid) (st : Pass1State F) : Prop :=
  (∀ cz cx, st.runs.countP (fun r => r.covers cz cx) = if st.visited cz cx then 1 else 0) ∧
  (∀ r ∈ st.runs, ∀ cz cx, r.covers cz cx = true →
      cz < g.mazeRows ∧ cx < g.mazeCols ∧ g.maze cz cx = r.blockType) ∧
  (∀ r ∈ st.runs, isStructuralCode r.blockType = true ∧ 1 ≤ r.runLength)

/-- Progress of the scan of Pass 1: every structural cell before `(z, x)` in row-major order
is visited. -/
def Pass1Done (g : TileGrid) (st : Pass1State F) (z x : Nat) : Prop :=
  ∀ cz cx, cx < g.mazeCols → (cz < z ∨ (cz = z ∧ cx < x)) →
    isStructuralCode (g.maze cz cx) = true → st.visited cz cx = true

/-- The key records pushed for a list of key cells when the object table starts at
`objBase`, the doors are `doors` and their objects are read in `objects`. -/
def keysOfCells (P : SceneParams) (g : TileGrid) (bindings : List KeyDoorBinding)
    (objects : List (ObjectAttribs F)) (doors : List (Door F)) :
    Nat → List (Nat × Nat) → List (Key F)
  | _, [] => []
  | objBase, c :: cs =>
    makeKey g c.1 c.2 objBase
      (matchingDoorIds P objects (findDoorType bindings (g.maze c.1 c.2)) doors) ::
      keysOfCells P g bindings objects doors (objBase + 1) cs

/-- Invariant of Pass 2 started on the object table `O`, the key table `K`, the doors `D`
and the bindings `B`: doors, walls and bindings are untouched, one object and one key are
pushed per logged key cell, and only key-coded cells are visited on top of `v0`. -/
def Pass2Inv (P : SceneParams) (g : TileGrid) (s0 : GameState F) (v0 : Nat → Nat → Bool)
    (st : Pass2State F) : Prop :=
  st.scene.m_Doors = s0.m_Doors ∧ st.scene.MazeWalls = s0.MazeWalls ∧
  st.scene.m_KeyDoorBindings = s0.m_KeyDoorBindings ∧
  st.scene.m_nextDoorId = s0.m_nextDoorId ∧
  st.scene.Objects = s0.Objects ++
    st.keyCells.map (fun c => keyObject P g c.1 c.2 (g.maze c.1 c.2)) ∧
  st.scene.m_Keys = s0.m_Keys ++
    keysOfCells P g s0.m_KeyDoorBindings s0.Objects s0.m_Doors s0.Objects.length st.keyCells ∧
  (∀ cz cx, st.keyCells.countP (fun c => decide (c = (cz, cx))) =
    if st.visited cz cx = true ∧ v0 cz cx = false then 1 else 0) ∧
  (∀ cz cx, v0 cz cx = true → st.visited cz cx = true) ∧
  (∀ c ∈ st.keyCells, c.1 < g.mazeRows ∧ c.2 < g.mazeCols ∧ isKeyCode (g.maze c.1 c.2) = true)

/-- Invariant of the damage state machine under sustained contact, `T` being the contact
time so far and `c` the cooldown: either the game runs, `k <= 3` damage steps were taken, the
health is `100 - 25 k` and the timer holds the remainder `T - c k` below the cooldown; or the
game is over, the health is 0 and at least four cooldowns have passed. -/
def DamageInv (c T : F) (s : GameState F) : Prop :=
  s.m_DamageCooldown = c ∧
  ((s.m_IsGameOver = false ∧ 0 ≤ s.m_TimeSinceLastDamage ∧ s.m_TimeSinceLastDamage < c ∧
      ∃ k : Nat, k ≤ 3 ∧ s.m_Health = 100 - 25 * (k : Int) ∧
        s.m_TimeSinceLastDamage = T - c * (k : F)) ∨
    (s.m_IsGameOver = true ∧ s.m_Health = 0 ∧ 4 * c ≤ T))

/-- The number `n` is the length of the maximal rightward run of the seed `(z, x)`: the seed
counted, the cells `(z, x + i)`, `1 <= i < n`, are in the grid, unvisited and of the code
`blockType`, and the cell `(z, x + n)` is not. -/
def IsMaxRunX (g : TileGrid) (visited : Nat → Nat → Bool) (z x : Nat) (blockType : Int)
    (n : Nat) : Prop :=
  1 ≤ n ∧
  (∀ i, 1 ≤ i → i < n →
    x + i < g.mazeCols ∧ g.maze z (x + i) = blockType ∧ visited z (x + i) = false) ∧
  ¬ (x + n < g.mazeCols ∧ g.maze z (x + n) = blockType ∧ visited z (x + n) = false)

/-- The number `n` is the length of the maximal downward run of the seed `(z, x)`. -/
def IsMaxRunZ (g : TileGrid) (visited : Nat → Nat → Bool) (z x : Nat) (blockType : Int)
    (n : Nat) : Prop :=
  1 ≤ n ∧
  (∀ i, 1 ≤ i → i < n →
    z + i < g.mazeRows ∧ g.maze (z + i) x = blockType ∧ visited (z + i) x = false) ∧
  ¬ (z + n < g.mazeRows ∧ g.maze (z + n) x = blockType ∧ visited (z + n) x = false)

/-- The box of one cell: side 2 around the centre `((x - cols / 2) * 2, (z - rows / 2) * 2)`
of the cell `(z, x)`, from the ground to the height 3. -/
def cellBox (g : TileGrid) (z x : Nat) : AABB F :=
  ⟨⟨((x : F) - (g.mazeCols : F) / 2) * 2 - 1, 0, ((z : F) - (g.mazeRows : F) / 2) * 2 - 1⟩,
   ⟨((x : F) - (g.mazeCols : F) / 2) * 2 + 1, 3, ((z : F) - (g.mazeRows : F) / 2) * 2 + 1⟩⟩

/-- The point `p` lies in the box `b`, faces included. -/
def AABB.contains (b : AABB F) (p : float3 F) : Prop :=
  (b.min.x ≤ p.x ∧ p.x ≤ b.max.x) ∧ (b.min.y ≤ p.y ∧ p.y ≤ b.max.y) ∧
  (b.min.z ≤ p.z ∧ p.z ≤ b.max.z)

/-- The `i`-th cell of a run: `(z, x + i)` when horizontal, `(z + i, x)` when vertical. -/
def Run.cell (r : Run) (i : Nat) : Nat × Nat :=
  if r.horizontal then (r.z, r.x + i) else (r.z + i, r.x)

/-! ## Vocabulary of the claims about keys and doors -/

/-- A key is picked up by a call of `HandleKeyCollection`: it is not collected yet and the
clamped closest point of its box is at distance below the radius. -/
def keyHit (sqrt : F → F) (camPos : float3 F) (camRadius : F) (key : Key F) : Bool :=
  !key.Collected && decide (keyDistance sqrt camPos key < camRadius)

/-- The door ids bound to the keys of the list that are picked up by the call. -/
def hitDoorIds (sqrt : F → F) (camPos : float3 F) (camRadius : F) : List (Key F) → List Int
  | [] => []
  | key :: rest =>
    if keyHit sqrt camPos camRadius key then key.DoorIds ++ hitDoorIds sqrt camPos camRadius rest
    else hitDoorIds sqrt camPos camRadius rest

/-- Open the door when it is not opened and its id is one of `ids`. -/
def openIf (Objects : List (ObjectAttribs F)) (ids : List Int) (door : Door F) : Door F :=
  if door.Opened = false ∧ door.Id ∈ ids then openDoor Objects door else door

/-- State of the tables that the key and door code relies on: door ids are pairwise
distinct, and no key shares its object with a door. -/
def KeysDoorsWellFormed (s : GameState F) : Prop :=
  (s.m_Doors.map Door.Id).Nodup ∧
  ∀ k ∈ s.m_Keys, ∀ d ∈ s.m_Doors, k.ObjectIdx ≠ d.ObjectIdx

/-- Rise offset of a door after a tick of `dt`: `(RiseTimer + dt) * RiseSpeed`. -/
def doorOffset (dt : F) (door : Door F) : F := (door.RiseTimer + dt) * door.RiseSpeed

/-- The door record after one tick of the animation loop. -/
def tickDoor (dt : F) (door : Door F) : Door F :=
  if door.Rising = false then door
  else if doorOffset dt door > 3 then
    { door with RiseTimer := door.RiseTimer + dt, Rising := false }
  else { door with RiseTimer := door.RiseTimer + dt }

/-- The model matrix the animation loop leaves on the object of a rising door. -/
def risenMat (dt : F) (door : Door F) : float4x4 F :=
  if doorOffset dt door > 3 then (Scale 0 0 0).transpose
  else door.OriginalMat * (Translation 0 (doorOffset dt door) 0).transpose

/-- State of the tables that the door animation relies on: the doors point into the wall and
object tables, and no two doors share a wall volume or an object. -/
def DoorsWellFormed (s : GameState F) : Prop :=
  (s.m_Doors.map Door.WallIdx).Nodup ∧ (s.m_Doors.map Door.ObjectIdx).Nodup ∧
  ∀ d ∈ s.m_Doors, d.WallIdx < s.MazeWalls.length ∧ d.ObjectIdx < s.Objects.length

/-- The world-space translation of an instance: the last row of the transpose of its model
matrix, where `Translation` puts the offset and where the source reads a position (lines
1450-1451). -/
def worldTranslation (ModelMat : float4x4 F) : float3 F :=
  ⟨ModelMat.transpose 3 0, ModelMat.transpose 3 1, ModelMat.transpose 3 2⟩

/-- The scale and rotation part of an instance: the upper left 3 x 3 block of the transpose
of its model matrix. -/
def linearPart (ModelMat : float4x4 F) : Matrix (Fin 3) (Fin 3) F :=
  fun i j => ModelMat.transpose i.castSucc j.castSucc

/-! ## Vocabulary of the claims about a tick -/

/-- What an operation of the tick keeps of a door: its id and its indices, `Opened` once it
is true, and the whole record once the door is opened and no longer rising. -/
def doorStays (d d2 : Door F) : Prop :=
  d2.Id = d.Id ∧ d2.WallIdx = d.WallIdx ∧ d2.ObjectIdx = d.ObjectIdx ∧
  (d.Opened = true → d2.Opened = true) ∧
  (d.Opened = true → d.Rising = false → d2 = d)

/-- What an operation of the tick keeps of the tables: their sizes, the dynamic objects and
the objects of the keys, the doors in the sense of `doorStays`, every object that no key, no
dynamic object and no door other than risen ones refers to, and every wall volume that no
door other than risen ones refers to. -/
def TickStep (s s2 : GameState F) : Prop :=
  s2.MazeWalls.length = s.MazeWalls.length ∧
  s2.Objects.length = s.Objects.length ∧
  s2.DynamicObjects = s.DynamicObjects ∧
  s2.m_Keys.map Key.ObjectIdx = s.m_Keys.map Key.ObjectIdx ∧
  List.Forall₂ doorStays s.m_Doors s2.m_Doors ∧
  (∀ j, (∀ k ∈ s.m_Keys, k.ObjectIdx ≠ j) → (∀ i ∈ s.DynamicObjects, i ≠ j) →
    (∀ d ∈ s.m_Doors, d.ObjectIdx = j → d.Opened = true ∧ d.Rising = false) →
    objectAt s2.Objects j = objectAt s.Objects j) ∧
  (∀ j, (∀ d ∈ s.m_Doors, d.WallIdx = j → d.Opened = true ∧ d.Rising = false) →
    wallAt s2.MazeWalls j = wallAt s.MazeWalls j)

/-- State of the tables that a tick relies on: `DoorsWellFormed`, and no door shares its
object with a key or with a dynamic object. -/
def SceneWellFormed (s : GameState F) : Prop :=
  DoorsWellFormed s ∧
  (∀ k ∈ s.m_Keys, ∀ d ∈ s.m_Doors, k.ObjectIdx ≠ d.ObjectIdx) ∧
  (∀ i ∈ s.DynamicObjects, ∀ d ∈ s.m_Doors, i ≠ d.ObjectIdx)

/-- The doors with `Opened = true` keep it from `s` to `s2`. -/
def OpenedStays (s s2 : GameState F) : Prop :=
  List.Forall₂ (fun (d d2 : Door F) => d.Opened = true → d2.Opened = true) s.m_Doors s2.m_Doors

/-- The doors that are opened and no longer rising keep their record, their wall volume and
their object from `s` to `s2`. -/
def RisenUntouched (s s2 : GameState F) : Prop :=
  List.Forall₂
    (fun (d d2 : Door F) => d.Opened = true → d.Rising = false →
      d2 = d ∧ wallAt s2.MazeWalls d.WallIdx = wallAt s.MazeWalls d.WallIdx ∧
        objectAt s2.Objects d.ObjectIdx = objectAt s.Objects d.ObjectIdx)
    s.m_Doors s2.m_Doors

/-- One operation of the gameplay on the tables: a call of `HandleKeyCollection`, a call of
`TryOpenDoors`, a run of the door animation loop, a hostile chase, or a whole `Update`. -/
inductive TickOp (F : Type) where
  | keys (camPos : float3 F) (camRadius : F)
  | tryOpen
  | animate (dt : F)
  | chase (dt : F)
  | update (inp : FrameInput F)

/-- The state after one operation. -/
def applyOp (M : MathLib F) (op : TickOp F) (s : GameState F) : GameState F :=
  match op with
  | TickOp.keys camPos camRadius => HandleKeyCollection M.sqrt camPos camRadius s
  | TickOp.tryOpen => TryOpenDoors s
  | TickOp.animate dt => doorAnimation dt s
  | TickOp.chase dt => hostileChase M dt s
  | TickOp.update inp => Update M inp s

/-- The state after a sequence of operations, first to last. -/
def runOps (M : MathLib F) : List (TickOp F) → GameState F → GameState F
  | [], s => s
  | op :: rest, s => runOps M rest (applyOp M op s)

/-- A step that leaves a door record or opens a closed one. -/
def doorOpens (d d2 : Door F) : Prop :=
  d2 = d ∨ (d.Opened = false ∧ d2.Opened = true ∧ d2.Rising = true)

/-- The three states of a door: closed (`Opened = false`, `Rising = false`), rising (both
true), risen (`Opened = true`, `Rising = false`, its wall volume the zero box and the model
matrix of its object the zero-scale matrix). -/
def DoorStateInv (s : GameState F) : Prop :=
  ∀ d ∈ s.m_Doors,
    (d.Rising = true → d.Opened = true) ∧
    (d.Opened = true → d.Rising = false →
      wallAt s.MazeWalls d.WallIdx = zeroBox ∧
      (objectAt s.Objects d.ObjectIdx).ModelMat = (Scale 0 0 0).transpose)

/-! ## Fixtures of the scenarios -/

/-- Empty tables, as before `CreateSceneObjects` has run, with full health. The members whose
initial values are set in the header are given the values the scenarios start from: id counter
0, health 100, no game over, timers at 0, damage cooldown 1, unlock message time 3. -/
def emptyScene : GameState F :=
  { Objects := [], ObjectInstances := [], DynamicObjects := [], MazeWalls := [], m_Keys := [],
    m_KeysCollected := 0, m_Doors := [], m_ShowUnlockMsg := false, m_UnlockMsgTimer := 0,
    m_UnlockMsgTime := 3, m_KeyDoorBindings := [], m_nextDoorId := 0, m_Health := 100,
    m_IsGameOver := false, m_TimeSinceLastDamage := 0, m_DamageCooldown := 1,
    m_DamageEffectTimer := 0, m_PostDamageOverlayAlpha := 0, m_PostDamageOverlayTimer := 0,
    m_PostDamageOverlayDuration := 1, m_FlashlightEnabled := false, m_ShowStartScreen := false,
    m_ShowControlsScreen := false, CameraPos := some ⟨0, 0, 0⟩ }

/-- The 3 x 3 grid of the key and door scenario: a key of code 20 in the corner of the first
row, a horizontal run of three door tiles of code 10 in the second row. -/
def scenarioGrid : TileGrid :=
  ⟨3, 3, fun z x => (([[0, 0, 20], [10, 10, 10], [0, 0, 0]] : List (List Int)).getD z []).getD x 0⟩

/-- Material range and mesh ids used in the scenarios. -/
def scenarioParams : SceneParams := ⟨0, 18, 0, 1⟩

/-- A scene with one closed door (id 0, wall volume 0, object 0) and one key bound to it
(object 1, box from `(0, 0, 0)` to `(1, 1, 1)`). -/
def oneDoorScene : GameState F :=
  { (emptyScene : GameState F) with
    Objects := [{ ModelMat := (Scale (3 : F) 3 1 * Translation 0 (3 - 1 / 5) 5).transpose
                  MaterialId := 9
                  MeshId := 0 },
                { ModelMat := (Scale (1 / 2 : F) (1 / 2) (1 / 2) *
                    Translation (1 / 2) (1 / 2) (1 / 2)).transpose
                  MaterialId := 19
                  MeshId := 0 }]
    MazeWalls := [⟨⟨-3, 0, 4⟩, ⟨3, 3, 6⟩⟩]
    m_Doors := [{ WallIdx := 0, ObjectIdx := 0, Opened := false, Rising := false,
                  RiseTimer := 0, RiseSpeed := 2, OriginalMat := 0, Id := 0 }]
    m_Keys := [{ Min := ⟨0, 0, 0⟩, Max := ⟨1, 1, 1⟩, Collected := false, ObjectIdx := 1,
                 WallIdx := -1, DoorIds := [0] }]
    m_nextDoorId := 1 }

/-- The scene `oneDoorScene` with its door opened and rising, one second into the rise. -/
def risingDoorScene : GameState F :=
  { (oneDoorScene : GameState F) with
    m_Doors := [{ WallIdx := 0, ObjectIdx := 0, Opened := true, Rising := true,
                  RiseTimer := 1, RiseSpeed := 2,
                  OriginalMat := (Scale (3 : F) 3 1 * Translation 0 (3 - 1 / 5) 5).transpose,
                  Id := 0 }] }

/-- The scene `oneDoorScene` with its door risen: opened, no longer rising, its wall volume
zeroed and its object scaled to zero. -/
def risenDoorScene : GameState F :=
  { (oneDoorScene : GameState F) with
    Objects := [{ ModelMat := (Scale (0 : F) 0 0).transpose
                  MaterialId := 9
                  MeshId := 0 },
                { ModelMat := (Scale (1 / 2 : F) (1 / 2) (1 / 2) *
                    Translation (1 / 2) (1 / 2) (1 / 2)).transpose
                  MaterialId := 19
                  MeshId := 0 }]
    MazeWalls := [zeroBox]
    m_Doors := [{ WallIdx := 0, ObjectIdx := 0, Opened := true, Rising := false,
                  RiseTimer := 2, RiseSpeed := 2,
                  OriginalMat := (Scale (3 : F) 3 1 * Translation 0 (3 - 1 / 5) 5).transpose,
                  Id := 0 }] }

/-- The maths library over a given square root, cosine, sine and value of pi, `RotationY`
being the rotation about the vertical axis in the row-vector convention of the engine. -/
def mathLibOf (sqrt cos sin : F → F) (pi : F) : MathLib F :=
  { sqrt := sqrt
    PI_F := pi
    RotationY := fun a =>
      Matrix.of ![![cos a, 0, -sin a, 0], ![0, 1, 0, 0], ![sin a, 0, cos a, 0], ![0, 0, 0, 1]] }

/-- A frame of one millisecond with no button clicked, no key released and no camera
input. -/
def stillInput : FrameInput F :=
  { ui := ⟨false, false, false, false, false, false⟩
    KeyF_Released := false
    ElapsedTime := 1 / 1000
    CameraUpdate := fun p => p }

/-- A scene of the chase: the hostile (object 0, the only dynamic object) stands at
`(0, 3, 0)`; the camera is at `(1.5, 3, 0)`, at distance 0.04 of the face `x = 1.46` of the
only wall volume; the player has been in contact for 0.999 of the cooldown of one second. -/
def chaseScene : GameState F :=
  { (emptyScene : GameState F) with
    Objects := [{ ModelMat := (Scale (1 : F) 1 1 * Translation 0 3 0).transpose
                  MaterialId := 18
                  MeshId := 0 }]
    DynamicObjects := [0]
    MazeWalls := [⟨⟨1, 0, -1⟩, ⟨73 / 50, 3, 1⟩⟩]
    CameraPos := some ⟨3 / 2, 3, 0⟩
    m_TimeSinceLastDamage := 999 / 1000 }

end Scalars

/-! ## Theorems -/

section LoopLemmas

theorem forLoop_zero {σ : Type} (body : Nat → σ → σ) (s : σ) : forLoop 0 body s = s := rfl

theorem forLoop_succ {σ : Type} (n : Nat) (body : Nat → σ → σ) (s : σ) :
    forLoop (n + 1) body s = body n (forLoop n body s) := by
  simp [forLoop, List.range_succ, List.foldl_append]

/-- Invariant rule for `forLoop`. -/
theorem forLoop_induction {σ : Type} (n : Nat) (body : Nat → σ → σ) (s : σ)
    (Q : Nat → σ → Prop) (h0 : Q 0 s)
    (hstep : ∀ i, i < n → ∀ t, Q i t → Q (i + 1) (body i t)) : Q n (forLoop n body s) := by
  induction n with
  | zero => exact h0
  | succ k ih =>
    rw [forLoop_succ]
    exact hstep k (Nat.lt_succ_self k) _
      (ih (fun i hi t ht => hstep i (Nat.lt_succ_of_lt hi) t ht))

theorem length_setModelMat {F : Type} (O : List (ObjectAttribs F)) (i : Nat) (m : float4x4 F) :
    (setModelMat O i m).length = O.length := by
  simp [setModelMat]

end LoopLemmas

section ScanLemmas

theorem scanRunX_spec (g : TileGrid) (v : Nat → Nat → Bool) (z x : Nat) (c : Int) :
    ∀ (fuel run : Nat), run ≤ scanRunX g v z x c fuel run ∧
      (∀ i, run ≤ i → i < scanRunX g v z x c fuel run →
        x + i < g.mazeCols ∧ g.maze z (x + i) = c ∧ v z (x + i) = false) ∧
      (g.mazeCols ≤ x + run + fuel →
        ¬ (x + scanRunX g v z x c fuel run < g.mazeCols ∧
            g.maze z (x + scanRunX g v z x c fuel run) = c ∧
            v z (x + scanRunX g v z x c fuel run) = false)) := by
  intro fuel
  induction fuel with
  | zero =>
    intro run
    refine ⟨le_refl _, fun i h1 h2 => ?_, fun h hc => ?_⟩
    · simp only [scanRunX] at h2; omega
    · simp only [scanRunX] at hc; omega
  | succ k ih =>
    intro run
    by_cases hc : x + run < g.mazeCols ∧ g.maze z (x + run) = c ∧ v z (x + run) = false
    · have e : scanRunX g v z x c (k + 1) run = scanRunX g v z x c k (run + 1) := by
        simp only [scanRunX, if_pos hc]
      rw [e]
      obtain ⟨h1, h2, h3⟩ := ih (run + 1)
      refine ⟨by omega, fun i hi1 hi2 => ?_, fun h => h3 (by omega)⟩
      by_cases hi : i = run
      · subst hi; exact hc
      · exact h2 i (by omega) hi2
    · have e : scanRunX g v z x c (k + 1) run = run := by
        simp only [scanRunX, if_neg hc]
      rw [e]
      exact ⟨le_refl _, fun i h1 h2 => by omega, fun _ => hc⟩

theorem scanRunZ_spec (g : TileGrid) (v : Nat → Nat → Bool) (z x : Nat) (c : Int) :
    ∀ (fuel run : Nat), run ≤ scanRunZ g v z x c fuel run ∧
      (∀ i, run ≤ i → i < scanRunZ g v z x c fuel run →
        z + i < g.mazeRows ∧ g.maze (z + i) x = c ∧ v (z + i) x = false) ∧
      (g.mazeRows ≤ z + run + fuel →
        ¬ (z + scanRunZ g v z x c fuel run < g.mazeRows ∧
            g.maze (z + scanRunZ g v z x c fuel run) x = c ∧
            v (z + scanRunZ g v z x c fuel run) x = false)) := by
  intro fuel
  induction fuel with
  | zero =>
    intro run
    refine ⟨le_refl _, fun i h1 h2 => ?_, fun h hc => ?_⟩
    · simp only [scanRunZ] at h2; omega
    · simp only [scanRunZ] at hc; omega
  | succ k ih =>
    intro run
    by_cases hc : z + run < g.mazeRows ∧ g.maze (z + run) x = c ∧ v (z + run) x = false
    · have e : scanRunZ g v z x c (k + 1) run = scanRunZ g v z x c k (run + 1) := by
        simp only [scanRunZ, if_pos hc]
      rw [e]
      obtain ⟨h1, h2, h3⟩ := ih (run + 1)
      refine ⟨by omega, fun i hi1 hi2 => ?_, fun h => h3 (by omega)⟩
      by_cases hi : i = run
      · subst hi; exact hc
      · exact h2 i (by omega) hi2
    · have e : scanRunZ g v z x c (k + 1) run = run := by
        simp only [scanRunZ, if_neg hc]
      rw [e]
      exact ⟨le_refl _, fun i h1 h2 => by omega, fun _ => hc⟩

/-- The run chosen at an unvisited seed covers the seed and only unvisited cells of the grid
that carry the seed's code. -/
theorem seedRun_spec (g : TileGrid) (v : Nat → Nat → Bool) (z x : Nat)
    (hz : z < g.mazeRows) (hx : x < g.mazeCols) (hv : v z x = false) :
    (seedRun g v z x (g.maze z x)).covers z x = true ∧
    1 ≤ (seedRun g v z x (g.maze z x)).runLength ∧
    (seedRun g v z x (g.maze z x)).blockType = g.maze z x ∧
    ∀ cz cx, (seedRun g v z x (g.maze z x)).covers cz cx = true →
      cz < g.mazeRows ∧ cx < g.mazeCols ∧ g.maze cz cx = g.maze z x ∧ v cz cx = false := by
  obtain ⟨hx1, hx2, -⟩ := scanRunX_spec g v z x (g.maze z x) g.mazeCols 1
  obtain ⟨hz1, hz2, -⟩ := scanRunZ_spec g v z x (g.maze z x) g.mazeRows 1
  by_cases hh : scanRunX g v z x (g.maze z x) g.mazeCols 1 ≥
      scanRunZ g v z x (g.maze z x) g.mazeRows 1
  · have e : seedRun g v z x (g.maze z x) =
        ⟨z, x, g.maze z x, true, scanRunX g v z x (g.maze z x) g.mazeCols 1⟩ := by
      simp [seedRun, hh]
    rw [e]
    refine ⟨by simp [Run.covers]; omega, hx1, rfl, fun cz cx hc => ?_⟩
    simp only [Run.covers, if_true, decide_eq_true_eq] at hc
    obtain ⟨h1, h2, h3⟩ := hc
    subst h1
    by_cases h0 : cx = x
    · subst h0; exact ⟨hz, hx, rfl, hv⟩
    · have := hx2 (cx - x) (by omega) (by omega)
      rw [show x + (cx - x) = cx by omega] at this
      exact ⟨hz, this.1, this.2.1, this.2.2⟩
  · have e : seedRun g v z x (g.maze z x) =
        ⟨z, x, g.maze z x, false, scanRunZ g v z x (g.maze z x) g.mazeRows 1⟩ := by
      simp [seedRun, hh]
    rw [e]
    refine ⟨by simp [Run.covers]; omega, hz1, rfl, fun cz cx hc => ?_⟩
    simp only [Run.covers, Bool.false_eq_true, if_false, decide_eq_true_eq] at hc
    obtain ⟨h1, h2, h3⟩ := hc
    subst h1
    by_cases h0 : cz = z
    · subst h0; exact ⟨hz, hx, rfl, hv⟩
    · have := hz2 (cz - z) (by omega) (by omega)
      rw [show z + (cz - z) = cz by omega] at this
      exact ⟨this.1, hx, this.2.1, this.2.2⟩

end ScanLemmas

section Pass1Lemmas

variable {F : Type} [LinearOrderedField F]

theorem isStructuralCode_iff (c : Int) :
    isStructuralCode c = true ↔ c = 1 ∨ (10 ≤ c ∧ c ≤ 17) ∨ ((2 ≤ c ∧ c ≤ 9) ∨ c = 19) := by
  simp [isStructuralCode, isDoorCode, isDecorationCode, or_assoc]

/-- The body of Pass 1 either leaves the state alone, at a cell that is visited or not
structural, or emits one run seeded at the cell, over unvisited cells of the seed's code. -/
theorem pass1Cell_cases (P : SceneParams) (g : TileGrid) (z x : Nat) (st : Pass1State F)
    (hz : z < g.mazeRows) (hx : x < g.mazeCols) :
    (pass1Cell P g z x st = st ∧
      (isStructuralCode (g.maze z x) = true → st.visited z x = true)) ∨
    ∃ r : Run, r.covers z x = true ∧ isStructuralCode r.blockType = true ∧ 1 ≤ r.runLength ∧
      (∀ cz cx, r.covers cz cx = true →
        cz < g.mazeRows ∧ cx < g.mazeCols ∧ g.maze cz cx = r.blockType ∧
          st.visited cz cx = false) ∧
      pass1Cell P g z x st = ⟨markRun st.visited r, emitRun P g r st.scene, st.runs ++ [r]⟩ := by
  by_cases hv : st.visited z x = false
  swap
  · left
    refine ⟨?_, fun _ => by simpa using hv⟩
    simp [pass1Cell, hv]
  by_cases h0 : g.maze z x = 0
  · left
    refine ⟨by simp [pass1Cell, h0], fun h => ?_⟩
    rw [h0] at h
    simp [isStructuralCode, isDoorCode, isDecorationCode] at h
  have hguard : st.visited z x = false ∧ g.maze z x ≠ 0 := ⟨hv, h0⟩
  by_cases h1 : g.maze z x = 1
  · right
    refine ⟨⟨z, x, g.maze z x, true, 1⟩, by simp [Run.covers], ?_, le_refl _, ?_, ?_⟩
    · rw [h1]; rfl
    · intro cz cx hc
      simp only [Run.covers, if_true, decide_eq_true_eq] at hc
      obtain ⟨e1, e2, e3⟩ := hc
      have e4 : cx = x := by omega
      subst e1; subst e4
      exact ⟨hz, hx, rfl, hv⟩
    · simp only [pass1Cell, if_pos hguard, if_pos h1]
      congr 1
      · funext cz cx
        simp only [markRun, Run.covers, if_true, decide_eq_true_eq]
        by_cases hc : cz = z ∧ cx = x
        · rw [if_pos hc, if_pos ⟨hc.1, by omega, by omega⟩]
        · rw [if_neg hc, if_neg (fun h => hc ⟨h.1, by omega⟩)]
      · simp [emitRun, placementOf, h1, isDoorCode]
  by_cases h2 : 10 ≤ g.maze z x ∧ g.maze z x ≤ 17
  · right
    obtain ⟨s1, s2, s3, s4⟩ := seedRun_spec g st.visited z x hz hx hv
    refine ⟨seedRun g st.visited z x (g.maze z x), s1, ?_, s2, ?_, ?_⟩
    · rw [s3, isStructuralCode_iff]; exact Or.inr (Or.inl h2)
    · intro cz cx hc
      have := s4 cz cx hc
      exact ⟨this.1, this.2.1, by rw [s3]; exact this.2.2.1, this.2.2.2⟩
    · simp only [pass1Cell, if_pos hguard, if_neg h1, if_pos h2]
      congr 1
      simp [emitRun, placementOf, s3, h1, isDoorCode, h2]
  by_cases h3 : (2 ≤ g.maze z x ∧ g.maze z x ≤ 9) ∨ g.maze z x = 19
  · right
    obtain ⟨s1, s2, s3, s4⟩ := seedRun_spec g st.visited z x hz hx hv
    refine ⟨seedRun g st.visited z x (g.maze z x), s1, ?_, s2, ?_, ?_⟩
    · rw [s3, isStructuralCode_iff]; exact Or.inr (Or.inr h3)
    · intro cz cx hc
      have := s4 cz cx hc
      exact ⟨this.1, this.2.1, by rw [s3]; exact this.2.2.1, this.2.2.2⟩
    · simp only [pass1Cell, if_pos hguard, if_neg h1, if_neg h2, if_pos h3]
      congr 1
      have hnd : isDoorCode (g.maze z x) = false := by
        simp only [isDoorCode, decide_eq_false_iff_not]; exact h2
      simp [emitRun, placementOf, s3, h1, hnd]
  · left
    refine ⟨by simp only [pass1Cell, if_pos hguard, if_neg h1, if_neg h2, if_neg h3], fun h => ?_⟩
    rw [isStructuralCode_iff] at h
    rcases h with h | h | h
    · exact absurd h h1
    · exact absurd h h2
    · exact absurd h h3

theorem pass1Cell_inv (P : SceneParams) (g : TileGrid) (z x : Nat) (st : Pass1State F)
    (hz : z < g.mazeRows) (hx : x < g.mazeCols) (hI : Pass1Inv g st) :
    Pass1Inv g (pass1Cell P g z x st) := by
  rcases pass1Cell_cases P g z x st hz hx with ⟨e, -⟩ | ⟨r, -, r2, r3, r4, e⟩
  · rw [e]; exact hI
  · rw [e]
    obtain ⟨i1, i2, i3⟩ := hI
    refine ⟨fun cz cx => ?_, fun q hq cz cx hc => ?_, fun q hq => ?_⟩
    · simp only [List.countP_append, i1 cz cx, markRun]
      by_cases hc : r.covers cz cx = true
      · have hv := (r4 cz cx hc).2.2.2
        simp [List.countP_cons, hc, hv]
      · simp [List.countP_cons, hc]
    · rcases List.mem_append.mp hq with hq | hq
      · exact i2 q hq cz cx hc
      · rw [List.mem_singleton] at hq
        subst hq
        exact ⟨(r4 cz cx hc).1, (r4 cz cx hc).2.1, (r4 cz cx hc).2.2.1⟩
    · rcases List.mem_append.mp hq with hq | hq
      · exact i3 q hq
      · rw [List.mem_singleton] at hq
        subst hq
        exact ⟨r2, r3⟩

theorem pass1Cell_visited_mono (P : SceneParams) (g : TileGrid) (z x : Nat) (st : Pass1State F)
    (hz : z < g.mazeRows) (hx : x < g.mazeCols) (cz cx : Nat) (h : st.visited cz cx = true) :
    (pass1Cell P g z x st).visited cz cx = true := by
  rcases pass1Cell_cases P g z x st hz hx with ⟨e, -⟩ | ⟨r, -, -, -, -, e⟩
  · rw [e]; exact h
  · rw [e]; simp [markRun, h]

theorem pass1Cell_done (P : SceneParams) (g : TileGrid) (z x : Nat) (st : Pass1State F)
    (hz : z < g.mazeRows) (hx : x < g.mazeCols) (hD : Pass1Done g st z x) :
    Pass1Done g (pass1Cell P g z x st) z (x + 1) := by
  intro cz cx hcx hlt hs
  by_cases hnew : cz = z ∧ cx = x
  · obtain ⟨e1, e2⟩ := hnew
    subst e1; subst e2
    rcases pass1Cell_cases P g cz cx st hz hx with ⟨e, hvis⟩ | ⟨r, r1, -, -, -, e⟩
    · rw [e]; exact hvis hs
    · rw [e]; simp [markRun, r1]
  · exact pass1Cell_visited_mono P g z x st hz hx cz cx (hD cz cx hcx (by omega) hs)

theorem pass1Cell_scene (P : SceneParams) (g : TileGrid) (z x : Nat) (st : Pass1State F)
    (hz : z < g.mazeRows) (hx : x < g.mazeCols) (s0 : GameState F)
    (h : st.scene = st.runs.foldl (fun s r => emitRun P g r s) s0) :
    (pass1Cell P g z x st).scene =
      (pass1Cell P g z x st).runs.foldl (fun s r => emitRun P g r s) s0 := by
  rcases pass1Cell_cases P g z x st hz hx with ⟨e, -⟩ | ⟨r, -, -, -, -, e⟩
  · rw [e]; exact h
  · rw [e]; simp [List.foldl_append, h]

/-- Pass 1 started on a state that satisfies the invariant ends in a state that satisfies it,
in which every structural cell of the grid is visited and the scene is the initial scene with
the logged runs emitted in order. -/
theorem pass1_spec (P : SceneParams) (g : TileGrid) (st : Pass1State F) (s0 : GameState F)
    (hI : Pass1Inv g st) (hs : st.scene = st.runs.foldl (fun s r => emitRun P g r s) s0) :
    Pass1Inv g (pass1 P g st) ∧ Pass1Done g (pass1 P g st) g.mazeRows 0 ∧
      (pass1 P g st).scene = (pass1 P g st).runs.foldl (fun s r => emitRun P g r s) s0 := by
  unfold pass1
  refine forLoop_induction g.mazeRows _ st
    (fun z t => Pass1Inv g t ∧ Pass1Done g t z 0 ∧
      t.scene = t.runs.foldl (fun s r => emitRun P g r s) s0)
    ⟨hI, fun cz cx _ h _ => by omega, hs⟩ ?_
  intro z hz t ht
  have hinner := forLoop_induction g.mazeCols (fun x acc2 => pass1Cell P g z x acc2) t
    (fun x u => Pass1Inv g u ∧ Pass1Done g u z x ∧
      u.scene = u.runs.foldl (fun s r => emitRun P g r s) s0)
    ht
    (fun x hx u hu => ⟨pass1Cell_inv P g z x u hz hx hu.1, pass1Cell_done P g z x u hz hx hu.2.1,
      pass1Cell_scene P g z x u hz hx s0 hu.2.2⟩)
  refine ⟨hinner.1, fun cz cx hcx hlt hsc => ?_, hinner.2.2⟩
  refine hinner.2.1 cz cx hcx ?_ hsc
  omega

end Pass1Lemmas

section EmitLemmas

variable {F : Type} [LinearOrderedField F]

/-- Relational rule for `forLoop`: two runs of the same loop started on related states end
on related states. -/
theorem forLoop_rel {σ τ : Type} (n : Nat) (body : Nat → σ → σ) (body2 : Nat → τ → τ)
    (R : σ → τ → Prop) (s : σ) (t : τ) (h0 : R s t)
    (hstep : ∀ i, i < n → ∀ a b, R a b → R (body i a) (body2 i b)) :
    R (forLoop n body s) (forLoop n body2 t) := by
  induction n with
  | zero => exact h0
  | succ k ih =>
    rw [forLoop_succ, forLoop_succ]
    exact hstep k (Nat.lt_succ_self k) _ _
      (ih (fun i hi a b hab => hstep i (Nat.lt_succ_of_lt hi) a b hab))

/-- The tables after emitting a list of runs. -/
theorem emitRuns_tables (P : SceneParams) (g : TileGrid) (runs : List Run) :
    ∀ s : GameState F,
      (runs.foldl (fun s r => emitRun P g r s) s).MazeWalls =
        s.MazeWalls ++ runs.map (fun r => blockVolume (placementOf g r)) ∧
      (runs.foldl (fun s r => emitRun P g r s) s).Objects =
        s.Objects ++ runs.map (fun r => blockObject P r.blockType (placementOf g r)) ∧
      (runs.foldl (fun s r => emitRun P g r s) s).m_Doors =
        s.m_Doors ++ doorsOfRuns s.MazeWalls.length s.Objects.length s.m_nextDoorId runs ∧
      (runs.foldl (fun s r => emitRun P g r s) s).m_nextDoorId =
        s.m_nextDoorId + (runs.countP (fun r => isDoorCode r.blockType) : Nat) ∧
      (runs.foldl (fun s r => emitRun P g r s) s).m_Keys = s.m_Keys ∧
      (runs.foldl (fun s r => emitRun P g r s) s).m_KeyDoorBindings = s.m_KeyDoorBindings := by
  induction runs with
  | nil => intro s; simp [doorsOfRuns]
  | cons r rs ih =>
    intro s
    obtain ⟨h1, h2, h3, h4, h5, h6⟩ := ih (emitRun P g r s)
    simp only [List.foldl_cons, h1, h2, h3, h4, h5, h6]
    by_cases hd : isDoorCode r.blockType = true
    · simp [emitRun, hd, pushDoor, doorsOfRuns, List.countP_cons]
      ring
    · simp [emitRun, hd, pushBlock, doorsOfRuns, List.countP_cons]

theorem doorsOfRuns_length (wb ob : Nat) (i : Int) (runs : List Run) :
    (doorsOfRuns wb ob i runs : List (Door F)).length =
      runs.countP (fun r => isDoorCode r.blockType) := by
  induction runs generalizing wb ob i with
  | nil => rfl
  | cons r rs ih =>
    by_cases hd : isDoorCode r.blockType = true
    · simp [doorsOfRuns, hd, List.countP_cons, ih]
    · simp [doorsOfRuns, hd, List.countP_cons, ih]

/-- The runs and the visited table of Pass 1 do not depend on the scene tables. -/
theorem pass1_log_independent (P : SceneParams) (g : TileGrid) (st st2 : Pass1State F)
    (hv : st.visited = st2.visited) (hr : st.runs = st2.runs) :
    (pass1 P g st).visited = (pass1 P g st2).visited ∧
      (pass1 P g st).runs = (pass1 P g st2).runs := by
  unfold pass1
  refine forLoop_rel g.mazeRows _ _
    (fun a b : Pass1State F => a.visited = b.visited ∧ a.runs = b.runs) st st2 ⟨hv, hr⟩ ?_
  intro z _ a b hab
  refine forLoop_rel g.mazeCols _ _
    (fun a b : Pass1State F => a.visited = b.visited ∧ a.runs = b.runs) a b hab ?_
  intro x _ c d hcd
  obtain ⟨cv, cs, cr⟩ := c
  obtain ⟨dv, ds, dr⟩ := d
  obtain ⟨e1, e2⟩ := hcd
  simp only at e1 e2
  subst e1; subst e2
  simp only [pass1Cell]
  split_ifs <;> exact ⟨rfl, rfl⟩

end EmitLemmas

section Pass2Lemmas

variable {F : Type} [LinearOrderedField F]

theorem objectAt_append_left (O extra : List (ObjectAttribs F)) (i : Nat) (h : i < O.length) :
    objectAt (O ++ extra) i = objectAt O i := by
  simp [objectAt, List.getD_eq_getElem?_getD, List.getElem?_append_left h]

theorem matchingDoorIds_append (P : SceneParams) (O extra : List (ObjectAttribs F)) (t : Int)
    (D : List (Door F)) (h : ∀ d ∈ D, d.ObjectIdx < O.length) :
    matchingDoorIds P (O ++ extra) t D = matchingDoorIds P O t D := by
  induction D with
  | nil => rfl
  | cons d ds ih =>
    have hd := h d (List.mem_cons_self d ds)
    have ih2 := ih (fun e he => h e (List.mem_cons_of_mem d he))
    simp only [matchingDoorIds, objectAt_append_left O extra d.ObjectIdx hd, ih2]

theorem keysOfCells_append (P : SceneParams) (g : TileGrid) (B : List KeyDoorBinding)
    (O : List (ObjectAttribs F)) (D : List (Door F)) (cs : List (Nat × Nat)) (c : Nat × Nat) :
    ∀ base : Nat, keysOfCells P g B O D base (cs ++ [c]) =
      keysOfCells P g B O D base cs ++
        [makeKey g c.1 c.2 (base + cs.length)
          (matchingDoorIds P O (findDoorType B (g.maze c.1 c.2)) D)] := by
  induction cs with
  | nil => intro base; simp [keysOfCells]
  | cons a as ih =>
    intro base
    simp [keysOfCells, ih (base + 1), Nat.add_assoc, Nat.add_comm 1]

theorem keysOfCells_length (P : SceneParams) (g : TileGrid) (B : List KeyDoorBinding)
    (O : List (ObjectAttribs F)) (D : List (Door F)) (cs : List (Nat × Nat)) :
    ∀ base : Nat, (keysOfCells P g B O D base cs).length = cs.length := by
  induction cs with
  | nil => intro base; rfl
  | cons a as ih => intro base; simp [keysOfCells, ih (base + 1)]

theorem pass2Cell_inv (P : SceneParams) (g : TileGrid) (s0 : GameState F)
    (v0 : Nat → Nat → Bool) (hD : ∀ d ∈ s0.m_Doors, d.ObjectIdx < s0.Objects.length)
    (z x : Nat) (hz : z < g.mazeRows) (hx : x < g.mazeCols) (st : Pass2State F)
    (hI : Pass2Inv P g s0 v0 st) : Pass2Inv P g s0 v0 (pass2Cell P g z x st) := by
  by_cases hc : 20 ≤ g.maze z x ∧ g.maze z x ≤ 27 ∧ st.visited z x = false
  swap
  · simp only [pass2Cell, if_neg hc]; exact hI
  obtain ⟨i1, i2, i3, i4, i5, i6, i7, i8, i9⟩ := hI
  simp only [pass2Cell, if_pos hc]
  refine ⟨i1, i2, i3, i4, ?_, ?_, ?_, ?_, ?_⟩
  · simp [i5]
  · simp only [i6, keysOfCells_append, i1, i3, i5, List.append_assoc, List.length_append,
      List.length_map]
    rw [matchingDoorIds_append P s0.Objects _ _ _ hD]
  · intro cz cx
    simp only [List.countP_append, i7 cz cx]
    by_cases hcell : cz = z ∧ cx = x
    · obtain ⟨e1, e2⟩ := hcell
      subst e1; subst e2
      have hv0 : v0 cz cx = false := by
        by_contra hne
        have := i8 cz cx (by simpa using hne)
        rw [hc.2.2] at this
        exact Bool.false_ne_true this
      simp [hc.2.2, hv0]
    · have hne : ¬ ((z, x) = (cz, cx)) := by
        intro h
        simp only [Prod.mk.injEq] at h
        exact hcell ⟨h.1.symm, h.2.symm⟩
      simp [hcell, hne]
  · intro cz cx h
    by_cases hcell : cz = z ∧ cx = x
    · simp [hcell]
    · simp [hcell, i8 cz cx h]
  · intro c hcm
    rcases List.mem_append.mp hcm with h | h
    · exact i9 c h
    · rw [List.mem_singleton] at h
      subst h
      exact ⟨hz, hx, by simp [isKeyCode, hc.1, hc.2.1]⟩

theorem pass2Cell_done (P : SceneParams) (g : TileGrid) (z x : Nat) (st : Pass2State F)
    (cz cx : Nat) :
    (st.visited cz cx = true → (pass2Cell P g z x st).visited cz cx = true) ∧
    (isKeyCode (g.maze z x) = true → (pass2Cell P g z x st).visited z x = true) := by
  by_cases hc : 20 ≤ g.maze z x ∧ g.maze z x ≤ 27 ∧ st.visited z x = false
  · simp only [pass2Cell, if_pos hc]
    refine ⟨fun h => ?_, fun _ => by simp⟩
    by_cases hcell : cz = z ∧ cx = x
    · simp [hcell]
    · simp [hcell, h]
  · simp only [pass2Cell, if_neg hc]
    refine ⟨id, fun hk => ?_⟩
    simp only [isKeyCode, decide_eq_true_eq] at hk
    by_contra hne
    exact hc ⟨hk.1, hk.2, by simpa using hne⟩

/-- Pass 2 keeps its invariant and visits every key-coded cell of the grid. -/
theorem pass2_spec (P : SceneParams) (g : TileGrid) (s0 : GameState F)
    (v0 : Nat → Nat → Bool) (hD : ∀ d ∈ s0.m_Doors, d.ObjectIdx < s0.Objects.length)
    (st : Pass2State F) (hI : Pass2Inv P g s0 v0 st) :
    Pass2Inv P g s0 v0 (pass2 P g st) ∧
      ∀ cz cx, cz < g.mazeRows → cx < g.mazeCols → isKeyCode (g.maze cz cx) = true →
        (pass2 P g st).visited cz cx = true := by
  unfold pass2
  have key := forLoop_induction g.mazeRows
    (fun z acc => forLoop g.mazeCols (fun x acc2 => pass2Cell P g z x acc2) acc) st
    (fun z t => Pass2Inv P g s0 v0 t ∧
      ∀ cz cx, cx < g.mazeCols → cz < z → isKeyCode (g.maze cz cx) = true →
        t.visited cz cx = true)
    ⟨hI, fun cz cx _ h _ => by omega⟩ ?_
  · exact ⟨key.1, fun cz cx h1 h2 h3 => key.2 cz cx h2 h1 h3⟩
  intro z hz t ht
  have hinner := forLoop_induction g.mazeCols (fun x acc2 => pass2Cell P g z x acc2) t
    (fun x u => Pass2Inv P g s0 v0 u ∧
      ∀ cz cx, cx < g.mazeCols → (cz < z ∨ (cz = z ∧ cx < x)) →
        isKeyCode (g.maze cz cx) = true → u.visited cz cx = true)
    ⟨ht.1, fun cz cx h1 h2 h3 => ht.2 cz cx h1 (by omega) h3⟩
    (fun x hx u hu => ⟨pass2Cell_inv P g s0 v0 hD z x hz hx u hu.1, fun cz cx h1 h2 h3 => by
      by_cases hcell : cz = z ∧ cx = x
      · obtain ⟨e1, e2⟩ := hcell
        subst e1; subst e2
        exact (pass2Cell_done P g cz cx u cz cx).2 h3
      · exact (pass2Cell_done P g z x u cz cx).1 (hu.2 cz cx h1 (by omega) h3)⟩)
  exact ⟨hinner.1, fun cz cx h1 h2 h3 => hinner.2 cz cx h1 (by omega) h3⟩

end Pass2Lemmas

section GridPassLemmas

variable {F : Type} [LinearOrderedField F]

/-- The key cells and the visited table of Pass 2 do not depend on the scene tables. -/
theorem pass2_log_independent (P : SceneParams) (g : TileGrid) (st st2 : Pass2State F)
    (hv : st.visited = st2.visited) (hr : st.keyCells = st2.keyCells) :
    (pass2 P g st).visited = (pass2 P g st2).visited ∧
      (pass2 P g st).keyCells = (pass2 P g st2).keyCells := by
  unfold pass2
  refine forLoop_rel g.mazeRows _ _
    (fun a b : Pass2State F => a.visited = b.visited ∧ a.keyCells = b.keyCells) st st2
    ⟨hv, hr⟩ ?_
  intro z _ a b hab
  refine forLoop_rel g.mazeCols _ _
    (fun a b : Pass2State F => a.visited = b.visited ∧ a.keyCells = b.keyCells) a b hab ?_
  intro x _ c d hcd
  obtain ⟨cv, cs, cr⟩ := c
  obtain ⟨dv, ds, dr⟩ := d
  obtain ⟨e1, e2⟩ := hcd
  simp only at e1 e2
  subst e1; subst e2
  simp only [pass2Cell]
  split_ifs <;> exact ⟨rfl, rfl⟩

theorem afterPass1_spec (P : SceneParams) (g : TileGrid) (s : GameState F) :
    Pass1Inv g (afterPass1 P g s) ∧ Pass1Done g (afterPass1 P g s) g.mazeRows 0 ∧
      (afterPass1 P g s).scene = (afterPass1 P g s).runs.foldl (fun t r => emitRun P g r t)
        { s with m_KeyDoorBindings := s.m_KeyDoorBindings ++ defaultBindings } := by
  unfold afterPass1
  refine pass1_spec P g _ _ ⟨fun cz cx => by simp, fun r hr => ?_, fun r hr => ?_⟩ rfl
  · simp at hr
  · simp at hr

/-- The runs of Pass 1 are the same whatever tables it starts from. -/
theorem afterPass1_runs_independent (P : SceneParams) (g : TileGrid) (s s2 : GameState F) :
    (afterPass1 P g s).runs = (afterPass1 P g s2).runs ∧
      (afterPass1 P g s).visited = (afterPass1 P g s2).visited := by
  unfold afterPass1
  have := pass1_log_independent P g
    ({ visited := fun _ _ => false
       scene := { s with m_KeyDoorBindings := s.m_KeyDoorBindings ++ defaultBindings }
       runs := [] } : Pass1State F)
    { visited := fun _ _ => false
      scene := { s2 with m_KeyDoorBindings := s2.m_KeyDoorBindings ++ defaultBindings }
      runs := [] } rfl rfl
  exact ⟨this.2, this.1⟩

/-- The key cells of Pass 2 are the same whatever tables the passes start from. -/
theorem afterPass2_cells_independent (P : SceneParams) (g : TileGrid) (s s2 : GameState F) :
    (afterPass2 P g s).keyCells = (afterPass2 P g s2).keyCells := by
  exact (pass2_log_independent P g
    ({ visited := (afterPass1 P g s).visited, scene := (afterPass1 P g s).scene,
       keyCells := [] } : Pass2State F)
    { visited := (afterPass1 P g s2).visited, scene := (afterPass1 P g s2).scene,
      keyCells := [] } (afterPass1_runs_independent P g s s2).2 rfl).2

theorem doorsOfRuns_range (runs : List Run) :
    ∀ (wb ob : Nat) (i : Int), ∀ d ∈ (doorsOfRuns wb ob i runs : List (Door F)),
      wb ≤ d.WallIdx ∧ d.WallIdx < wb + runs.length ∧
      ob ≤ d.ObjectIdx ∧ d.ObjectIdx < ob + runs.length := by
  induction runs with
  | nil => intro wb ob i d hd; simp [doorsOfRuns] at hd
  | cons r rs ih =>
    intro wb ob i d hd
    by_cases hdoor : isDoorCode r.blockType = true
    · simp only [doorsOfRuns, if_pos hdoor, List.mem_cons] at hd
      rcases hd with hd | hd
      · subst hd
        simp
      · have := ih (wb + 1) (ob + 1) (i + 1) d hd
        simp only [List.length_cons]
        omega
    · simp only [doorsOfRuns, if_neg hdoor] at hd
      have := ih (wb + 1) (ob + 1) i d hd
      simp only [List.length_cons]
      omega

/-- The tables left by the grid passes started on tables whose doors point into the object
table: the runs of Pass 1 emitted in order, then one object and one key per key cell. -/
theorem gridPasses_tables (P : SceneParams) (g : TileGrid) (s : GameState F)
    (hD : ∀ d ∈ s.m_Doors, d.ObjectIdx < s.Objects.length) :
    (gridPasses P g s).MazeWalls = s.MazeWalls ++
        (afterPass1 P g s).runs.map (fun r => blockVolume (placementOf g r)) ∧
    (gridPasses P g s).Objects = s.Objects ++
        (afterPass1 P g s).runs.map (fun r => blockObject P r.blockType (placementOf g r)) ++
        (afterPass2 P g s).keyCells.map (fun c => keyObject P g c.1 c.2 (g.maze c.1 c.2)) ∧
    (gridPasses P g s).m_Doors = s.m_Doors ++
        doorsOfRuns s.MazeWalls.length s.Objects.length s.m_nextDoorId (afterPass1 P g s).runs ∧
    (gridPasses P g s).m_nextDoorId = s.m_nextDoorId +
        ((afterPass1 P g s).runs.countP (fun r => isDoorCode r.blockType) : Nat) ∧
    (gridPasses P g s).m_KeyDoorBindings = s.m_KeyDoorBindings ++ defaultBindings ∧
    (gridPasses P g s).m_Keys = s.m_Keys ++
        keysOfCells P g (s.m_KeyDoorBindings ++ defaultBindings)
          (s.Objects ++
            (afterPass1 P g s).runs.map (fun r => blockObject P r.blockType (placementOf g r)))
          (s.m_Doors ++ doorsOfRuns s.MazeWalls.length s.Objects.length s.m_nextDoorId
            (afterPass1 P g s).runs)
          (s.Objects.length + (afterPass1 P g s).runs.length)
          (afterPass2 P g s).keyCells ∧
    (∀ d ∈ (gridPasses P g s).m_Doors, d.ObjectIdx < (gridPasses P g s).Objects.length) := by
  obtain ⟨-, -, hscene⟩ := afterPass1_spec P g s
  obtain ⟨t1, t2, t3, t4, t5, t6⟩ := emitRuns_tables P g (afterPass1 P g s).runs
    ({ s with m_KeyDoorBindings := s.m_KeyDoorBindings ++ defaultBindings } : GameState F)
  rw [← hscene] at t1 t2 t3 t4 t5 t6
  simp only at t1 t2 t3 t4 t5 t6
  have hD1 : ∀ d ∈ (afterPass1 P g s).scene.m_Doors,
      d.ObjectIdx < (afterPass1 P g s).scene.Objects.length := by
    intro d hd
    rw [t3] at hd
    rw [t2, List.length_append, List.length_map]
    rcases List.mem_append.mp hd with h | h
    · have := hD d h; omega
    · exact (doorsOfRuns_range _ _ _ _ d h).2.2.2
  have hinit : Pass2Inv P g (afterPass1 P g s).scene (afterPass1 P g s).visited
      ({ visited := (afterPass1 P g s).visited, scene := (afterPass1 P g s).scene,
         keyCells := [] } : Pass2State F) := by
    refine ⟨rfl, rfl, rfl, rfl, by simp, by simp [keysOfCells], fun cz cx => ?_,
      fun cz cx h => h, fun c hc => by simp at hc⟩
    by_cases hv : (afterPass1 P g s).visited cz cx = true
    · simp [hv]
    · simp [hv]
  obtain ⟨⟨p1, p2, p3, p4, p5, p6, -, -, -⟩, -⟩ :=
    pass2_spec P g (afterPass1 P g s).scene (afterPass1 P g s).visited hD1 _ hinit
  have e : (gridPasses P g s) = (afterPass2 P g s).scene := rfl
  have e2 : (afterPass2 P g s) = pass2 P g
      { visited := (afterPass1 P g s).visited, scene := (afterPass1 P g s).scene,
        keyCells := [] } := rfl
  rw [e, e2]
  refine ⟨by rw [p2, t1], by rw [p5, t2], by rw [p1, t3], by rw [p4, t4], by rw [p3, t6], ?_, ?_⟩
  · rw [p6, t5, t6, t2, t3, List.length_append, List.length_map]
  · intro d hd
    rw [p1] at hd
    rw [p5, List.length_append]
    have := hD1 d hd
    omega

end GridPassLemmas

section KeyBindingLemmas

variable {F : Type} [LinearOrderedField F]

theorem afterPass2_inv (P : SceneParams) (g : TileGrid) (s : GameState F)
    (hD : ∀ d ∈ s.m_Doors, d.ObjectIdx < s.Objects.length) :
    Pass2Inv P g (afterPass1 P g s).scene (afterPass1 P g s).visited (afterPass2 P g s) ∧
      ∀ cz cx, cz < g.mazeRows → cx < g.mazeCols → isKeyCode (g.maze cz cx) = true →
        (afterPass2 P g s).visited cz cx = true := by
  obtain ⟨-, -, hscene⟩ := afterPass1_spec P g s
  obtain ⟨-, t2, t3, -, -, -⟩ := emitRuns_tables P g (afterPass1 P g s).runs
    ({ s with m_KeyDoorBindings := s.m_KeyDoorBindings ++ defaultBindings } : GameState F)
  rw [← hscene] at t2 t3
  simp only at t2 t3
  have hD1 : ∀ d ∈ (afterPass1 P g s).scene.m_Doors,
      d.ObjectIdx < (afterPass1 P g s).scene.Objects.length := by
    intro d hd
    rw [t3] at hd
    rw [t2, List.length_append, List.length_map]
    rcases List.mem_append.mp hd with h | h
    · have := hD d h; omega
    · exact (doorsOfRuns_range _ _ _ _ d h).2.2.2
  have hinit : Pass2Inv P g (afterPass1 P g s).scene (afterPass1 P g s).visited
      ({ visited := (afterPass1 P g s).visited, scene := (afterPass1 P g s).scene,
         keyCells := [] } : Pass2State F) := by
    refine ⟨rfl, rfl, rfl, rfl, by simp, by simp [keysOfCells], fun cz cx => ?_,
      fun cz cx h => h, fun c hc => by simp at hc⟩
    by_cases hv : (afterPass1 P g s).visited cz cx = true
    · simp [hv]
    · simp [hv]
  exact pass2_spec P g (afterPass1 P g s).scene (afterPass1 P g s).visited hD1 _ hinit

/-- Two tile codes, one of a door and one in the range of `int`, have the same material
exactly when they are equal. -/
theorem materialOf_eq_iff (P : SceneParams) (c t : Int) (hc : isDoorCode c = true)
    (ht : -2147483648 ≤ t ∧ t < 2147483648) : materialOf P c = materialOf P t ↔ c = t := by
  simp only [isDoorCode, decide_eq_true_eq] at hc
  unfold materialOf
  constructor
  · intro h; omega
  · intro h; rw [h]

theorem findDoorType_range (B : List KeyDoorBinding) (c : Int)
    (hB : ∀ b ∈ B, -2147483648 ≤ b.DoorBlockType ∧ b.DoorBlockType < 2147483648) :
    -2147483648 ≤ findDoorType B c ∧ findDoorType B c < 2147483648 := by
  induction B with
  | nil => simp [findDoorType]
  | cons b bs ih =>
    by_cases h : b.KeyBlockType = c
    · simp only [findDoorType, if_pos h]; exact hB b (List.mem_cons_self b bs)
    · simp only [findDoorType, if_neg h]
      exact ih (fun e he => hB e (List.mem_cons_of_mem b he))

theorem findDoorType_none (B : List KeyDoorBinding) (c : Int)
    (h : ∀ b ∈ B, b.KeyBlockType ≠ c) : findDoorType B c = -1 := by
  induction B with
  | nil => rfl
  | cons b bs ih =>
    simp only [findDoorType, if_neg (h b (List.mem_cons_self b bs))]
    exact ih (fun e he => h e (List.mem_cons_of_mem b he))

theorem matchingDoorIds_subset (P : SceneParams) (O : List (ObjectAttribs F)) (t : Int)
    (D : List (Door F)) : ∀ i ∈ matchingDoorIds P O t D, i ∈ D.map Door.Id := by
  induction D with
  | nil => intro i hi; simp [matchingDoorIds] at hi
  | cons d ds ih =>
    intro i hi
    simp only [matchingDoorIds] at hi
    split_ifs at hi with h
    · rcases List.mem_cons.mp hi with h1 | h1
      · simp [h1]
      · simp [ih i h1]
    · simp [ih i hi]

/-- Reading the doors of a list of runs against a table that holds the objects of those runs
selects the doors whose run has the tile code `t`. -/
theorem matchingDoorIds_doorsOfRuns (P : SceneParams) (t : Int)
    (ht : -2147483648 ≤ t ∧ t < 2147483648) (O : List (ObjectAttribs F)) (rs : List Run) :
    ∀ (wb ob : Nat) (i : Int),
      (∀ j r, rs[j]? = some r → (objectAt O (ob + j)).MaterialId = materialOf P r.blockType) →
      matchingDoorIds P O t (doorsOfRuns wb ob i rs) =
        (((doorsOfRuns wb ob i rs : List (Door F)).zip
            (rs.filter (fun r => isDoorCode r.blockType))).filter
          (fun p => decide (p.2.blockType = t))).map (fun p => p.1.Id) := by
  induction rs with
  | nil => intro wb ob i _; simp [doorsOfRuns, matchingDoorIds]
  | cons r rs ih =>
    intro wb ob i h
    have h0 : (objectAt O ob).MaterialId = materialOf P r.blockType := by
      have := h 0 r (by simp)
      simpa using this
    have htail : ∀ j q, rs[j]? = some q →
        (objectAt O (ob + 1 + j)).MaterialId = materialOf P q.blockType := by
      intro j q hq
      have := h (j + 1) q (by simpa using hq)
      rwa [show ob + (j + 1) = ob + 1 + j by omega] at this
    by_cases hd : isDoorCode r.blockType = true
    · have ih2 := ih (wb + 1) (ob + 1) (i + 1) htail
      simp only [doorsOfRuns, if_pos hd, matchingDoorIds, List.filter_cons, List.zip_cons_cons,
        h0]
      by_cases hc : r.blockType = t
      · rw [if_pos ((materialOf_eq_iff P r.blockType t hd ht).mpr hc), ih2]
        simp [hc]
      · rw [if_neg (fun h => hc ((materialOf_eq_iff P r.blockType t hd ht).mp h)), ih2]
        simp [hc]
    · have ih2 := ih (wb + 1) (ob + 1) i htail
      simp only [doorsOfRuns, if_neg hd, List.filter_cons]
      rw [ih2]

theorem keysOfCells_doorIds (P : SceneParams) (g : TileGrid) (B : List KeyDoorBinding)
    (O : List (ObjectAttribs F)) (D : List (Door F)) (cs : List (Nat × Nat)) :
    ∀ base : Nat, List.Forall₂
      (fun (k : Key F) (c : Nat × Nat) =>
        k.DoorIds = matchingDoorIds P O (findDoorType B (g.maze c.1 c.2)) D)
      (keysOfCells P g B O D base cs) cs := by
  induction cs with
  | nil => intro base; exact List.Forall₂.nil
  | cons c cs ih => intro base; exact List.Forall₂.cons rfl (ih (base + 1))

end KeyBindingLemmas

section CollisionTheorems

variable {F : Type} [LinearOrderedField F]

theorem collideWall_of_le (sqrt : F → F) (r : F) (p : float3 F) (w : AABB F)
    (h : r ≤ length sqrt (p.sub (closestPoint w p))) : collideWall sqrt r p w = some p := by
  unfold collideWall
  simp only
  rw [if_neg (not_lt.mpr h)]

/-- C1: if every wall volume's clamped closest point is at distance at least the radius from
the position, `HandleCollisions` returns the position unchanged. -/
theorem HandleCollisions_at_rest (sqrt : F → F) (walls : List (AABB F)) (p : float3 F) (r : F)
    (h : ∀ w ∈ walls, r ≤ length sqrt (p.sub (closestPoint w p))) :
    HandleCollisions sqrt walls p r = some p := by
  induction walls with
  | nil => rfl
  | cons w ws ih =>
    have hw := collideWall_of_le sqrt r p w (h w (List.mem_cons_self w ws))
    simp only [HandleCollisions, hw]
    exact ih (fun v hv => h v (List.mem_cons_of_mem w hv))

theorem HandleCollisions_at_rest_witness :
    (∀ w ∈ [(⟨⟨-1, 0, -1⟩, ⟨1, 3, 1⟩⟩ : AABB ℝ)],
        (1 / 2 : ℝ) ≤ length Real.sqrt ((⟨3, 3, 0⟩ : float3 ℝ).sub (closestPoint w ⟨3, 3, 0⟩))) ∧
      HandleCollisions Real.sqrt [(⟨⟨-1, 0, -1⟩, ⟨1, 3, 1⟩⟩ : AABB ℝ)] ⟨3, 3, 0⟩ (1 / 2)
        = some ⟨3, 3, 0⟩ := by
  have h : ∀ w ∈ [(⟨⟨-1, 0, -1⟩, ⟨1, 3, 1⟩⟩ : AABB ℝ)],
      (1 / 2 : ℝ) ≤ length Real.sqrt ((⟨3, 3, 0⟩ : float3 ℝ).sub (closestPoint w ⟨3, 3, 0⟩)) := by
    intro w hw
    rw [List.mem_singleton] at hw
    subst hw
    apply Real.le_sqrt_of_sq_le
    norm_num [closestPoint, float3.sub, dot]
  exact ⟨h, HandleCollisions_at_rest Real.sqrt _ _ _ h⟩

/-- C3: for a position inside or on a wall volume and a positive radius the separation has
length 0, the branch `distance < CamRadius` is taken and `delta / distance` divides by zero:
`HandleCollisions` does not return a position (the source computes NaN components), and no
fallback direction is used. -/
theorem HandleCollisions_inside_wall (sqrt : F → F) (hsqrt : sqrt 0 = 0) (wall : AABB F)
    (rest : List (AABB F)) (p : float3 F) (r : F) (hr : 0 < r)
    (hx : wall.min.x ≤ p.x ∧ p.x ≤ wall.max.x) (hy : wall.min.y ≤ p.y ∧ p.y ≤ wall.max.y)
    (hz : wall.min.z ≤ p.z ∧ p.z ≤ wall.max.z) :
    closestPoint wall p = p ∧ length sqrt (p.sub (closestPoint wall p)) = 0 ∧
      HandleCollisions sqrt (wall :: rest) p r = none := by
  have hc : closestPoint wall p = p := by
    cases p with
    | mk px py pz =>
      simp only [closestPoint] at *
      rw [min_eq_left hx.2, max_eq_right hx.1, min_eq_left hy.2, max_eq_right hy.1,
        min_eq_left hz.2, max_eq_right hz.1]
  have hl : length sqrt (p.sub (closestPoint wall p)) = 0 := by
    rw [hc]
    simp [length, dot, float3.sub, hsqrt]
  refine ⟨hc, hl, ?_⟩
  have hstep : collideWall sqrt r p wall = none := by
    simp [collideWall, hl, hr]
  simp only [HandleCollisions, hstep]

theorem HandleCollisions_inside_wall_witness :
    HandleCollisions Real.sqrt [(⟨⟨-1, 0, -1⟩, ⟨1, 3, 1⟩⟩ : AABB ℝ)] ⟨0, 3, 0⟩ (1 / 2) = none :=
  (HandleCollisions_inside_wall Real.sqrt Real.sqrt_zero ⟨⟨-1, 0, -1⟩, ⟨1, 3, 1⟩⟩ []
    ⟨0, 3, 0⟩ (1 / 2) (by norm_num) (by norm_num) (by norm_num) (by norm_num)).2.2

end CollisionTheorems

section GridPassTheorems

variable {F : Type} [LinearOrderedField F]

/-- C2: after Pass 1 the emitted runs, which are the entries pushed on the wall-volume and
object tables, partition the structural cells of the grid: every cell of code Wall (1),
Decoration (2..9, 19) or Door (10..17) is covered by exactly one run, every run is made of
cells of the grid that carry the run's own, structural, code, no cell is covered by two runs
and no cell of code 0 or of another non-structural code is covered by any run. -/
theorem pass1_runs_partition (P : SceneParams) (g : TileGrid) (s : GameState F) :
    (afterPass1 P g s).scene.MazeWalls = s.MazeWalls ++
        (afterPass1 P g s).runs.map (fun r => blockVolume (placementOf g r)) ∧
    (afterPass1 P g s).scene.Objects = s.Objects ++
        (afterPass1 P g s).runs.map (fun r => blockObject P r.blockType (placementOf g r)) ∧
    (∀ z x, z < g.mazeRows → x < g.mazeCols → isStructuralCode (g.maze z x) = true →
        (afterPass1 P g s).runs.countP (fun r => r.covers z x) = 1) ∧
    (∀ r ∈ (afterPass1 P g s).runs, isStructuralCode r.blockType = true ∧
        ∀ z x, r.covers z x = true →
          z < g.mazeRows ∧ x < g.mazeCols ∧ g.maze z x = r.blockType) ∧
    (∀ z x, (afterPass1 P g s).runs.countP (fun r => r.covers z x) ≤ 1) ∧
    (∀ z x, isStructuralCode (g.maze z x) = false →
        (afterPass1 P g s).runs.countP (fun r => r.covers z x) = 0) := by
  obtain ⟨⟨i1, i2, i3⟩, hdone, hscene⟩ := afterPass1_spec P g s
  obtain ⟨t1, t2, -, -, -, -⟩ := emitRuns_tables P g (afterPass1 P g s).runs
    ({ s with m_KeyDoorBindings := s.m_KeyDoorBindings ++ defaultBindings } : GameState F)
  rw [← hscene] at t1 t2
  refine ⟨t1, t2, fun z x hz hx hs => ?_, fun r hr => ⟨(i3 r hr).1, i2 r hr⟩, fun z x => ?_,
    fun z x hs => ?_⟩
  · rw [i1 z x, if_pos (hdone z x hx (Or.inl hz) hs)]
  · rw [i1 z x]; split_ifs <;> omega
  · by_contra hne
    have hpos : 0 < (afterPass1 P g s).runs.countP (fun r => r.covers z x) := by omega
    obtain ⟨r, hr, hc⟩ := List.countP_pos_iff.mp hpos
    have h1 := (i2 r hr z x hc).2.2
    have h2 := (i3 r hr).1
    rw [← h1, hs] at h2
    exact Bool.false_ne_true h2

/-- C4, the claim as stated fails: on the 3 x 3 scenario grid, started on empty tables, the
first run of the grid passes leaves one door (id 0), one key bound to `[0]` and one wall
volume; the second run leaves two doors (ids 0 and 1), two keys, the second bound to both
doors, and two wall volumes. -/
theorem gridPasses_twice_counterexample :
    (gridPasses scenarioParams scenarioGrid (emptyScene : GameState ℚ)).m_Doors.map Door.Id
        = [0] ∧
    (gridPasses scenarioParams scenarioGrid
        (gridPasses scenarioParams scenarioGrid (emptyScene : GameState ℚ))).m_Doors.map Door.Id
        = [0, 1] ∧
    (gridPasses scenarioParams scenarioGrid (emptyScene : GameState ℚ)).m_Keys.map Key.DoorIds
        = [[0]] ∧
    (gridPasses scenarioParams scenarioGrid
        (gridPasses scenarioParams scenarioGrid (emptyScene : GameState ℚ))).m_Keys.map
          Key.DoorIds = [[0], [0, 1]] ∧
    (gridPasses scenarioParams scenarioGrid (emptyScene : GameState ℚ)).MazeWalls.length = 1 ∧
    (gridPasses scenarioParams scenarioGrid
        (gridPasses scenarioParams scenarioGrid (emptyScene : GameState ℚ))).MazeWalls.length
        = 2 := by
  decide

/-- C4, amended: the scan of the grid is deterministic and does not depend on the tables, so
both runs find the same runs and the same key cells; but the passes append to the tables they
start from. After the second run the wall-volume table is the first run's table followed by
the same volumes again, the door table is the first run's followed by the doors of the same
runs with indices and ids that continue after the first run's, and the key table is the first
run's followed by as many keys again. -/
theorem gridPasses_twice_appends (P : SceneParams) (g : TileGrid) (s : GameState F)
    (hD : ∀ d ∈ s.m_Doors, d.ObjectIdx < s.Objects.length) :
    (afterPass1 P g (gridPasses P g s)).runs = (afterPass1 P g s).runs ∧
    (afterPass2 P g (gridPasses P g s)).keyCells = (afterPass2 P g s).keyCells ∧
    (gridPasses P g s).MazeWalls = s.MazeWalls ++
        (afterPass1 P g s).runs.map (fun r => blockVolume (placementOf g r)) ∧
    (gridPasses P g (gridPasses P g s)).MazeWalls = (gridPasses P g s).MazeWalls ++
        (afterPass1 P g s).runs.map (fun r => blockVolume (placementOf g r)) ∧
    (gridPasses P g s).m_Doors = s.m_Doors ++
        doorsOfRuns s.MazeWalls.length s.Objects.length s.m_nextDoorId (afterPass1 P g s).runs ∧
    (gridPasses P g (gridPasses P g s)).m_Doors = (gridPasses P g s).m_Doors ++
        doorsOfRuns (gridPasses P g s).MazeWalls.length (gridPasses P g s).Objects.length
          (s.m_nextDoorId + ((afterPass1 P g s).runs.countP (fun r => isDoorCode r.blockType) : Nat))
          (afterPass1 P g s).runs ∧
    (gridPasses P g s).m_Keys.length = s.m_Keys.length + (afterPass2 P g s).keyCells.length ∧
    (gridPasses P g (gridPasses P g s)).m_Keys.length =
        (gridPasses P g s).m_Keys.length + (afterPass2 P g s).keyCells.length ∧
    (gridPasses P g s).m_Keys <+: (gridPasses P g (gridPasses P g s)).m_Keys := by
  obtain ⟨a1, -, a3, a4, -, a6, a7⟩ := gridPasses_tables P g s hD
  obtain ⟨b1, -, b3, -, -, b6, -⟩ := gridPasses_tables P g (gridPasses P g s) a7
  have hr := (afterPass1_runs_independent P g (gridPasses P g s) s).1
  have hc := afterPass2_cells_independent P g (gridPasses P g s) s
  rw [hr] at b1 b3
  rw [hc] at b6
  refine ⟨hr, hc, a1, b1, a3, ?_, ?_, ?_, ?_⟩
  · rw [b3, a4]
  · rw [a6, List.length_append, keysOfCells_length]
  · rw [b6, List.length_append, keysOfCells_length]
  · rw [b6]; exact List.prefix_append _ _

theorem gridPasses_twice_appends_witness :
    (∀ d ∈ (emptyScene : GameState ℚ).m_Doors,
        d.ObjectIdx < (emptyScene : GameState ℚ).Objects.length) ∧
    (gridPasses scenarioParams scenarioGrid
        (gridPasses scenarioParams scenarioGrid (emptyScene : GameState ℚ))).m_Keys.length =
      (gridPasses scenarioParams scenarioGrid (emptyScene : GameState ℚ)).m_Keys.length +
        (afterPass2 scenarioParams scenarioGrid (emptyScene : GameState ℚ)).keyCells.length :=
  ⟨fun d hd => by simp [emptyScene] at hd,
   (gridPasses_twice_appends scenarioParams scenarioGrid (emptyScene : GameState ℚ)
      (fun d hd => by simp [emptyScene] at hd)).2.2.2.2.2.2.2.1⟩

/-- C5: started on empty object, door and key tables with any binding table (the eight fixed
bindings are pushed after it), the grid passes emit one door per door run and one key per
key-coded cell of the grid, whatever the bindings; each key's `DoorIds` is the list, in door
table order, of the ids of the doors whose run has the tile code that the first binding of
the key's tile code names, wherever the doors lie in the grid; it holds only ids of the door
table, and it is empty when no binding has the key's tile code. -/
theorem key_doorIds_resolved (P : SceneParams) (g : TileGrid) (s : GameState F)
    (hO : s.Objects = []) (hDo : s.m_Doors = []) (hK : s.m_Keys = [])
    (hB : ∀ b ∈ s.m_KeyDoorBindings,
      -2147483648 ≤ b.DoorBlockType ∧ b.DoorBlockType < 2147483648) :
    (gridPasses P g s).m_Doors.length =
        ((afterPass1 P g s).runs.filter (fun r => isDoorCode r.blockType)).length ∧
    (∀ z x, z < g.mazeRows → x < g.mazeCols → isKeyCode (g.maze z x) = true →
        (afterPass2 P g s).keyCells.countP (fun c => decide (c = (z, x))) = 1) ∧
    (∀ c ∈ (afterPass2 P g s).keyCells,
        c.1 < g.mazeRows ∧ c.2 < g.mazeCols ∧ isKeyCode (g.maze c.1 c.2) = true) ∧
    List.Forall₂
      (fun (k : Key F) (c : Nat × Nat) =>
        k.DoorIds =
          ((((gridPasses P g s).m_Doors.zip
              ((afterPass1 P g s).runs.filter (fun r => isDoorCode r.blockType))).filter
            (fun p => decide (p.2.blockType =
              findDoorType (s.m_KeyDoorBindings ++ defaultBindings) (g.maze c.1 c.2)))).map
            (fun p => p.1.Id)) ∧
        (∀ i ∈ k.DoorIds, i ∈ (gridPasses P g s).m_Doors.map Door.Id) ∧
        ((∀ b ∈ s.m_KeyDoorBindings ++ defaultBindings, b.KeyBlockType ≠ g.maze c.1 c.2) →
          k.DoorIds = []))
      (gridPasses P g s).m_Keys (afterPass2 P g s).keyCells := by
  have hD : ∀ d ∈ s.m_Doors, d.ObjectIdx < s.Objects.length := by
    intro d hd; rw [hDo] at hd; simp at hd
  obtain ⟨-, -, a3, -, -, a6, -⟩ := gridPasses_tables P g s hD
  obtain ⟨⟨-, -, -, -, -, -, i7, -, i9⟩, hvis⟩ := afterPass2_inv P g s hD
  obtain ⟨⟨j1, j2, j3⟩, -, -⟩ := afterPass1_spec P g s
  rw [hDo, hO, List.nil_append, List.length_nil] at a3
  rw [hK, hO, hDo] at a6
  simp only [List.nil_append, List.length_nil, Nat.zero_add] at a6
  have hBB : ∀ b ∈ s.m_KeyDoorBindings ++ defaultBindings,
      -2147483648 ≤ b.DoorBlockType ∧ b.DoorBlockType < 2147483648 := by
    intro b hb
    rcases List.mem_append.mp hb with h | h
    · exact hB b h
    · simp only [defaultBindings, List.mem_cons, List.mem_singleton, List.not_mem_nil,
        or_false] at h
      rcases h with h | h | h | h | h | h | h | h <;> subst h <;> constructor <;> decide
  refine ⟨?_, fun z x hz hx hk => ?_, i9, ?_⟩
  · rw [a3, doorsOfRuns_length, List.countP_eq_length_filter]
  · rw [i7 z x]
    have hv0 : (afterPass1 P g s).visited z x = false := by
      by_contra hne
      have hcount := j1 z x
      rw [if_pos (by simpa using hne)] at hcount
      obtain ⟨r, hr, hc⟩ := List.countP_pos_iff.mp (by omega :
        0 < (afterPass1 P g s).runs.countP (fun r => r.covers z x))
      have h1 := (j2 r hr z x hc).2.2
      have h2 := (j3 r hr).1
      rw [← h1, isStructuralCode_iff] at h2
      simp only [isKeyCode, decide_eq_true_eq] at hk
      omega
    rw [if_pos ⟨hvis z x hz hx hk, hv0⟩]
  · rw [a6, a3]
    refine List.Forall₂.imp ?_ (keysOfCells_doorIds P g _ _ _ _ _)
    intro k c hk
    have hmatch := matchingDoorIds_doorsOfRuns (F := F) P
      (findDoorType (s.m_KeyDoorBindings ++ defaultBindings) (g.maze c.1 c.2))
      (findDoorType_range _ _ hBB)
      ((afterPass1 P g s).runs.map (fun r => blockObject P r.blockType (placementOf g r)))
      (afterPass1 P g s).runs s.MazeWalls.length 0 s.m_nextDoorId
      (by
        intro j r hj
        simp [objectAt, List.getD_eq_getElem?_getD, hj, blockObject])
    refine ⟨by rw [hk, hmatch], fun i hi => ?_, fun hnone => ?_⟩
    · rw [hk] at hi
      exact matchingDoorIds_subset P _ _ _ i hi
    · rw [hk, hmatch, findDoorType_none _ _ hnone]
      rw [List.map_eq_nil_iff, List.filter_eq_nil_iff]
      intro p hp
      have hmem := (List.of_mem_zip hp).2
      have hdoor := (List.mem_filter.mp hmem).2
      simp only [isDoorCode, decide_eq_true_eq] at hdoor
      simp only [decide_eq_true_eq]
      omega

theorem key_doorIds_resolved_witness :
    ((emptyScene : GameState ℚ).Objects = [] ∧ (emptyScene : GameState ℚ).m_Doors = [] ∧
      (emptyScene : GameState ℚ).m_Keys = [] ∧
      ∀ b ∈ (emptyScene : GameState ℚ).m_KeyDoorBindings,
        -2147483648 ≤ b.DoorBlockType ∧ b.DoorBlockType < 2147483648) ∧
    (gridPasses scenarioParams scenarioGrid (emptyScene : GameState ℚ)).m_Doors.length =
      ((afterPass1 scenarioParams scenarioGrid (emptyScene : GameState ℚ)).runs.filter
        (fun r => isDoorCode r.blockType)).length ∧
    (afterPass1 scenarioParams scenarioGrid (emptyScene : GameState ℚ)).runs.map
      (fun r => (r.z, r.x, r.blockType, r.horizontal, r.runLength)) = [(1, 0, 10, true, 3)] ∧
    (gridPasses scenarioParams scenarioGrid (emptyScene : GameState ℚ)).m_Doors.map Door.Id
      = [0] ∧
    (gridPasses scenarioParams scenarioGrid (emptyScene : GameState ℚ)).m_Keys.map Key.DoorIds
      = [[0]] :=
  ⟨⟨rfl, rfl, rfl, fun b hb => by simp [emptyScene] at hb⟩,
   (key_doorIds_resolved scenarioParams scenarioGrid (emptyScene : GameState ℚ) rfl rfl rfl
      (fun b hb => by simp [emptyScene] at hb)).1,
   by decide, by decide, by decide⟩

end GridPassTheorems

section KeyCollectionLemmas

variable {F : Type} [LinearOrderedField F]

theorem objectAt_setModelMat_ne (O : List (ObjectAttribs F)) (i j : Nat) (m : float4x4 F)
    (h : i ≠ j) : objectAt (setModelMat O i m) j = objectAt O j := by
  simp [objectAt, setModelMat, List.getD_eq_getElem?_getD, List.getElem?_modify_ne _ _ h]

theorem objectAt_setModelMat_eq (O : List (ObjectAttribs F)) (i : Nat) (m : float4x4 F)
    (h : i < O.length) :
    objectAt (setModelMat O i m) i = { objectAt O i with ModelMat := m } := by
  simp [objectAt, setModelMat, List.getD_eq_getElem?_getD, List.getElem?_modify_eq,
    List.getElem?_eq_getElem h]

theorem map_eq_self {α : Type} (f : α → α) (l : List α) (h : ∀ a ∈ l, f a = a) :
    l.map f = l := by
  induction l with
  | nil => rfl
  | cons a rest ih =>
    rw [List.map_cons, h a (List.mem_cons_self a rest),
      ih (fun b hb => h b (List.mem_cons_of_mem a hb))]

theorem forEachMut_id {α σ : Type} (body : σ → α → σ × α) (l : List α)
    (h : ∀ a ∈ l, ∀ s, body s a = (s, a)) : ∀ s, forEachMut body l s = (s, l) := by
  induction l with
  | nil => intro s; rfl
  | cons a rest ih =>
    intro s
    simp only [forEachMut, h a (List.mem_cons_self a rest) s,
      ih (fun b hb => h b (List.mem_cons_of_mem a hb)) s]

theorem keyHit_iff (sqrt : F → F) (camPos : float3 F) (r : F) (k : Key F) :
    keyHit sqrt camPos r k = true ↔ k.Collected = false ∧ keyDistance sqrt camPos k < r := by
  simp [keyHit]

theorem collectKey_not_hit (sqrt : F → F) (camPos : float3 F) (r : F) (s : GameState F)
    (k : Key F) (h : keyHit sqrt camPos r k = false) : collectKey sqrt camPos r s k = (s, k) := by
  unfold collectKey
  by_cases hc : k.Collected = true
  · rw [if_pos hc]
  · rw [if_neg hc]
    have hd : ¬ keyDistance sqrt camPos k < r := by
      intro hd
      have := (keyHit_iff sqrt camPos r k).mpr ⟨by simpa using hc, hd⟩
      rw [h] at this
      exact Bool.false_ne_true this
    rw [if_neg hd]

theorem collectKey_hit (sqrt : F → F) (camPos : float3 F) (r : F) (s : GameState F)
    (k : Key F) (h : keyHit sqrt camPos r k = true) :
    collectKey sqrt camPos r s k =
      ({ s with m_ShowUnlockMsg := true
                m_UnlockMsgTimer := 0
                m_Doors := openDoors s.Objects k.DoorIds s.m_Doors
                Objects := setModelMat s.Objects k.ObjectIdx (Scale 0 0 0).transpose },
       { k with Collected := true }) := by
  obtain ⟨h1, h2⟩ := (keyHit_iff sqrt camPos r k).mp h
  unfold collectKey
  rw [if_neg (by rw [h1]; exact Bool.false_ne_true), if_pos h2]

/-- The key table after the call: the keys picked up are marked collected, the others are
left as they are. -/
theorem collectKeys_keys (sqrt : F → F) (camPos : float3 F) (r : F) (keys : List (Key F)) :
    ∀ s : GameState F, (forEachMut (collectKey sqrt camPos r) keys s).2 =
      keys.map (fun k => if keyHit sqrt camPos r k then { k with Collected := true } else k) := by
  induction keys with
  | nil => intro s; rfl
  | cons k rest ih =>
    intro s
    simp only [forEachMut, List.map_cons, ih]
    by_cases h : keyHit sqrt camPos r k = true
    · rw [collectKey_hit sqrt camPos r s k h, if_pos h]
    · have h2 : keyHit sqrt camPos r k = false := by simpa using h
      rw [collectKey_not_hit sqrt camPos r s k h2, if_neg h]

theorem openIf_fields (O : List (ObjectAttribs F)) (ids : List Int) (d : Door F) :
    (openIf O ids d).Id = d.Id ∧ (openIf O ids d).ObjectIdx = d.ObjectIdx ∧
      (openIf O ids d).WallIdx = d.WallIdx := by
  unfold openIf
  split_ifs <;> exact ⟨rfl, rfl, rfl⟩

theorem openIf_nil (O : List (ObjectAttribs F)) (d : Door F) : openIf O [] d = d := by
  simp [openIf]

theorem openIf_congr (O O2 : List (ObjectAttribs F)) (ids : List Int) (d : Door F)
    (h : objectAt O2 d.ObjectIdx = objectAt O d.ObjectIdx) : openIf O2 ids d = openIf O ids d := by
  simp only [openIf, openDoor, h]

theorem openIf_openIf (O : List (ObjectAttribs F)) (ids1 ids2 : List Int) (d : Door F) :
    openIf O ids2 (openIf O ids1 d) = openIf O (ids1 ++ ids2) d := by
  by_cases ho : d.Opened = false
  · by_cases h1 : d.Id ∈ ids1
    · have e1 : openIf O ids1 d = openDoor O d := by simp [openIf, ho, h1]
      have e2 : openIf O (ids1 ++ ids2) d = openDoor O d := by simp [openIf, ho, h1]
      rw [e1, e2]
      simp [openIf, openDoor]
    · have e1 : openIf O ids1 d = d := by simp [openIf, h1]
      rw [e1]
      simp [openIf, ho, h1]
  · have e : ∀ ids, openIf O ids d = d := by
      intro ids; simp [openIf, ho]
    rw [e ids1, e ids2, e (ids1 ++ ids2)]

theorem map_openIf_ids (O : List (ObjectAttribs F)) (ids : List Int) (D : List (Door F)) :
    (D.map (openIf O ids)).map Door.Id = D.map Door.Id := by
  rw [List.map_map]
  exact List.map_congr_left (fun d _ => (openIf_fields O ids d).1)

theorem openDoorWithId_eq_map (O : List (ObjectAttribs F)) (doorId : Int) (D : List (Door F))
    (hN : (D.map Door.Id).Nodup) : openDoorWithId O doorId D = D.map (openIf O [doorId]) := by
  induction D with
  | nil => rfl
  | cons d ds ih =>
    rw [List.map_cons, List.nodup_cons] at hN
    by_cases h : d.Id = doorId ∧ d.Opened = false
    · simp only [openDoorWithId, if_pos h, List.map_cons]
      have hd : openIf O [doorId] d = openDoor O d := by simp [openIf, h.1, h.2]
      rw [hd]
      congr 1
      symm
      apply map_eq_self
      intro e he
      have hne : e.Id ≠ doorId := by
        intro heq
        exact hN.1 (List.mem_map.mpr ⟨e, he, by rw [heq, h.1]⟩)
      simp [openIf, hne]
    · simp only [openDoorWithId, if_neg h, List.map_cons, ih hN.2]
      have hd : openIf O [doorId] d = d := by
        simp only [openIf, List.mem_singleton]
        rw [if_neg (fun hc => h ⟨hc.2, hc.1⟩)]
      rw [hd]

theorem openDoors_eq_map (O : List (ObjectAttribs F)) (ids : List Int) :
    ∀ D : List (Door F), (D.map Door.Id).Nodup → openDoors O ids D = D.map (openIf O ids) := by
  induction ids with
  | nil =>
    intro D _
    simp only [openDoors]
    symm
    exact map_eq_self _ _ (fun d _ => openIf_nil O d)
  | cons i rest ih =>
    intro D hN
    simp only [openDoors]
    rw [openDoorWithId_eq_map O i D hN, ih _ (by rw [map_openIf_ids]; exact hN), List.map_map]
    refine List.map_congr_left (fun d _ => ?_)
    simp only [Function.comp]
    rw [openIf_openIf]
    rfl

/-- The door table after the key loop: a door is opened exactly when it was not opened and
its id is bound to a key picked up by the call; its `OriginalMat` is read in the object table
the call started from. -/
theorem collectKeys_doors (sqrt : F → F) (camPos : float3 F) (r : F) (keys : List (Key F)) :
    ∀ s : GameState F, (s.m_Doors.map Door.Id).Nodup →
      (∀ k ∈ keys, ∀ d ∈ s.m_Doors, k.ObjectIdx ≠ d.ObjectIdx) →
      (forEachMut (collectKey sqrt camPos r) keys s).1.m_Doors =
        s.m_Doors.map (openIf s.Objects (hitDoorIds sqrt camPos r keys)) := by
  induction keys with
  | nil =>
    intro s _ _
    simp only [forEachMut, hitDoorIds]
    symm
    exact map_eq_self _ _ (fun d _ => openIf_nil s.Objects d)
  | cons k rest ih =>
    intro s hN hobj
    simp only [forEachMut]
    by_cases h : keyHit sqrt camPos r k = true
    · rw [collectKey_hit sqrt camPos r s k h]
      simp only [hitDoorIds, if_pos h]
      have hD1 := openDoors_eq_map s.Objects k.DoorIds s.m_Doors hN
      rw [ih _ (by simp only [hD1, map_openIf_ids]; exact hN) (by
        intro k2 hk2 d hd
        simp only [hD1] at hd
        obtain ⟨d0, hd0, rfl⟩ := List.mem_map.mp hd
        rw [(openIf_fields _ _ d0).2.1]
        exact hobj k2 (List.mem_cons_of_mem k hk2) d0 hd0)]
      simp only [hD1, List.map_map]
      refine List.map_congr_left (fun d hd => ?_)
      simp only [Function.comp]
      rw [openIf_congr s.Objects, openIf_openIf]
      rw [(openIf_fields _ _ d).2.1]
      exact objectAt_setModelMat_ne _ _ _ _ (hobj k (List.mem_cons_self k rest) d hd)
    · have h2 : keyHit sqrt camPos r k = false := by simpa using h
      rw [collectKey_not_hit sqrt camPos r s k h2]
      simp only [hitDoorIds, h2, Bool.false_eq_true, if_false]
      exact ih s hN (fun k2 hk2 => hobj k2 (List.mem_cons_of_mem k hk2))

theorem mem_hitDoorIds (sqrt : F → F) (camPos : float3 F) (r : F) (keys : List (Key F))
    (i : Int) : i ∈ hitDoorIds sqrt camPos r keys ↔
      ∃ k ∈ keys, keyHit sqrt camPos r k = true ∧ i ∈ k.DoorIds := by
  induction keys with
  | nil => simp [hitDoorIds]
  | cons k rest ih =>
    by_cases h : keyHit sqrt camPos r k = true
    · simp [hitDoorIds, h, ih]
    · simp [hitDoorIds, h, ih]

/-- The unlock message after the key loop: armed with its timer at 0 when a key is picked
up, left as it is otherwise. -/
theorem collectKeys_message (sqrt : F → F) (camPos : float3 F) (r : F) (keys : List (Key F)) :
    ∀ s : GameState F,
      ((∃ k ∈ keys, keyHit sqrt camPos r k = true) →
        (forEachMut (collectKey sqrt camPos r) keys s).1.m_ShowUnlockMsg = true ∧
        (forEachMut (collectKey sqrt camPos r) keys s).1.m_UnlockMsgTimer = 0) ∧
      ((∀ k ∈ keys, keyHit sqrt camPos r k = false) →
        (forEachMut (collectKey sqrt camPos r) keys s).1 = s) := by
  induction keys with
  | nil =>
    intro s
    exact ⟨fun h => by simp at h, fun _ => rfl⟩
  | cons k rest ih =>
    intro s
    simp only [forEachMut]
    by_cases h : keyHit sqrt camPos r k = true
    · rw [collectKey_hit sqrt camPos r s k h]
      refine ⟨fun _ => ?_, fun hall => ?_⟩
      · by_cases hrest : ∃ k2 ∈ rest, keyHit sqrt camPos r k2 = true
        · exact (ih _).1 hrest
        · have hnone : ∀ k2 ∈ rest, keyHit sqrt camPos r k2 = false := by
            intro k2 hk2
            by_contra hc
            exact hrest ⟨k2, hk2, by simpa using hc⟩
          rw [(ih _).2 hnone]
          exact ⟨rfl, rfl⟩
      · have := hall k (List.mem_cons_self k rest)
        rw [h] at this
        exact absurd this (by simp)
    · have h2 : keyHit sqrt camPos r k = false := by simpa using h
      rw [collectKey_not_hit sqrt camPos r s k h2]
      refine ⟨fun hex => ?_, fun hall => ?_⟩
      · obtain ⟨k2, hk2, hh⟩ := hex
        rcases List.mem_cons.mp hk2 with e | e
        · subst e; rw [h2] at hh; exact absurd hh (by simp)
        · exact (ih s).1 ⟨k2, e, hh⟩
      · exact (ih s).2 (fun k2 hk2 => hall k2 (List.mem_cons_of_mem k hk2))

end KeyCollectionLemmas

section KeyCollectionTheorems

variable {F : Type} [LinearOrderedField F]

theorem HandleKeyCollection_of_no_hit (sqrt : F → F) (camPos : float3 F) (r : F)
    (s : GameState F) (h : ∀ k ∈ s.m_Keys, keyHit sqrt camPos r k = false) :
    HandleKeyCollection sqrt camPos r s = s := by
  have e1 := (collectKeys_message sqrt camPos r s.m_Keys s).2 h
  have e2 : (forEachMut (collectKey sqrt camPos r) s.m_Keys s).2 = s.m_Keys := by
    rw [collectKeys_keys]
    apply map_eq_self
    intro k hk
    rw [h k hk]
    rfl
  simp only [HandleKeyCollection, e1, e2]

theorem HandleKeyCollection_keys (sqrt : F → F) (camPos : float3 F) (r : F)
    (s : GameState F) :
    (HandleKeyCollection sqrt camPos r s).m_Keys = s.m_Keys.map
      (fun k => if keyHit sqrt camPos r k then { k with Collected := true } else k) :=
  collectKeys_keys sqrt camPos r s.m_Keys s

/-- C6: `HandleKeyCollection` skips the keys already collected. When every key within pickup
range is already collected the call leaves the whole state unchanged, so no door field is
written again and the unlock message is not armed again; and two calls in a row with the same
position and radius give the same state as one call. -/
theorem HandleKeyCollection_skips_collected (sqrt : F → F) (camPos : float3 F) (r : F)
    (s : GameState F) :
    ((∀ k ∈ s.m_Keys, keyDistance sqrt camPos k < r → k.Collected = true) →
      HandleKeyCollection sqrt camPos r s = s) ∧
    HandleKeyCollection sqrt camPos r (HandleKeyCollection sqrt camPos r s) =
      HandleKeyCollection sqrt camPos r s := by
  constructor
  · intro h
    apply HandleKeyCollection_of_no_hit
    intro k hk
    by_cases hd : keyDistance sqrt camPos k < r
    · simp [keyHit, h k hk hd]
    · simp [keyHit, hd]
  · apply HandleKeyCollection_of_no_hit
    intro k hk
    rw [HandleKeyCollection_keys] at hk
    obtain ⟨k0, -, rfl⟩ := List.mem_map.mp hk
    by_cases h0 : keyHit sqrt camPos r k0 = true
    · rw [if_pos h0]
      simp [keyHit]
    · rw [if_neg h0]
      simpa using h0

theorem HandleKeyCollection_skips_collected_witness :
    (∀ k ∈ ({ (oneDoorScene : GameState ℝ) with
          m_Keys := [{ Min := ⟨0, 0, 0⟩, Max := ⟨1, 1, 1⟩, Collected := true, ObjectIdx := 1,
                       WallIdx := -1, DoorIds := [0] }] } : GameState ℝ).m_Keys,
        keyDistance Real.sqrt ⟨0, 0, 0⟩ k < 1 / 2 → k.Collected = true) ∧
    HandleKeyCollection Real.sqrt ⟨0, 0, 0⟩ (1 / 2)
        ({ (oneDoorScene : GameState ℝ) with
          m_Keys := [{ Min := ⟨0, 0, 0⟩, Max := ⟨1, 1, 1⟩, Collected := true, ObjectIdx := 1,
                       WallIdx := -1, DoorIds := [0] }] } : GameState ℝ) =
      { (oneDoorScene : GameState ℝ) with
          m_Keys := [{ Min := ⟨0, 0, 0⟩, Max := ⟨1, 1, 1⟩, Collected := true, ObjectIdx := 1,
                       WallIdx := -1, DoorIds := [0] }] } := by
  have h : ∀ k ∈ ({ (oneDoorScene : GameState ℝ) with
          m_Keys := [{ Min := ⟨0, 0, 0⟩, Max := ⟨1, 1, 1⟩, Collected := true, ObjectIdx := 1,
                       WallIdx := -1, DoorIds := [0] }] } : GameState ℝ).m_Keys,
        keyDistance Real.sqrt ⟨0, 0, 0⟩ k < 1 / 2 → k.Collected = true := by
    intro k hk _
    simp only [List.mem_singleton] at hk
    rw [hk]
  exact ⟨h, (HandleKeyCollection_skips_collected Real.sqrt ⟨0, 0, 0⟩ (1 / 2) _).1 h⟩

/-- C7: on tables with pairwise distinct door ids in which no key shares its object with a
door, `HandleKeyCollection` marks collected exactly the uncollected keys whose box has its
clamped closest point at distance below the radius and leaves the other keys as they are;
when there is such a key the unlock message is shown with its timer at 0; and every door that
was not opened and whose id is bound to such a key gets `Opened = true`, `Rising = true`,
`RiseTimer = 0` and `OriginalMat` = the model matrix of its object before the call, while
every other door is left as it is. -/
theorem HandleKeyCollection_collects (sqrt : F → F) (camPos : float3 F) (r : F)
    (s : GameState F) (hwf : KeysDoorsWellFormed s) :
    (HandleKeyCollection sqrt camPos r s).m_Keys = s.m_Keys.map
      (fun k => if k.Collected = false ∧ keyDistance sqrt camPos k < r
        then { k with Collected := true } else k) ∧
    ((∃ k ∈ s.m_Keys, k.Collected = false ∧ keyDistance sqrt camPos k < r) →
      (HandleKeyCollection sqrt camPos r s).m_ShowUnlockMsg = true ∧
      (HandleKeyCollection sqrt camPos r s).m_UnlockMsgTimer = 0) ∧
    List.Forall₂
      (fun (d d2 : Door F) =>
        ((d.Opened = false ∧ ∃ k ∈ s.m_Keys,
            (k.Collected = false ∧ keyDistance sqrt camPos k < r) ∧ d.Id ∈ k.DoorIds) →
          d2 = { d with Opened := true, Rising := true, RiseTimer := 0,
                        OriginalMat := (objectAt s.Objects d.ObjectIdx).ModelMat }) ∧
        (¬ (d.Opened = false ∧ ∃ k ∈ s.m_Keys,
            (k.Collected = false ∧ keyDistance sqrt camPos k < r) ∧ d.Id ∈ k.DoorIds) →
          d2 = d))
      s.m_Doors (HandleKeyCollection sqrt camPos r s).m_Doors := by
  refine ⟨?_, fun hex => ?_, ?_⟩
  · rw [HandleKeyCollection_keys]
    refine List.map_congr_left (fun k _ => ?_)
    by_cases h : keyHit sqrt camPos r k = true
    · rw [if_pos h, if_pos ((keyHit_iff sqrt camPos r k).mp h)]
    · rw [if_neg h, if_neg (fun hc => h ((keyHit_iff sqrt camPos r k).mpr hc))]
  · obtain ⟨k, hk, hh⟩ := hex
    exact (collectKeys_message sqrt camPos r s.m_Keys s).1
      ⟨k, hk, (keyHit_iff sqrt camPos r k).mpr hh⟩
  · have hd : (HandleKeyCollection sqrt camPos r s).m_Doors =
        s.m_Doors.map (openIf s.Objects (hitDoorIds sqrt camPos r s.m_Keys)) :=
      collectKeys_doors sqrt camPos r s.m_Keys s hwf.1 hwf.2
    rw [hd, List.forall₂_map_right_iff, List.forall₂_same]
    intro d _
    have hiff : (d.Opened = false ∧ d.Id ∈ hitDoorIds sqrt camPos r s.m_Keys) ↔
        (d.Opened = false ∧ ∃ k ∈ s.m_Keys,
          (k.Collected = false ∧ keyDistance sqrt camPos k < r) ∧ d.Id ∈ k.DoorIds) := by
      rw [mem_hitDoorIds]
      simp only [keyHit_iff]
    constructor
    · intro h
      simp only [openIf, if_pos (hiff.mpr h), openDoor]
    · intro h
      simp only [openIf, if_neg (fun hc => h (hiff.mp hc))]

theorem HandleKeyCollection_collects_witness :
    KeysDoorsWellFormed (oneDoorScene : GameState ℝ) ∧
    (HandleKeyCollection Real.sqrt ⟨0, 0, 0⟩ (1 / 2) (oneDoorScene : GameState ℝ)).m_ShowUnlockMsg
      = true ∧
    (HandleKeyCollection Real.sqrt ⟨0, 0, 0⟩ (1 / 2) (oneDoorScene : GameState ℝ)).m_UnlockMsgTimer
      = 0 := by
  have hwf : KeysDoorsWellFormed (oneDoorScene : GameState ℝ) := by
    constructor
    · simp [oneDoorScene]
    · intro k hk d hd
      simp only [oneDoorScene, List.mem_singleton] at hk hd
      rw [hk, hd]
      decide
  refine ⟨hwf, (HandleKeyCollection_collects Real.sqrt ⟨0, 0, 0⟩ (1 / 2) oneDoorScene hwf).2.1
    ⟨_, List.mem_singleton.mpr rfl, rfl, ?_⟩⟩
  norm_num [keyDistance, length, dot, float3.sub, closestPoint]

end KeyCollectionTheorems

section DoorAnimationTheorems

variable {F : Type} [LinearOrderedField F]

theorem objectAt_setModelMat (O : List (ObjectAttribs F)) (i j : Nat) (m : float4x4 F) :
    objectAt (setModelMat O i m) j =
      if i = j ∧ j < O.length then { objectAt O j with ModelMat := m } else objectAt O j := by
  by_cases h : i = j
  · subst h
    by_cases hl : i < O.length
    · rw [if_pos ⟨rfl, hl⟩]; exact objectAt_setModelMat_eq O i m hl
    · rw [if_neg (fun hc => hl hc.2)]
      simp [objectAt, setModelMat, List.getD_eq_getElem?_getD, List.getElem?_modify_eq,
        List.getElem?_eq_none (not_lt.mp hl)]
  · rw [if_neg (fun hc => h hc.1)]; exact objectAt_setModelMat_ne O i j m h

theorem wallAt_set (W : List (AABB F)) (i j : Nat) :
    wallAt (W.set i zeroBox) j = if i = j then zeroBox else wallAt W j := by
  by_cases h : i = j
  · subst h
    rw [if_pos rfl]
    by_cases hl : i < W.length
    · simp [wallAt, List.getD_eq_getElem?_getD, List.getElem?_set_self hl]
    · have hnone : (W.set i zeroBox)[i]? = none :=
        List.getElem?_eq_none (by rw [List.length_set]; exact not_lt.mp hl)
      simp [wallAt, List.getD_eq_getElem?_getD, hnone]
  · rw [if_neg h]
    simp [wallAt, List.getD_eq_getElem?_getD, List.getElem?_set_ne h]

/-- The body of the animation loop with its locals replaced by their values. -/
theorem animateDoor_eq (dt : F) (s : GameState F) (d : Door F) :
    animateDoor dt s d =
      if d.Rising = false then (s, d)
      else if doorOffset dt d > 3 then
        ({ s with MazeWalls := s.MazeWalls.set d.WallIdx zeroBox
                  Objects := setModelMat
                    (setModelMat s.Objects d.ObjectIdx
                      (d.OriginalMat * (Translation 0 (doorOffset dt d) 0).transpose))
                    d.ObjectIdx (Scale 0 0 0).transpose },
         { d with RiseTimer := d.RiseTimer + dt, Rising := false })
      else
        ({ s with Objects := setModelMat s.Objects d.ObjectIdx
                    (d.OriginalMat * (Translation 0 (doorOffset dt d) 0).transpose) },
         { d with RiseTimer := d.RiseTimer + dt }) := rfl

theorem animateDoor_snd (dt : F) (s : GameState F) (d : Door F) :
    (animateDoor dt s d).2 = tickDoor dt d := by
  rw [animateDoor_eq]
  unfold tickDoor
  split_ifs <;> rfl

theorem animateDoor_lengths (dt : F) (s : GameState F) (d : Door F) :
    (animateDoor dt s d).1.MazeWalls.length = s.MazeWalls.length ∧
      (animateDoor dt s d).1.Objects.length = s.Objects.length := by
  rw [animateDoor_eq]
  split_ifs <;> simp [length_setModelMat]

theorem animateDoor_wallAt (dt : F) (s : GameState F) (d : Door F) (j : Nat) :
    wallAt (animateDoor dt s d).1.MazeWalls j =
      if d.Rising = true ∧ doorOffset dt d > 3 ∧ d.WallIdx = j then zeroBox
      else wallAt s.MazeWalls j := by
  rw [animateDoor_eq]
  by_cases hr : d.Rising = false
  · rw [if_pos hr, if_neg (fun hc => by rw [hr] at hc; exact Bool.false_ne_true hc.1)]
  · have hr2 : d.Rising = true := by simpa using hr
    rw [if_neg hr]
    by_cases ho : doorOffset dt d > 3
    · rw [if_pos ho]
      show wallAt (s.MazeWalls.set d.WallIdx zeroBox) j = _
      rw [wallAt_set]
      by_cases hj : d.WallIdx = j
      · rw [if_pos hj, if_pos ⟨hr2, ho, hj⟩]
      · rw [if_neg hj, if_neg (fun hc => hj hc.2.2)]
    · rw [if_neg ho, if_neg (fun hc => ho hc.2.1)]

theorem animateDoor_objectAt (dt : F) (s : GameState F) (d : Door F) (j : Nat) :
    objectAt (animateDoor dt s d).1.Objects j =
      if d.Rising = true ∧ d.ObjectIdx = j ∧ j < s.Objects.length
      then { objectAt s.Objects j with ModelMat := risenMat dt d }
      else objectAt s.Objects j := by
  rw [animateDoor_eq]
  by_cases hr : d.Rising = false
  · rw [if_pos hr, if_neg (fun hc => by rw [hr] at hc; exact Bool.false_ne_true hc.1)]
  · have hr2 : d.Rising = true := by simpa using hr
    rw [if_neg hr]
    by_cases ho : doorOffset dt d > 3
    · rw [if_pos ho]
      show objectAt (setModelMat (setModelMat s.Objects d.ObjectIdx _) d.ObjectIdx _) j = _
      rw [objectAt_setModelMat, objectAt_setModelMat, length_setModelMat]
      by_cases hj : d.ObjectIdx = j ∧ j < s.Objects.length
      · rw [if_pos hj, if_pos hj, if_pos ⟨hr2, hj⟩]
        simp only [risenMat, if_pos ho]
      · rw [if_neg hj, if_neg hj, if_neg (fun hc => hj hc.2)]
    · rw [if_neg ho]
      show objectAt (setModelMat s.Objects d.ObjectIdx _) j = _
      rw [objectAt_setModelMat]
      by_cases hj : d.ObjectIdx = j ∧ j < s.Objects.length
      · rw [if_pos hj, if_pos ⟨hr2, hj⟩]
        simp only [risenMat, if_neg ho]
      · rw [if_neg hj, if_neg (fun hc => hj hc.2)]

theorem animateDoors_doors (dt : F) (doors : List (Door F)) :
    ∀ s : GameState F, (forEachMut (animateDoor dt) doors s).2 = doors.map (tickDoor dt) := by
  induction doors with
  | nil => intro s; rfl
  | cons d ds ih => intro s; simp only [forEachMut, List.map_cons, ih, animateDoor_snd]

theorem animateDoors_lengths (dt : F) (doors : List (Door F)) :
    ∀ s : GameState F,
      (forEachMut (animateDoor dt) doors s).1.MazeWalls.length = s.MazeWalls.length ∧
      (forEachMut (animateDoor dt) doors s).1.Objects.length = s.Objects.length := by
  induction doors with
  | nil => intro s; exact ⟨rfl, rfl⟩
  | cons d ds ih =>
    intro s
    simp only [forEachMut]
    rw [(ih _).1, (ih _).2]
    exact animateDoor_lengths dt s d

/-- A wall volume after the animation loop: the zero box when a rising door that refers to
it passes the threshold in this tick, what it was before otherwise. -/
theorem animateDoors_wallAt (dt : F) (doors : List (Door F)) (j : Nat) :
    ∀ s : GameState F, wallAt (forEachMut (animateDoor dt) doors s).1.MazeWalls j =
      if ∃ d ∈ doors, d.Rising = true ∧ doorOffset dt d > 3 ∧ d.WallIdx = j then zeroBox
      else wallAt s.MazeWalls j := by
  induction doors with
  | nil => intro s; simp [forEachMut]
  | cons d ds ih =>
    intro s
    simp only [forEachMut, ih, animateDoor_wallAt]
    by_cases h1 : ∃ e ∈ ds, e.Rising = true ∧ doorOffset dt e > 3 ∧ e.WallIdx = j
    · obtain ⟨e, he, hh⟩ := h1
      rw [if_pos ⟨e, he, hh⟩, if_pos ⟨e, List.mem_cons_of_mem d he, hh⟩]
    · rw [if_neg h1]
      by_cases h2 : d.Rising = true ∧ doorOffset dt d > 3 ∧ d.WallIdx = j
      · rw [if_pos h2, if_pos ⟨d, List.mem_cons_self d ds, h2⟩]
      · rw [if_neg h2, if_neg]
        rintro ⟨e, he, hh⟩
        rcases List.mem_cons.mp he with rfl | he2
        · exact h2 hh
        · exact h1 ⟨e, he2, hh⟩

/-- An object that no door of the list refers to is left alone by the animation loop. -/
theorem animateDoors_objectAt_frame (dt : F) (doors : List (Door F)) (j : Nat) :
    ∀ s : GameState F, (∀ d ∈ doors, d.Rising = true → d.ObjectIdx ≠ j) →
      objectAt (forEachMut (animateDoor dt) doors s).1.Objects j = objectAt s.Objects j := by
  induction doors with
  | nil => intro s _; rfl
  | cons d ds ih =>
    intro s h
    simp only [forEachMut]
    rw [ih _ (fun e he => h e (List.mem_cons_of_mem d he)), animateDoor_objectAt, if_neg]
    intro hc
    exact h d (List.mem_cons_self d ds) hc.1 hc.2.1

/-- The object of a door after the animation loop, when no two doors share an object. -/
theorem animateDoors_objectAt (dt : F) (doors : List (Door F)) :
    ∀ s : GameState F, (doors.map Door.ObjectIdx).Nodup →
      ∀ d ∈ doors, d.ObjectIdx < s.Objects.length →
        objectAt (forEachMut (animateDoor dt) doors s).1.Objects d.ObjectIdx =
          if d.Rising = true
          then { objectAt s.Objects d.ObjectIdx with ModelMat := risenMat dt d }
          else objectAt s.Objects d.ObjectIdx := by
  induction doors with
  | nil => intro s _ d hd; simp at hd
  | cons e es ih =>
    intro s hN d hd hlt
    rw [List.map_cons, List.nodup_cons] at hN
    simp only [forEachMut]
    rcases List.mem_cons.mp hd with rfl | hd2
    · rw [animateDoors_objectAt_frame dt es d.ObjectIdx _ (fun x hx _ hc =>
        hN.1 (List.mem_map.mpr ⟨x, hx, hc⟩)), animateDoor_objectAt]
      by_cases hr : d.Rising = true
      · rw [if_pos ⟨hr, rfl, hlt⟩, if_pos hr]
      · rw [if_neg (fun hc => hr hc.1), if_neg hr]
    · have hne : e.ObjectIdx ≠ d.ObjectIdx := fun hc =>
        hN.1 (List.mem_map.mpr ⟨d, hd2, hc.symm⟩)
      have hcond : ¬ (e.Rising = true ∧ e.ObjectIdx = d.ObjectIdx ∧
          d.ObjectIdx < s.Objects.length) := fun hc => hne hc.2.1
      rw [ih _ hN.2 d hd2 (by rw [(animateDoor_lengths dt s e).2]; exact hlt),
        animateDoor_objectAt, if_neg hcond]

/-- C8: one tick of the door animation loop on tables whose doors point into the wall and
object tables without sharing a wall volume or an object. A door with `Rising = true` gets
`RiseTimer + dt`; when `(RiseTimer + dt) * RiseSpeed > 3` its wall volume becomes the
zero-extent box, the model matrix of its object becomes the zero-scale matrix and `Rising`
becomes false; otherwise `Rising` stays true and its wall volume is unchanged. A door with
`Rising = false` is not touched: its record, its wall volume and its object are unchanged. -/
theorem doorAnimation_tick (dt : F) (s : GameState F) (hwf : DoorsWellFormed s) :
    List.Forall₂
      (fun (d d2 : Door F) =>
        (d.Rising = true →
          d2.RiseTimer = d.RiseTimer + dt ∧
          ((d.RiseTimer + dt) * d.RiseSpeed > 3 →
            d2 = { d with RiseTimer := d.RiseTimer + dt, Rising := false } ∧
            wallAt (doorAnimation dt s).MazeWalls d.WallIdx = zeroBox ∧
            (objectAt (doorAnimation dt s).Objects d.ObjectIdx).ModelMat =
              (Scale 0 0 0).transpose) ∧
          (¬ (d.RiseTimer + dt) * d.RiseSpeed > 3 →
            d2 = { d with RiseTimer := d.RiseTimer + dt } ∧ d2.Rising = true ∧
            wallAt (doorAnimation dt s).MazeWalls d.WallIdx = wallAt s.MazeWalls d.WallIdx)) ∧
        (d.Rising = false →
          d2 = d ∧
          wallAt (doorAnimation dt s).MazeWalls d.WallIdx = wallAt s.MazeWalls d.WallIdx ∧
          objectAt (doorAnimation dt s).Objects d.ObjectIdx = objectAt s.Objects d.ObjectIdx))
      s.m_Doors (doorAnimation dt s).m_Doors := by
  obtain ⟨hW, hO, hR⟩ := hwf
  have hdoors : (doorAnimation dt s).m_Doors = s.m_Doors.map (tickDoor dt) :=
    animateDoors_doors dt s.m_Doors s
  have hwalls : ∀ j, wallAt (doorAnimation dt s).MazeWalls j =
      if ∃ d ∈ s.m_Doors, d.Rising = true ∧ doorOffset dt d > 3 ∧ d.WallIdx = j then zeroBox
      else wallAt s.MazeWalls j := fun j => animateDoors_wallAt dt s.m_Doors j s
  have hobjs : ∀ d ∈ s.m_Doors, objectAt (doorAnimation dt s).Objects d.ObjectIdx =
      if d.Rising = true then { objectAt s.Objects d.ObjectIdx with ModelMat := risenMat dt d }
      else objectAt s.Objects d.ObjectIdx :=
    fun d hd => animateDoors_objectAt dt s.m_Doors s hO d hd (hR d hd).2
  have hkeep : ∀ d ∈ s.m_Doors, ¬ (d.Rising = true ∧ doorOffset dt d > 3) →
      wallAt (doorAnimation dt s).MazeWalls d.WallIdx = wallAt s.MazeWalls d.WallIdx := by
    intro d hd hn
    rw [hwalls, if_neg]
    rintro ⟨e, he, h1, h2, h3⟩
    have := List.inj_on_of_nodup_map hW he hd h3
    subst this
    exact hn ⟨h1, h2⟩
  rw [hdoors, List.forall₂_map_right_iff, List.forall₂_same]
  intro d hd
  constructor
  · intro hr
    have hrf : ¬ d.Rising = false := by rw [hr]; simp
    refine ⟨?_, fun ho => ?_, fun ho => ?_⟩
    · unfold tickDoor doorOffset
      rw [if_neg hrf]
      split_ifs <;> rfl
    · refine ⟨?_, ?_, ?_⟩
      · unfold tickDoor doorOffset
        rw [if_neg hrf, if_pos ho]
      · rw [hwalls, if_pos ⟨d, hd, hr, ho, rfl⟩]
      · rw [hobjs d hd, if_pos hr]
        show risenMat dt d = _
        unfold risenMat doorOffset
        rw [if_pos ho]
    · have ht : tickDoor dt d = { d with RiseTimer := d.RiseTimer + dt } := by
        unfold tickDoor doorOffset
        rw [if_neg hrf, if_neg ho]
      refine ⟨ht, by rw [ht]; exact hr, hkeep d hd (fun hc => ho hc.2)⟩
  · intro hr
    refine ⟨?_, hkeep d hd (fun hc => by rw [hr] at hc; exact Bool.false_ne_true hc.1), ?_⟩
    · unfold tickDoor
      rw [if_pos hr]
    · rw [hobjs d hd, if_neg (by rw [hr]; simp)]

theorem doorAnimation_tick_witness :
    DoorsWellFormed (risingDoorScene : GameState ℚ) ∧
    wallAt (doorAnimation 1 (risingDoorScene : GameState ℚ)).MazeWalls 0 = zeroBox ∧
    (objectAt (doorAnimation 1 (risingDoorScene : GameState ℚ)).Objects 0).ModelMat =
      (Scale 0 0 0).transpose := by
  have hwf : DoorsWellFormed (risingDoorScene : GameState ℚ) := by
    simp [DoorsWellFormed, risingDoorScene, oneDoorScene]
  have h := doorAnimation_tick 1 (risingDoorScene : GameState ℚ) hwf
  have hm : (risingDoorScene : GameState ℚ).m_Doors =
      [{ WallIdx := 0, ObjectIdx := 0, Opened := true, Rising := true, RiseTimer := 1,
         RiseSpeed := 2,
         OriginalMat := (Scale (3 : ℚ) 3 1 * Translation 0 (3 - 1 / 5) 5).transpose,
         Id := 0 }] := rfl
  rw [hm] at h
  obtain ⟨d2, l2, hR, -, -⟩ := List.forall₂_cons_left_iff.mp h
  have := (hR.1 rfl).2.1 (by norm_num)
  exact ⟨hwf, this.2.1, this.2.2⟩

end DoorAnimationTheorems

section DamageTheorems

variable {F : Type} [LinearOrderedField F]

theorem damageLoop_inv (c : F) :
    ∀ (j : Nat) (s : GameState F) (T : F), s.m_DamageCooldown = c → s.m_IsGameOver = false →
      s.m_Health = 25 * ((j : Int) + 1) → j ≤ 3 → 0 ≤ s.m_TimeSinceLastDamage →
      s.m_TimeSinceLastDamage = T - c * (3 - (j : F)) → DamageInv c T (damageLoop s) := by
  intro j
  induction j with
  | zero =>
    intro s T h1 h2 h3 _ h5 h6
    rw [damageLoop]
    by_cases ht : s.m_TimeSinceLastDamage ≥ s.m_DamageCooldown
    · rw [if_pos ht, if_pos (by rw [h3]; simp)]
      refine ⟨h1, Or.inr ⟨rfl, by simp [h3], ?_⟩⟩
      rw [h1, h6] at ht
      simp only [Nat.cast_zero, sub_zero] at ht
      linarith
    · rw [if_neg ht]
      refine ⟨h1, Or.inl ⟨h2, h5, by rw [← h1]; exact not_le.mp ht, 3, le_refl _, ?_, ?_⟩⟩
      · rw [h3]; norm_num
      · rw [h6]; norm_num
  | succ j ih =>
    intro s T h1 h2 h3 h4 h5 h6
    rw [damageLoop]
    by_cases ht : s.m_TimeSinceLastDamage ≥ s.m_DamageCooldown
    · have hpos : ¬ (max 0 (s.m_Health - 25) ≤ 0) := by
        rw [h3]; push_cast; omega
      rw [if_pos ht, if_neg hpos]
      refine ih _ T h1 h2 ?_ (by omega) ?_ ?_
      · show max 0 (s.m_Health - 25) = 25 * ((j : Int) + 1)
        rw [h3]; push_cast; omega
      · show 0 ≤ s.m_TimeSinceLastDamage - s.m_DamageCooldown
        exact sub_nonneg.mpr ht
      · show s.m_TimeSinceLastDamage - s.m_DamageCooldown = T - c * (3 - (j : F))
        rw [h6, h1]; push_cast; ring
    · rw [if_neg ht]
      have hj : j ≤ 2 := by omega
      refine ⟨h1, Or.inl ⟨h2, h5, by rw [← h1]; exact not_le.mp ht, 2 - j, by omega, ?_, ?_⟩⟩
      · rw [h3]; push_cast [Nat.cast_sub hj]; ring
      · rw [h6]; push_cast [Nat.cast_sub hj]; ring

theorem damageUpdate_inv (c : F) (T d dt : F) (hd : d < 2) (hdt : 0 ≤ dt)
    (s : GameState F) (hI : DamageInv c T s) : DamageInv c (T + dt) (damageUpdate d dt s) := by
  obtain ⟨h1, h | h⟩ := hI
  · obtain ⟨g1, g2, g3, k, k1, k2, k3⟩ := h
    simp only [damageUpdate, if_pos (And.intro hd g1)]
    refine damageLoop_inv c (3 - k) _ (T + dt) h1 g1 ?_ (by omega) ?_ ?_
    · show s.m_Health = 25 * (((3 - k : Nat) : Int) + 1)
      rw [k2]; push_cast [Nat.cast_sub k1]; ring
    · show 0 ≤ s.m_TimeSinceLastDamage + dt
      linarith
    · show s.m_TimeSinceLastDamage + dt = T + dt - c * (3 - ((3 - k : Nat) : F))
      rw [k3]; push_cast [Nat.cast_sub k1]; ring
  · obtain ⟨g1, g2, g3⟩ := h
    have hne : ¬ (d < 2 ∧ s.m_IsGameOver = false) := by
      rw [g1]; simp
    simp only [damageUpdate, if_neg hne]
    exact ⟨h1, Or.inr ⟨g1, g2, by linarith⟩⟩

theorem damageTicks_inv (c : F) (ticks : List (F × F))
    (hticks : ∀ tk ∈ ticks, tk.1 < 2 ∧ 0 ≤ tk.2) :
    ∀ (T : F) (s : GameState F), DamageInv c T s →
      DamageInv c (T + (ticks.map Prod.snd).sum)
        (ticks.foldl (fun st tk => damageUpdate tk.1 tk.2 st) s) := by
  induction ticks with
  | nil => intro T s h; simpa using h
  | cons tk rest ih =>
    intro T s h
    have h1 := hticks tk (List.mem_cons_self tk rest)
    have h2 := ih (fun e he => hticks e (List.mem_cons_of_mem tk he)) (T + tk.2)
      (damageUpdate tk.1 tk.2 s) (damageUpdate_inv c T tk.1 tk.2 h1.1 h1.2 s h)
    simp only [List.map_cons, List.sum_cons, List.foldl_cons]
    rw [← add_assoc]
    exact h2

theorem DamageInv_health [FloorRing F] (c : F) (hc : 0 < c) (T : F) (s : GameState F)
    (hI : DamageInv c T s) : s.m_Health = max 0 (100 - 25 * ⌊T / c⌋) := by
  obtain ⟨-, h | h⟩ := hI
  · obtain ⟨-, g2, g3, k, k1, k2, k3⟩ := h
    have hfloor : ⌊T / c⌋ = (k : Int) := by
      rw [Int.floor_eq_iff]
      have hT : T = s.m_TimeSinceLastDamage + c * (k : F) := by rw [k3]; ring
      constructor
      · rw [le_div_iff₀ hc, hT]; push_cast; nlinarith
      · rw [div_lt_iff₀ hc, hT]; push_cast; nlinarith
    rw [hfloor, k2]
    have : (0 : Int) ≤ 100 - 25 * (k : Int) := by omega
    exact (max_eq_right this).symm
  · obtain ⟨-, g2, g3⟩ := h
    have hfloor : (4 : Int) ≤ ⌊T / c⌋ := by
      rw [Int.le_floor, le_div_iff₀ hc]; push_cast; linarith
    rw [g2]
    have : 100 - 25 * ⌊T / c⌋ ≤ 0 := by omega
    exact (max_eq_left this).symm

/-- C9: from health 100, game not over and a damage timer at 0, for a positive cooldown `c`
and any sequence of ticks in contact (distance below 2) with non-negative time steps of sum
`T`, the health after the ticks is `max 0 (100 - 25 * floor (T / c))`, however `T` is split
into ticks; for `T = 3 c` it is 25. -/
theorem sustained_contact_health [FloorRing F] (c : F) (hc : 0 < c) (s : GameState F)
    (hcool : s.m_DamageCooldown = c) (hh : s.m_Health = 100) (hg : s.m_IsGameOver = false)
    (ht : s.m_TimeSinceLastDamage = 0) (ticks : List (F × F))
    (hticks : ∀ tk ∈ ticks, tk.1 < 2 ∧ 0 ≤ tk.2) :
    (ticks.foldl (fun st tk => damageUpdate tk.1 tk.2 st) s).m_Health =
        max 0 (100 - 25 * ⌊(ticks.map Prod.snd).sum / c⌋) ∧
    ((ticks.map Prod.snd).sum = 3 * c →
      (ticks.foldl (fun st tk => damageUpdate tk.1 tk.2 st) s).m_Health = 25) := by
  have h0 : DamageInv c 0 s :=
    ⟨hcool, Or.inl ⟨hg, by rw [ht], by rw [ht]; exact hc, 0, by omega, by rw [hh]; norm_num,
      by rw [ht]; norm_num⟩⟩
  have h1 := damageTicks_inv c ticks hticks 0 s h0
  rw [zero_add] at h1
  have h2 := DamageInv_health c hc _ _ h1
  refine ⟨h2, fun hT => ?_⟩
  rw [h2, hT, mul_div_assoc, div_self (ne_of_gt hc), mul_one]
  have : ⌊(3 : F)⌋ = 3 := by
    have := Int.floor_intCast (α := F) 3
    simp
  rw [this]
  norm_num

theorem sustained_contact_health_witness :
    ((0 : ℚ) < 1 ∧ (emptyScene : GameState ℚ).m_DamageCooldown = 1 ∧
      (emptyScene : GameState ℚ).m_Health = 100 ∧
      (emptyScene : GameState ℚ).m_IsGameOver = false ∧
      (emptyScene : GameState ℚ).m_TimeSinceLastDamage = 0 ∧
      (∀ tk ∈ [((1 : ℚ), (1 / 2 : ℚ)), (1, 1 / 2), (0, 2)], tk.1 < 2 ∧ 0 ≤ tk.2)) ∧
    ([((1 : ℚ), (1 / 2 : ℚ)), (1, 1 / 2), (0, 2)].foldl
        (fun st tk => damageUpdate tk.1 tk.2 st) (emptyScene : GameState ℚ)).m_Health = 25 := by
  have hticks : ∀ tk ∈ [((1 : ℚ), (1 / 2 : ℚ)), (1, 1 / 2), (0, 2)], tk.1 < 2 ∧ 0 ≤ tk.2 := by
    intro tk h
    simp only [List.mem_cons, List.mem_singleton, List.not_mem_nil, or_false] at h
    rcases h with h | h | h <;> subst h <;> norm_num
  refine ⟨⟨by norm_num, rfl, rfl, rfl, rfl, hticks⟩, ?_⟩
  exact (sustained_contact_health (1 : ℚ) (by norm_num) emptyScene rfl rfl rfl rfl _ hticks).2
    (by norm_num)

/-- One pass through the loop body when the timer has reached the cooldown and the step
brings the health to 0: the game is over and the loop is left at once. -/
theorem damageLoop_last_step (s : GameState F)
    (ht : s.m_TimeSinceLastDamage ≥ s.m_DamageCooldown) (hh : s.m_Health - 25 ≤ 0) :
    damageLoop s =
      { s with m_Health := 0
               m_TimeSinceLastDamage := s.m_TimeSinceLastDamage - s.m_DamageCooldown
               m_DamageEffectTimer := 3 / 10
               m_PostDamageOverlayAlpha := 1
               m_PostDamageOverlayTimer := 0
               m_IsGameOver := true } := by
  have hm : max 0 (s.m_Health - 25) = 0 := max_eq_left hh
  rw [damageLoop, if_pos ht, if_pos (by rw [hm]), hm]

theorem damageLoop_zero_gameOver (s : GameState F) :
    (damageLoop s).m_Health ≤ 0 →
      (0 < s.m_Health ∨ s.m_TimeSinceLastDamage ≥ s.m_DamageCooldown) →
      (damageLoop s).m_IsGameOver = true ∧ (damageLoop s).m_Health = 0 := by
  induction s using damageLoop.induct with
  | case1 s ht hh =>
    intro _ _
    rw [damageLoop, if_pos ht, if_pos hh]
    exact ⟨rfl, le_antisymm hh (le_max_left _ _)⟩
  | case2 s ht hh ih =>
    intro h1 _
    rw [damageLoop, if_pos ht, if_neg hh] at h1 ⊢
    exact ih h1 (Or.inl (not_le.mp hh))
  | case3 s ht =>
    intro h1 h2
    rw [damageLoop, if_neg ht] at h1
    rcases h2 with h2 | h2
    · omega
    · exact absurd h2 ht

/-- C10: a damage step that brings the health to 0 sets `m_IsGameOver` and is the last step
of the loop (the timer loses one cooldown only); a tick that took a damage step and leaves
the health at 0 or below leaves the game over with health 0; in a state with the game over a
tick leaves health and game-over flag as they are, whatever the distance to the hostile and
the time step; and the reset button puts the health back to 100 with the game running. -/
theorem gameOver_terminal (d dt : F) (s : GameState F) :
    (s.m_TimeSinceLastDamage ≥ s.m_DamageCooldown → s.m_Health - 25 ≤ 0 →
      damageLoop s =
        { s with m_Health := 0
                 m_TimeSinceLastDamage := s.m_TimeSinceLastDamage - s.m_DamageCooldown
                 m_DamageEffectTimer := 3 / 10
                 m_PostDamageOverlayAlpha := 1
                 m_PostDamageOverlayTimer := 0
                 m_IsGameOver := true }) ∧
    (d < 2 → s.m_IsGameOver = false →
      s.m_TimeSinceLastDamage + dt ≥ s.m_DamageCooldown →
      (damageUpdate d dt s).m_Health ≤ 0 →
      (damageUpdate d dt s).m_IsGameOver = true ∧ (damageUpdate d dt s).m_Health = 0) ∧
    (s.m_IsGameOver = true →
      (damageUpdate d dt s).m_Health = s.m_Health ∧
        (damageUpdate d dt s).m_IsGameOver = true) ∧
    ((resetGame s).m_Health = 100 ∧ (resetGame s).m_IsGameOver = false) := by
  refine ⟨damageLoop_last_step s, fun hd hg ht hz => ?_, fun hg => ?_, rfl, rfl⟩
  · simp only [damageUpdate, if_pos (And.intro hd hg)] at hz ⊢
    exact damageLoop_zero_gameOver _ hz (Or.inr ht)
  · have hne : ¬ (d < 2 ∧ s.m_IsGameOver = false) := by rw [hg]; simp
    unfold damageUpdate
    rw [if_neg hne]
    exact ⟨rfl, hg⟩

theorem gameOver_terminal_witness :
    (damageUpdate (1 : ℚ) 5 { (emptyScene : GameState ℚ) with m_Health := 25 }).m_IsGameOver
        = true ∧
    (damageUpdate (1 : ℚ) 5 { (emptyScene : GameState ℚ) with m_Health := 25 }).m_Health = 0 ∧
    (damageUpdate (1 : ℚ) 5
        { (emptyScene : GameState ℚ) with m_Health := 0, m_IsGameOver := true }).m_Health = 0 := by
  have h1 := (gameOver_terminal (1 : ℚ) 5
    { (emptyScene : GameState ℚ) with m_Health := 25 }).2.1 (by norm_num) rfl
    (by simp [emptyScene]) (by
      simp only [damageUpdate, emptyScene]
      rw [if_pos (by norm_num), damageLoop_last_step _ (by norm_num) (by norm_num)])
  have h2 := (gameOver_terminal (1 : ℚ) 5
    { (emptyScene : GameState ℚ) with m_Health := 0, m_IsGameOver := true }).2.2.1 rfl
  exact ⟨h1.1, h1.2, h2.1⟩

end DamageTheorems

section CompileLemmas

variable {F : Type} [LinearOrderedField F]

theorem pass1Cell_frame (P : SceneParams) (g : TileGrid) (z x : Nat) (st : Pass1State F) :
    (pass1Cell P g z x st).scene.ObjectInstances = st.scene.ObjectInstances ∧
      (pass1Cell P g z x st).scene.DynamicObjects = st.scene.DynamicObjects := by
  simp only [pass1Cell]
  split_ifs <;> exact ⟨rfl, rfl⟩

theorem pass2Cell_frame (P : SceneParams) (g : TileGrid) (z x : Nat) (st : Pass2State F) :
    (pass2Cell P g z x st).scene.ObjectInstances = st.scene.ObjectInstances ∧
      (pass2Cell P g z x st).scene.DynamicObjects = st.scene.DynamicObjects := by
  simp only [pass2Cell]
  split_ifs <;> exact ⟨rfl, rfl⟩

/-- The grid passes do not touch the instancing groups nor the list of dynamic objects. -/
theorem gridPasses_frame (P : SceneParams) (g : TileGrid) (s : GameState F) :
    (gridPasses P g s).ObjectInstances = s.ObjectInstances ∧
      (gridPasses P g s).DynamicObjects = s.DynamicObjects := by
  have h1 : (afterPass1 P g s).scene.ObjectInstances = s.ObjectInstances ∧
      (afterPass1 P g s).scene.DynamicObjects = s.DynamicObjects := by
    unfold afterPass1 pass1
    refine forLoop_induction g.mazeRows _ _
      (fun _ (t : Pass1State F) => t.scene.ObjectInstances = s.ObjectInstances ∧
        t.scene.DynamicObjects = s.DynamicObjects) ⟨rfl, rfl⟩ ?_
    intro z _ t ht
    refine forLoop_induction g.mazeCols _ t
      (fun _ (u : Pass1State F) => u.scene.ObjectInstances = s.ObjectInstances ∧
        u.scene.DynamicObjects = s.DynamicObjects) ht ?_
    intro x _ u hu
    obtain ⟨f1, f2⟩ := pass1Cell_frame P g z x u
    exact ⟨f1.trans hu.1, f2.trans hu.2⟩
  have e : gridPasses P g s = (pass2 P g
      { visited := (afterPass1 P g s).visited, scene := (afterPass1 P g s).scene,
        keyCells := [] }).scene := rfl
  rw [e]
  unfold pass2
  refine forLoop_induction g.mazeRows _ _
    (fun _ (t : Pass2State F) => t.scene.ObjectInstances = s.ObjectInstances ∧
      t.scene.DynamicObjects = s.DynamicObjects) h1 ?_
  intro z _ t ht
  refine forLoop_induction g.mazeCols _ t
    (fun _ (u : Pass2State F) => u.scene.ObjectInstances = s.ObjectInstances ∧
      u.scene.DynamicObjects = s.DynamicObjects) ht ?_
  intro x _ u hu
  obtain ⟨f1, f2⟩ := pass2Cell_frame P g z x u
  exact ⟨f1.trans hu.1, f2.trans hu.2⟩

theorem doorsOfRuns_id_ge (runs : List Run) :
    ∀ (wb ob : Nat) (i : Int), ∀ d ∈ (doorsOfRuns wb ob i runs : List (Door F)), i ≤ d.Id := by
  induction runs with
  | nil => intro wb ob i d hd; simp [doorsOfRuns] at hd
  | cons r rs ih =>
    intro wb ob i d hd
    by_cases hdoor : isDoorCode r.blockType = true
    · simp only [doorsOfRuns, if_pos hdoor, List.mem_cons] at hd
      rcases hd with hd | hd
      · subst hd; exact le_refl _
      · have := ih (wb + 1) (ob + 1) (i + 1) d hd
        omega
    · simp only [doorsOfRuns, if_neg hdoor] at hd
      exact ih (wb + 1) (ob + 1) i d hd

/-- The doors of a list of runs have strictly increasing wall indices, object indices and
ids. -/
theorem doorsOfRuns_pairwise (runs : List Run) :
    ∀ (wb ob : Nat) (i : Int), List.Pairwise
      (fun (a b : Door F) => a.WallIdx < b.WallIdx ∧ a.ObjectIdx < b.ObjectIdx ∧ a.Id < b.Id)
      (doorsOfRuns wb ob i runs) := by
  induction runs with
  | nil => intro wb ob i; simp [doorsOfRuns]
  | cons r rs ih =>
    intro wb ob i
    by_cases hdoor : isDoorCode r.blockType = true
    · simp only [doorsOfRuns, if_pos hdoor, List.pairwise_cons]
      refine ⟨fun d hd => ?_, ih (wb + 1) (ob + 1) (i + 1)⟩
      have h1 := doorsOfRuns_range rs (wb + 1) (ob + 1) (i + 1) d hd
      have h2 := doorsOfRuns_id_ge rs (wb + 1) (ob + 1) (i + 1) d hd
      exact ⟨by show wb < d.WallIdx; omega, by show ob < d.ObjectIdx; omega,
        by show i < d.Id; omega⟩
    · simp only [doorsOfRuns, if_neg hdoor]
      exact ih (wb + 1) (ob + 1) i

/-- The doors of a list of runs, paired in order with the door runs of the list: each door
refers to the position of its run in the wall and object tables. -/
theorem doorsOfRuns_runs (runs : List Run) :
    ∀ (wb ob : Nat) (i : Int), List.Forall₂
      (fun (d : Door F) (r : Run) =>
        ∃ j, runs[j]? = some r ∧ d.WallIdx = wb + j ∧ d.ObjectIdx = ob + j)
      (doorsOfRuns wb ob i runs) (runs.filter (fun r => isDoorCode r.blockType)) := by
  induction runs with
  | nil => intro wb ob i; simp [doorsOfRuns]
  | cons r rs ih =>
    intro wb ob i
    have shift : ∀ (k : Int), List.Forall₂
        (fun (d : Door F) (q : Run) =>
          ∃ j, (r :: rs)[j]? = some q ∧ d.WallIdx = wb + j ∧ d.ObjectIdx = ob + j)
        (doorsOfRuns (wb + 1) (ob + 1) k rs) (rs.filter (fun r => isDoorCode r.blockType)) := by
      intro k
      refine List.Forall₂.imp ?_ (ih (wb + 1) (ob + 1) k)
      rintro d q ⟨j, h1, h2, h3⟩
      exact ⟨j + 1, by simpa using h1, by omega, by omega⟩
    by_cases hdoor : isDoorCode r.blockType = true
    · simp only [doorsOfRuns, if_pos hdoor, List.filter_cons]
      exact List.Forall₂.cons ⟨0, by simp, rfl, rfl⟩ (shift (i + 1))
    · simp only [doorsOfRuns, if_neg hdoor, List.filter_cons]
      exact shift i

theorem pushSceneTail_tables (P : SceneParams) (g : TileGrid) (s : GameState F) :
    (pushSceneTail P g s).Objects =
        s.Objects ++ [groundObject P, ceilingObject P g, monsterObject P] ∧
    (pushSceneTail P g s).ObjectInstances = s.ObjectInstances ++
        [⟨P.CubeMeshId, s.Objects.length, 0⟩, ⟨P.PlaneMeshId, 1, s.Objects.length⟩,
         ⟨P.CubeMeshId, 1, s.Objects.length + 1⟩, ⟨P.CubeMeshId, 1, s.Objects.length + 2⟩] ∧
    (pushSceneTail P g s).DynamicObjects = s.DynamicObjects ++ [s.Objects.length + 2] ∧
    (pushSceneTail P g s).MazeWalls = s.MazeWalls ∧
    (pushSceneTail P g s).m_Doors = s.m_Doors ∧
    (pushSceneTail P g s).m_Keys = s.m_Keys := by
  refine ⟨by simp [pushSceneTail], ?_, by simp [pushSceneTail], rfl, rfl, rfl⟩
  simp [pushSceneTail]

end CompileLemmas

section CompileTheorems

variable {F : Type} [LinearOrderedField F]

/-- C12: after `CreateSceneObjects` started on an empty door table, the doors pair off in
order with the door runs of Pass 1; each door's `WallIdx` is a valid index of the wall-volume
table and holds the volume emitted for its run, its `ObjectIdx` is a valid index of the
object table and holds the object emitted for its run, and no two doors share a `WallIdx` or
an `ObjectIdx`. -/
theorem doors_point_to_their_runs (P : SceneParams) (g : TileGrid) (s : GameState F)
    (hDo : s.m_Doors = []) :
    List.Forall₂
      (fun (d : Door F) (r : Run) =>
        d.WallIdx < (CreateSceneObjects P g s).MazeWalls.length ∧
        (CreateSceneObjects P g s).MazeWalls[d.WallIdx]? = some (blockVolume (placementOf g r)) ∧
        d.ObjectIdx < (CreateSceneObjects P g s).Objects.length ∧
        (CreateSceneObjects P g s).Objects[d.ObjectIdx]? =
          some (blockObject P r.blockType (placementOf g r)))
      (CreateSceneObjects P g s).m_Doors
      ((afterPass1 P g s).runs.filter (fun r => isDoorCode r.blockType)) ∧
    ((CreateSceneObjects P g s).m_Doors.map Door.WallIdx).Nodup ∧
    ((CreateSceneObjects P g s).m_Doors.map Door.ObjectIdx).Nodup := by
  have hD : ∀ d ∈ s.m_Doors, d.ObjectIdx < s.Objects.length := by
    intro d hd; rw [hDo] at hd; simp at hd
  obtain ⟨a1, a2, a3, -, -, -, -⟩ := gridPasses_tables P g s hD
  obtain ⟨t1, -, -, t4, t5, -⟩ := pushSceneTail_tables P g (gridPasses P g s)
  have e : CreateSceneObjects P g s = pushSceneTail P g (gridPasses P g s) := rfl
  rw [hDo, List.nil_append] at a3
  rw [e, t1, t4, t5, a1, a2, a3]
  refine ⟨?_, ?_, ?_⟩
  · refine List.Forall₂.imp ?_ (doorsOfRuns_runs (afterPass1 P g s).runs _ _ _)
    rintro d r ⟨j, h1, h2, h3⟩
    have hj : j < (afterPass1 P g s).runs.length := by
      by_contra hc
      rw [List.getElem?_eq_none (not_lt.mp hc)] at h1
      exact Option.noConfusion h1
    refine ⟨?_, ?_, ?_, ?_⟩
    · rw [h2, List.length_append, List.length_map]; omega
    · rw [h2, List.getElem?_append_right (Nat.le_add_right _ _), Nat.add_sub_cancel_left,
        List.getElem?_map, h1]
      rfl
    · rw [h3]; simp only [List.length_append, List.length_map]; omega
    · rw [h3, List.append_assoc, List.append_assoc,
        List.getElem?_append_right (Nat.le_add_right _ _), Nat.add_sub_cancel_left,
        List.getElem?_append_left (by rw [List.length_map]; exact hj), List.getElem?_map, h1]
      rfl
  · unfold List.Nodup
    rw [List.pairwise_map]
    exact (doorsOfRuns_pairwise (F := F) (afterPass1 P g s).runs _ _ _).imp
      (fun h => ne_of_lt h.1)
  · unfold List.Nodup
    rw [List.pairwise_map]
    exact (doorsOfRuns_pairwise (F := F) (afterPass1 P g s).runs _ _ _).imp
      (fun h => ne_of_lt h.2.1)

theorem doors_point_to_their_runs_witness :
    (emptyScene : GameState ℚ).m_Doors = [] ∧
    ((CreateSceneObjects scenarioParams scenarioGrid (emptyScene : GameState ℚ)).m_Doors.map
      Door.WallIdx).Nodup ∧
    (CreateSceneObjects scenarioParams scenarioGrid (emptyScene : GameState ℚ)).m_Doors.map
      (fun d => (d.WallIdx, d.ObjectIdx)) = [(0, 0)] :=
  ⟨rfl, (doors_point_to_their_runs scenarioParams scenarioGrid (emptyScene : GameState ℚ)
    rfl).2.1, by decide⟩

/-- C13: after `CreateSceneObjects` started on empty object, wall, door and key tables, the
wall-volume table has one entry per run of Pass 1 (walls, decorations and doors), and the
object table has these, one object per key, and the three objects of ground, ceiling and
hostile: `|MazeWalls| = |Objects| - |m_Keys| - 3`. -/
theorem wall_volume_count (P : SceneParams) (g : TileGrid) (s : GameState F)
    (hO : s.Objects = []) (hW : s.MazeWalls = []) (hDo : s.m_Doors = []) (hK : s.m_Keys = []) :
    (CreateSceneObjects P g s).MazeWalls.length = (afterPass1 P g s).runs.length ∧
    (CreateSceneObjects P g s).m_Keys.length = (afterPass2 P g s).keyCells.length ∧
    (CreateSceneObjects P g s).Objects.length =
      (CreateSceneObjects P g s).MazeWalls.length +
        (CreateSceneObjects P g s).m_Keys.length + 3 ∧
    (CreateSceneObjects P g s).MazeWalls.length =
      (CreateSceneObjects P g s).Objects.length -
        (CreateSceneObjects P g s).m_Keys.length - 3 := by
  have hD : ∀ d ∈ s.m_Doors, d.ObjectIdx < s.Objects.length := by
    intro d hd; rw [hDo] at hd; simp at hd
  obtain ⟨a1, a2, -, -, -, a6, -⟩ := gridPasses_tables P g s hD
  obtain ⟨t1, -, -, t4, -, t6⟩ := pushSceneTail_tables P g (gridPasses P g s)
  have e : CreateSceneObjects P g s = pushSceneTail P g (gridPasses P g s) := rfl
  have h1 : (CreateSceneObjects P g s).MazeWalls.length = (afterPass1 P g s).runs.length := by
    rw [e, t4, a1, hW]; simp
  have h2 : (CreateSceneObjects P g s).m_Keys.length = (afterPass2 P g s).keyCells.length := by
    rw [e, t6, a6, hK, List.nil_append, keysOfCells_length]
  have h3 : (CreateSceneObjects P g s).Objects.length =
      (afterPass1 P g s).runs.length + (afterPass2 P g s).keyCells.length + 3 := by
    rw [e, t1, a2, hO]; simp only [List.nil_append, List.length_append, List.length_map,
      List.length_cons, List.length_nil]
  refine ⟨h1, h2, ?_, ?_⟩
  · rw [h1, h2, h3]
  · rw [h1, h2, h3]; omega

theorem wall_volume_count_witness :
    ((emptyScene : GameState ℚ).Objects = [] ∧ (emptyScene : GameState ℚ).MazeWalls = [] ∧
      (emptyScene : GameState ℚ).m_Doors = [] ∧ (emptyScene : GameState ℚ).m_Keys = []) ∧
    (CreateSceneObjects scenarioParams scenarioGrid (emptyScene : GameState ℚ)).MazeWalls.length =
      (CreateSceneObjects scenarioParams scenarioGrid (emptyScene : GameState ℚ)).Objects.length -
        (CreateSceneObjects scenarioParams scenarioGrid (emptyScene : GameState ℚ)).m_Keys.length
        - 3 ∧
    (CreateSceneObjects scenarioParams scenarioGrid (emptyScene : GameState ℚ)).Objects.length
      = 5 :=
  ⟨⟨rfl, rfl, rfl, rfl⟩,
   (wall_volume_count scenarioParams scenarioGrid (emptyScene : GameState ℚ) rfl rfl rfl
     rfl).2.2.2, by decide⟩

/-- C18: started on empty object, door and group tables, with `N` the number of objects
pushed by the two grid passes, `CreateSceneObjects` pushes three more objects, ground,
ceiling and hostile in this order, and four groups over the ranges `[0, N)`, `[N, N+1)`,
`[N+1, N+2)`, `[N+2, N+3)`; every index of a group's range is an index of the object table
whose object has the group's mesh, and every index of the object table lies in the range of
exactly one group. -/
theorem instancing_groups (P : SceneParams) (g : TileGrid) (s : GameState F)
    (hO : s.Objects = []) (hDo : s.m_Doors = []) (hI : s.ObjectInstances = []) :
    (CreateSceneObjects P g s).Objects = (gridPasses P g s).Objects ++
        [groundObject P, ceilingObject P g, monsterObject P] ∧
    (CreateSceneObjects P g s).ObjectInstances =
        [⟨P.CubeMeshId, (gridPasses P g s).Objects.length, 0⟩,
         ⟨P.PlaneMeshId, 1, (gridPasses P g s).Objects.length⟩,
         ⟨P.CubeMeshId, 1, (gridPasses P g s).Objects.length + 1⟩,
         ⟨P.CubeMeshId, 1, (gridPasses P g s).Objects.length + 2⟩] ∧
    (∀ grp ∈ (CreateSceneObjects P g s).ObjectInstances, ∀ i,
        grp.ObjectAttribsOffset ≤ i → i < grp.ObjectAttribsOffset + grp.NumObjects →
        ∃ o, (CreateSceneObjects P g s).Objects[i]? = some o ∧ o.MeshId = grp.MeshInd) ∧
    (∀ i, i < (CreateSceneObjects P g s).Objects.length →
        (CreateSceneObjects P g s).ObjectInstances.countP
          (fun grp => decide (grp.ObjectAttribsOffset ≤ i ∧
            i < grp.ObjectAttribsOffset + grp.NumObjects)) = 1) := by
  have hD : ∀ d ∈ s.m_Doors, d.ObjectIdx < s.Objects.length := by
    intro d hd; rw [hDo] at hd; simp at hd
  obtain ⟨-, a2, -, -, -, -, -⟩ := gridPasses_tables P g s hD
  obtain ⟨t1, t2, -, -, -, -⟩ := pushSceneTail_tables P g (gridPasses P g s)
  have e : CreateSceneObjects P g s = pushSceneTail P g (gridPasses P g s) := rfl
  rw [(gridPasses_frame P g s).1, hI, List.nil_append] at t2
  have hmesh : ∀ o ∈ (gridPasses P g s).Objects, o.MeshId = P.CubeMeshId := by
    intro o ho
    rw [a2, hO, List.nil_append] at ho
    rcases List.mem_append.mp ho with h | h
    · obtain ⟨r, -, rfl⟩ := List.mem_map.mp h; rfl
    · obtain ⟨c, -, rfl⟩ := List.mem_map.mp h; rfl
  rw [e, t1, t2]
  refine ⟨rfl, rfl, ?_, ?_⟩
  · intro grp hgrp i h1 h2
    simp only [List.mem_cons, List.mem_singleton, List.not_mem_nil, or_false] at hgrp
    rcases hgrp with rfl | rfl | rfl | rfl
    · simp only [Nat.zero_add] at h2
      refine ⟨(gridPasses P g s).Objects[i], ?_, hmesh _ (List.getElem_mem _)⟩
      rw [List.getElem?_append_left h2, List.getElem?_eq_getElem h2]
    · have hi : i = (gridPasses P g s).Objects.length := by simp only at h1 h2; omega
      subst hi
      exact ⟨groundObject P, by
        rw [List.getElem?_append_right (Nat.le_refl _), Nat.sub_self]; rfl, rfl⟩
    · have hi : i = (gridPasses P g s).Objects.length + 1 := by simp only at h1 h2; omega
      subst hi
      exact ⟨ceilingObject P g, by
        rw [List.getElem?_append_right (Nat.le_add_right _ _), Nat.add_sub_cancel_left]; rfl,
        rfl⟩
    · have hi : i = (gridPasses P g s).Objects.length + 2 := by simp only at h1 h2; omega
      subst hi
      exact ⟨monsterObject P, by
        rw [List.getElem?_append_right (Nat.le_add_right _ _), Nat.add_sub_cancel_left]; rfl,
        rfl⟩
  · intro i hi
    simp only [List.length_append, List.length_cons, List.length_nil] at hi
    simp only [List.countP_cons, List.countP_nil]
    split_ifs <;> simp only [decide_eq_true_eq] at * <;> omega

theorem instancing_groups_witness :
    ((emptyScene : GameState ℚ).Objects = [] ∧ (emptyScene : GameState ℚ).m_Doors = [] ∧
      (emptyScene : GameState ℚ).ObjectInstances = []) ∧
    (CreateSceneObjects scenarioParams scenarioGrid (emptyScene : GameState ℚ)).ObjectInstances =
      [⟨scenarioParams.CubeMeshId,
          (gridPasses scenarioParams scenarioGrid (emptyScene : GameState ℚ)).Objects.length, 0⟩,
       ⟨scenarioParams.PlaneMeshId, 1,
          (gridPasses scenarioParams scenarioGrid (emptyScene : GameState ℚ)).Objects.length⟩,
       ⟨scenarioParams.CubeMeshId, 1,
          (gridPasses scenarioParams scenarioGrid (emptyScene : GameState ℚ)).Objects.length + 1⟩,
       ⟨scenarioParams.CubeMeshId, 1,
          (gridPasses scenarioParams scenarioGrid (emptyScene : GameState ℚ)).Objects.length
            + 2⟩] ∧
    (gridPasses scenarioParams scenarioGrid (emptyScene : GameState ℚ)).Objects.length = 2 :=
  ⟨⟨rfl, rfl, rfl⟩,
   (instancing_groups scenarioParams scenarioGrid (emptyScene : GameState ℚ) rfl rfl rfl).2.1,
   by decide⟩

end CompileTheorems

section SingleStepTheorems

variable {F : Type} [LinearOrderedField F]

/-- C14: for one wall volume with clamped closest point `c` and `0 < |p - c| < CamRadius`
the step moves `p` to `p + (p - c) / |p - c| * (CamRadius - |p - c|) * 1.1`; and over a list
of volumes `HandleCollisions` is the left fold of the step in table order, each step reading
the position corrected by the previous ones. -/
theorem HandleCollisions_push_fold (sqrt : F → F) (walls : List (AABB F)) (wall : AABB F)
    (p : float3 F) (r : F)
    (h0 : 0 < length sqrt (p.sub (closestPoint wall p)))
    (h1 : length sqrt (p.sub (closestPoint wall p)) < r) :
    collideWall sqrt r p wall =
      some (p.add ((((p.sub (closestPoint wall p)).divScalar
        (length sqrt (p.sub (closestPoint wall p)))).scale
          (r - length sqrt (p.sub (closestPoint wall p)))).scale (11 / 10))) ∧
    ∀ q : float3 F, HandleCollisions sqrt walls q r =
      walls.foldlM (fun acc w => collideWall sqrt r acc w) q := by
  constructor
  · unfold collideWall
    simp only
    rw [if_pos h1, if_neg (ne_of_gt h0)]
  · induction walls with
    | nil => intro q; rfl
    | cons w ws ih =>
      intro q
      simp only [HandleCollisions, List.foldlM_cons]
      cases hc : collideWall sqrt r q w with
      | none => rfl
      | some q2 => exact ih q2

theorem HandleCollisions_push_fold_witness :
    (0 < length Real.sqrt ((⟨5 / 4, 3, 0⟩ : float3 ℝ).sub
        (closestPoint ⟨⟨-1, 0, -1⟩, ⟨1, 3, 1⟩⟩ ⟨5 / 4, 3, 0⟩)) ∧
      length Real.sqrt ((⟨5 / 4, 3, 0⟩ : float3 ℝ).sub
        (closestPoint ⟨⟨-1, 0, -1⟩, ⟨1, 3, 1⟩⟩ ⟨5 / 4, 3, 0⟩)) < 1 / 2) ∧
    length Real.sqrt ((⟨5 / 4, 3, 0⟩ : float3 ℝ).sub
        (closestPoint ⟨⟨-1, 0, -1⟩, ⟨1, 3, 1⟩⟩ ⟨5 / 4, 3, 0⟩)) = 1 / 4 ∧
    collideWall Real.sqrt (1 / 2) (⟨5 / 4, 3, 0⟩ : float3 ℝ) ⟨⟨-1, 0, -1⟩, ⟨1, 3, 1⟩⟩ =
      some ((⟨5 / 4, 3, 0⟩ : float3 ℝ).add
        (((((⟨5 / 4, 3, 0⟩ : float3 ℝ).sub
            (closestPoint ⟨⟨-1, 0, -1⟩, ⟨1, 3, 1⟩⟩ ⟨5 / 4, 3, 0⟩)).divScalar
          (length Real.sqrt ((⟨5 / 4, 3, 0⟩ : float3 ℝ).sub
            (closestPoint ⟨⟨-1, 0, -1⟩, ⟨1, 3, 1⟩⟩ ⟨5 / 4, 3, 0⟩)))).scale
          (1 / 2 - length Real.sqrt ((⟨5 / 4, 3, 0⟩ : float3 ℝ).sub
            (closestPoint ⟨⟨-1, 0, -1⟩, ⟨1, 3, 1⟩⟩ ⟨5 / 4, 3, 0⟩)))).scale (11 / 10))) := by
  have hl : length Real.sqrt ((⟨5 / 4, 3, 0⟩ : float3 ℝ).sub
      (closestPoint ⟨⟨-1, 0, -1⟩, ⟨1, 3, 1⟩⟩ ⟨5 / 4, 3, 0⟩)) = 1 / 4 := by
    have e : dot ((⟨5 / 4, 3, 0⟩ : float3 ℝ).sub
        (closestPoint ⟨⟨-1, 0, -1⟩, ⟨1, 3, 1⟩⟩ ⟨5 / 4, 3, 0⟩))
        ((⟨5 / 4, 3, 0⟩ : float3 ℝ).sub
        (closestPoint ⟨⟨-1, 0, -1⟩, ⟨1, 3, 1⟩⟩ ⟨5 / 4, 3, 0⟩)) = (1 / 4) ^ 2 := by
      norm_num [dot, float3.sub, closestPoint]
    rw [length, e, Real.sqrt_sq (by norm_num)]
  have h0 : 0 < length Real.sqrt ((⟨5 / 4, 3, 0⟩ : float3 ℝ).sub
      (closestPoint ⟨⟨-1, 0, -1⟩, ⟨1, 3, 1⟩⟩ ⟨5 / 4, 3, 0⟩)) := by rw [hl]; norm_num
  have h1 : length Real.sqrt ((⟨5 / 4, 3, 0⟩ : float3 ℝ).sub
      (closestPoint ⟨⟨-1, 0, -1⟩, ⟨1, 3, 1⟩⟩ ⟨5 / 4, 3, 0⟩)) < 1 / 2 := by rw [hl]; norm_num
  exact ⟨⟨h0, h1⟩, hl,
    (HandleCollisions_push_fold Real.sqrt [] ⟨⟨-1, 0, -1⟩, ⟨1, 3, 1⟩⟩ ⟨5 / 4, 3, 0⟩ (1 / 2)
      h0 h1).1⟩

/-- C19: with a positive pending counter `TryOpenDoors` gives every door that is not
opened `Opened = true`, `Rising = true`, `RiseTimer = 0` and `OriginalMat` = the model matrix
of its object, leaves the opened doors as they are, clears the counter and touches nothing
else; with a counter that is not positive it changes nothing. -/
theorem TryOpenDoors_opens_all (s : GameState F) :
    (s.m_KeysCollected > 0 →
      (TryOpenDoors s).m_KeysCollected = 0 ∧
      List.Forall₂
        (fun (d d2 : Door F) =>
          (d.Opened = false →
            d2 = { d with Opened := true, Rising := true, RiseTimer := 0,
                          OriginalMat := (objectAt s.Objects d.ObjectIdx).ModelMat }) ∧
          (d.Opened = true → d2 = d))
        s.m_Doors (TryOpenDoors s).m_Doors ∧
      TryOpenDoors s =
        { s with m_Doors := (TryOpenDoors s).m_Doors, m_KeysCollected := 0 }) ∧
    (¬ s.m_KeysCollected > 0 → TryOpenDoors s = s) := by
  constructor
  · intro h
    simp only [TryOpenDoors, if_pos h]
    refine ⟨trivial, ?_, trivial⟩
    rw [List.forall₂_map_right_iff, List.forall₂_same]
    intro d _
    constructor
    · intro ho; rw [if_pos ho]; rfl
    · intro ho; rw [if_neg (by rw [ho]; simp)]
  · intro h
    simp only [TryOpenDoors, if_neg h]

theorem TryOpenDoors_opens_all_witness :
    (TryOpenDoors ({ (oneDoorScene : GameState ℚ) with m_KeysCollected := 1 })).m_KeysCollected
        = 0 ∧
    (TryOpenDoors ({ (oneDoorScene : GameState ℚ) with m_KeysCollected := 1 })).m_Doors.map
        (fun d => (d.Opened, d.Rising)) = [(true, true)] ∧
    TryOpenDoors (oneDoorScene : GameState ℚ) = oneDoorScene :=
  ⟨((TryOpenDoors_opens_all ({ (oneDoorScene : GameState ℚ) with m_KeysCollected := 1 })).1
      (by decide)).1,
   by decide,
   (TryOpenDoors_opens_all (oneDoorScene : GameState ℚ)).2 (by decide)⟩

/-- C20: a tick of the damage block outside contact range (distance at least 2) puts
`m_TimeSinceLastDamage` at 0 and leaves health and game-over flag as they are; the contact
time accumulated before does not count: whatever the next tick is, if its time step is below
the cooldown it takes no health. -/
theorem out_of_range_resets_timer (d dt : F) (s : GameState F) (hd : 2 ≤ d) :
    (damageUpdate d dt s).m_TimeSinceLastDamage = 0 ∧
    (damageUpdate d dt s).m_Health = s.m_Health ∧
    (damageUpdate d dt s).m_IsGameOver = s.m_IsGameOver ∧
    ∀ d2 dt2 : F, dt2 < s.m_DamageCooldown →
      (damageUpdate d2 dt2 (damageUpdate d dt s)).m_Health = s.m_Health := by
  have e : damageUpdate d dt s = { s with m_TimeSinceLastDamage := 0 } := by
    unfold damageUpdate
    rw [if_neg (fun hc => absurd hc.1 (not_lt.mpr hd))]
  rw [e]
  refine ⟨rfl, rfl, rfl, fun d2 dt2 h2 => ?_⟩
  unfold damageUpdate
  split_ifs with hc
  · rw [damageLoop, if_neg]
    simp only [zero_add, ge_iff_le, not_le]
    exact h2
  · rfl

theorem out_of_range_resets_timer_witness :
    ((2 : ℚ) ≤ 5) ∧
    (damageUpdate (5 : ℚ) (1 / 4)
      { (emptyScene : GameState ℚ) with m_TimeSinceLastDamage := 9 / 10 }).m_TimeSinceLastDamage
        = 0 ∧
    (damageUpdate (5 : ℚ) (1 / 4)
      { (emptyScene : GameState ℚ) with m_TimeSinceLastDamage := 9 / 10 }).m_Health = 100 := by
  have h := out_of_range_resets_timer (5 : ℚ) (1 / 4)
    { (emptyScene : GameState ℚ) with m_TimeSinceLastDamage := 9 / 10 } (by norm_num)
  exact ⟨by norm_num, h.1, h.2.1⟩

end SingleStepTheorems

section TickRelationLemmas

theorem forall₂_exists_left {α β : Type} {R : α → β → Prop} {l : List α} {l2 : List β}
    (h : List.Forall₂ R l l2) : ∀ b ∈ l2, ∃ a ∈ l, R a b := by
  induction h with
  | nil => intro b hb; simp at hb
  | cons hab _ ih =>
    intro b hb
    rcases List.mem_cons.mp hb with rfl | hb2
    · exact ⟨_, List.mem_cons_self _ _, hab⟩
    · obtain ⟨a, ha, hr⟩ := ih b hb2
      exact ⟨a, List.mem_cons_of_mem _ ha, hr⟩

theorem forall₂_trans_of {α : Type} {R : α → α → Prop}
    (htrans : ∀ a b c, R a b → R b c → R a c) {l l2 : List α}
    (h : List.Forall₂ R l l2) : ∀ l3, List.Forall₂ R l2 l3 → List.Forall₂ R l l3 := by
  induction h with
  | nil => intro l3 h3; cases h3; exact List.Forall₂.nil
  | cons hab _ ih =>
    intro l3 h3
    cases h3 with
    | cons hbc hrest => exact List.Forall₂.cons (htrans _ _ _ hab hbc) (ih _ hrest)

theorem doorStays_refl {F : Type} (d : Door F) : doorStays d d :=
  ⟨rfl, rfl, rfl, fun h => h, fun _ _ => rfl⟩

theorem doorStays_trans {F : Type} (a b c : Door F) (h1 : doorStays a b) (h2 : doorStays b c) :
    doorStays a c := by
  obtain ⟨a1, a2, a3, a4, a5⟩ := h1
  obtain ⟨b1, b2, b3, b4, b5⟩ := h2
  refine ⟨b1.trans a1, b2.trans a2, b3.trans a3, fun h => b4 (a4 h), fun ho hr => ?_⟩
  have hb : b = a := a5 ho hr
  subst hb
  exact b5 ho hr

theorem doorsStay_refl {F : Type} (D : List (Door F)) : List.Forall₂ doorStays D D :=
  List.forall₂_same.mpr (fun d _ => doorStays_refl d)

theorem doorsStay_trans {F : Type} {D D2 D3 : List (Door F)} (h1 : List.Forall₂ doorStays D D2)
    (h2 : List.Forall₂ doorStays D2 D3) : List.Forall₂ doorStays D D3 :=
  forall₂_trans_of doorStays_trans h1 D3 h2

theorem doorsStay_indices {F : Type} {D D2 : List (Door F)} (h : List.Forall₂ doorStays D D2) :
    D2.map Door.WallIdx = D.map Door.WallIdx ∧ D2.map Door.ObjectIdx = D.map Door.ObjectIdx := by
  induction h with
  | nil => exact ⟨rfl, rfl⟩
  | cons hab _ ih =>
    simp only [List.map_cons]
    rw [ih.1, ih.2, hab.2.1, hab.2.2.1]
    exact ⟨rfl, rfl⟩

end TickRelationLemmas

section TickLemmas

variable {F : Type} [LinearOrderedField F]

theorem forEachMut_preserves {α σ β : Type} (body : σ → α → σ × α) (f : σ → β)
    (h : ∀ s a, f (body s a).1 = f s) : ∀ (l : List α) (s : σ), f (forEachMut body l s).1 = f s := by
  intro l
  induction l with
  | nil => intro s; rfl
  | cons a rest ih =>
    intro s
    simp only [forEachMut]
    rw [ih, h]

theorem doorStays_openDoor (O : List (ObjectAttribs F)) (d : Door F) (h : d.Opened = false) :
    doorStays d (openDoor O d) :=
  ⟨rfl, rfl, rfl, fun _ => rfl, fun ho => by rw [h] at ho; exact absurd ho (by simp)⟩

theorem TickStep_refl (s : GameState F) : TickStep s s :=
  ⟨rfl, rfl, rfl, rfl, doorsStay_refl _, fun _ _ _ _ => rfl, fun _ _ => rfl⟩

theorem TickStep_trans {s s2 s3 : GameState F} (h1 : TickStep s s2) (h2 : TickStep s2 s3) :
    TickStep s s3 := by
  obtain ⟨a1, a2, a3, a4, a5, a6, a7⟩ := h1
  obtain ⟨b1, b2, b3, b4, b5, b6, b7⟩ := h2
  have hrisen : ∀ d2 ∈ s2.m_Doors, ∃ d ∈ s.m_Doors, doorStays d d2 := forall₂_exists_left a5
  refine ⟨b1.trans a1, b2.trans a2, b3.trans a3, b4.trans a4, doorsStay_trans a5 b5,
    fun j hk hdyn hd => ?_, fun j hd => ?_⟩
  · rw [b6 j ?_ ?_ ?_, a6 j hk hdyn hd]
    · intro k2 hk2
      have : k2.ObjectIdx ∈ s2.m_Keys.map Key.ObjectIdx := List.mem_map.mpr ⟨k2, hk2, rfl⟩
      rw [a4] at this
      obtain ⟨k, hk1, hk3⟩ := List.mem_map.mp this
      rw [← hk3]
      exact hk k hk1
    · rw [a3]; exact hdyn
    · intro d2 hd2 hj
      obtain ⟨d, hd1, hst⟩ := hrisen d2 hd2
      have hr := hd d hd1 (by rw [← hst.2.2.1, hj])
      rw [hst.2.2.2.2 hr.1 hr.2]
      exact hr
  · rw [b7 j ?_, a7 j hd]
    intro d2 hd2 hj
    obtain ⟨d, hd1, hst⟩ := hrisen d2 hd2
    have hr := hd d hd1 (by rw [← hst.2.1, hj])
    rw [hst.2.2.2.2 hr.1 hr.2]
    exact hr

/-- An operation that leaves walls, objects, dynamic objects, keys and doors is a step. -/
theorem TickStep_of_same_tables (s s2 : GameState F) (hW : s2.MazeWalls = s.MazeWalls)
    (hO : s2.Objects = s.Objects) (hDy : s2.DynamicObjects = s.DynamicObjects)
    (hK : s2.m_Keys = s.m_Keys) (hD : s2.m_Doors = s.m_Doors) : TickStep s s2 := by
  refine ⟨by rw [hW], by rw [hO], hDy, by rw [hK], by rw [hD]; exact doorsStay_refl _,
    fun j _ _ _ => by rw [hO], fun j _ => by rw [hW]⟩

/-- An operation that only rewrites objects that are dynamic is a step. -/
theorem TickStep_of_dynamic_objects (s s2 : GameState F) (hW : s2.MazeWalls = s.MazeWalls)
    (hlen : s2.Objects.length = s.Objects.length) (hDy : s2.DynamicObjects = s.DynamicObjects)
    (hK : s2.m_Keys = s.m_Keys) (hD : s2.m_Doors = s.m_Doors)
    (hobj : ∀ j, (∀ i ∈ s.DynamicObjects, i ≠ j) → objectAt s2.Objects j = objectAt s.Objects j) :
    TickStep s s2 := by
  refine ⟨by rw [hW], hlen, hDy, by rw [hK], by rw [hD]; exact doorsStay_refl _,
    fun j _ hdyn _ => hobj j hdyn, fun j _ => by rw [hW]⟩

theorem damageLoop_tables (s : GameState F) :
    (damageLoop s).MazeWalls = s.MazeWalls ∧ (damageLoop s).Objects = s.Objects ∧
    (damageLoop s).DynamicObjects = s.DynamicObjects ∧ (damageLoop s).m_Keys = s.m_Keys ∧
    (damageLoop s).m_Doors = s.m_Doors ∧ (damageLoop s).CameraPos = s.CameraPos ∧
    (damageLoop s).m_KeysCollected = s.m_KeysCollected := by
  induction s using damageLoop.induct with
  | case1 s ht hh =>
    rw [damageLoop, if_pos ht, if_pos hh]
    exact ⟨rfl, rfl, rfl, rfl, rfl, rfl, rfl⟩
  | case2 s ht hh ih =>
    rw [damageLoop, if_pos ht, if_neg hh]
    exact ih
  | case3 s ht =>
    rw [damageLoop, if_neg ht]
    exact ⟨rfl, rfl, rfl, rfl, rfl, rfl, rfl⟩

theorem damageUpdate_tables (d dt : F) (s : GameState F) :
    (damageUpdate d dt s).MazeWalls = s.MazeWalls ∧ (damageUpdate d dt s).Objects = s.Objects ∧
    (damageUpdate d dt s).DynamicObjects = s.DynamicObjects ∧
    (damageUpdate d dt s).m_Keys = s.m_Keys ∧ (damageUpdate d dt s).m_Doors = s.m_Doors ∧
    (damageUpdate d dt s).CameraPos = s.CameraPos ∧
    (damageUpdate d dt s).m_KeysCollected = s.m_KeysCollected := by
  unfold damageUpdate
  split_ifs
  · exact damageLoop_tables _
  · exact ⟨rfl, rfl, rfl, rfl, rfl, rfl, rfl⟩

theorem damageStage_tables (M : MathLib F) (dt : F) (s : GameState F) :
    (damageStage M dt s).MazeWalls = s.MazeWalls ∧ (damageStage M dt s).Objects = s.Objects ∧
    (damageStage M dt s).DynamicObjects = s.DynamicObjects ∧
    (damageStage M dt s).m_Keys = s.m_Keys ∧ (damageStage M dt s).m_Doors = s.m_Doors ∧
    (damageStage M dt s).CameraPos = s.CameraPos ∧
    (damageStage M dt s).m_KeysCollected = s.m_KeysCollected := by
  unfold damageStage
  cases playerDistance M s with
  | none => exact ⟨rfl, rfl, rfl, rfl, rfl, rfl, rfl⟩
  | some d => exact damageUpdate_tables d dt s

theorem UpdateUI_tables (ui : UIInput) (s : GameState F) :
    (UpdateUI ui s).MazeWalls = s.MazeWalls ∧ (UpdateUI ui s).Objects = s.Objects ∧
    (UpdateUI ui s).DynamicObjects = s.DynamicObjects ∧
    (UpdateUI ui s).m_Keys = s.m_Keys ∧ (UpdateUI ui s).m_Doors = s.m_Doors := by
  simp only [UpdateUI]
  split_ifs <;> exact ⟨rfl, rfl, rfl, rfl, rfl⟩

theorem advanceCamera_tables (inp : FrameInput F) (s : GameState F) :
    (advanceCamera inp s).MazeWalls = s.MazeWalls ∧ (advanceCamera inp s).Objects = s.Objects ∧
    (advanceCamera inp s).DynamicObjects = s.DynamicObjects ∧
    (advanceCamera inp s).m_Keys = s.m_Keys ∧ (advanceCamera inp s).m_Doors = s.m_Doors ∧
    (advanceCamera inp s).m_Health = s.m_Health ∧
    (advanceCamera inp s).m_IsGameOver = s.m_IsGameOver ∧
    (advanceCamera inp s).m_TimeSinceLastDamage = s.m_TimeSinceLastDamage ∧
    (advanceCamera inp s).m_KeysCollected = s.m_KeysCollected := by
  simp only [advanceCamera]
  split_ifs <;> exact ⟨rfl, rfl, rfl, rfl, rfl, rfl, rfl, rfl, rfl⟩

theorem overlayFade_tables (dt : F) (s : GameState F) :
    (overlayFade dt s).MazeWalls = s.MazeWalls ∧ (overlayFade dt s).Objects = s.Objects ∧
    (overlayFade dt s).DynamicObjects = s.DynamicObjects ∧
    (overlayFade dt s).m_Keys = s.m_Keys ∧ (overlayFade dt s).m_Doors = s.m_Doors ∧
    (overlayFade dt s).CameraPos = s.CameraPos ∧
    (overlayFade dt s).m_Health = s.m_Health ∧
    (overlayFade dt s).m_IsGameOver = s.m_IsGameOver ∧
    (overlayFade dt s).m_KeysCollected = s.m_KeysCollected := by
  unfold overlayFade
  split_ifs <;> exact ⟨rfl, rfl, rfl, rfl, rfl, rfl, rfl, rfl, rfl⟩

theorem unlockMsgTick_tables (dt : F) (s : GameState F) :
    (unlockMsgTick dt s).MazeWalls = s.MazeWalls ∧ (unlockMsgTick dt s).Objects = s.Objects ∧
    (unlockMsgTick dt s).DynamicObjects = s.DynamicObjects ∧
    (unlockMsgTick dt s).m_Keys = s.m_Keys ∧ (unlockMsgTick dt s).m_Doors = s.m_Doors ∧
    (unlockMsgTick dt s).CameraPos = s.CameraPos ∧
    (unlockMsgTick dt s).m_Health = s.m_Health ∧
    (unlockMsgTick dt s).m_IsGameOver = s.m_IsGameOver ∧
    (unlockMsgTick dt s).m_KeysCollected = s.m_KeysCollected := by
  unfold unlockMsgTick
  split_ifs <;> exact ⟨rfl, rfl, rfl, rfl, rfl, rfl, rfl, rfl, rfl⟩

theorem hostileChase_tables (M : MathLib F) (dt : F) (s : GameState F) :
    (hostileChase M dt s).MazeWalls = s.MazeWalls ∧
    (hostileChase M dt s).Objects.length = s.Objects.length ∧
    (hostileChase M dt s).DynamicObjects = s.DynamicObjects ∧
    (hostileChase M dt s).m_Keys = s.m_Keys ∧ (hostileChase M dt s).m_Doors = s.m_Doors ∧
    (hostileChase M dt s).CameraPos = s.CameraPos ∧
    (hostileChase M dt s).m_Health = s.m_Health ∧
    (hostileChase M dt s).m_IsGameOver = s.m_IsGameOver ∧
    (hostileChase M dt s).m_TimeSinceLastDamage = s.m_TimeSinceLastDamage ∧
    (hostileChase M dt s).m_DamageCooldown = s.m_DamageCooldown ∧
    (hostileChase M dt s).m_KeysCollected = s.m_KeysCollected ∧
    (∀ j, (∀ i ∈ s.DynamicObjects, i ≠ j) →
      objectAt (hostileChase M dt s).Objects j = objectAt s.Objects j) := by
  unfold hostileChase
  cases hdyn : s.DynamicObjects with
  | nil => exact ⟨rfl, rfl, hdyn, rfl, rfl, rfl, rfl, rfl, rfl, rfl, rfl, fun _ _ => rfl⟩
  | cons idx rest =>
    refine ⟨rfl, length_setModelMat _ _ _, rfl, rfl, rfl, rfl, rfl, rfl, rfl, rfl, rfl,
      fun j hj => ?_⟩
    exact objectAt_setModelMat_ne _ _ _ _ (hj idx (List.mem_cons_self idx rest))

theorem rotateDynamic_frame (M : MathLib F) (dt : F) (l : List Nat) :
    ∀ (speed : F) (O : List (ObjectAttribs F)),
      (rotateDynamic M dt l speed O).length = O.length ∧
      ∀ j, (∀ i ∈ l, i ≠ j) → objectAt (rotateDynamic M dt l speed O) j = objectAt O j := by
  induction l with
  | nil => intro speed O; exact ⟨rfl, fun _ _ => rfl⟩
  | cons idx rest ih =>
    intro speed O
    simp only [rotateDynamic]
    obtain ⟨h1, h2⟩ := ih (speed * (3 / 2)) (setModelMat O idx
      (M.RotationY (M.PI_F * dt * speed) * (objectAt O idx).ModelMat.transpose).transpose)
    refine ⟨by rw [h1, length_setModelMat], fun j hj => ?_⟩
    rw [h2 j (fun i hi => hj i (List.mem_cons_of_mem idx hi)),
      objectAt_setModelMat_ne _ _ _ _ (hj idx (List.mem_cons_self idx rest))]

theorem openDoorWithId_stays (O : List (ObjectAttribs F)) (doorId : Int) (D : List (Door F)) :
    List.Forall₂ doorStays D (openDoorWithId O doorId D) := by
  induction D with
  | nil => exact List.Forall₂.nil
  | cons d ds ih =>
    by_cases h : d.Id = doorId ∧ d.Opened = false
    · simp only [openDoorWithId, if_pos h]
      exact List.Forall₂.cons (doorStays_openDoor O d h.2) (doorsStay_refl ds)
    · simp only [openDoorWithId, if_neg h]
      exact List.Forall₂.cons (doorStays_refl d) ih

theorem openDoors_stays (O : List (ObjectAttribs F)) (ids : List Int) :
    ∀ D : List (Door F), List.Forall₂ doorStays D (openDoors O ids D) := by
  induction ids with
  | nil => intro D; exact doorsStay_refl D
  | cons i rest ih =>
    intro D
    simp only [openDoors]
    exact doorsStay_trans (openDoorWithId_stays O i D) (ih _)

theorem collectKey_frame (sqrt : F → F) (camPos : float3 F) (r : F) (s : GameState F)
    (k : Key F) :
    (fun t : GameState F => (t.MazeWalls, t.Objects.length, t.DynamicObjects, t.CameraPos,
        t.m_Health, t.m_IsGameOver, t.m_KeysCollected)) (collectKey sqrt camPos r s k).1 =
      (s.MazeWalls, s.Objects.length, s.DynamicObjects, s.CameraPos, s.m_Health,
        s.m_IsGameOver, s.m_KeysCollected) := by
  unfold collectKey
  split_ifs <;> simp [length_setModelMat]

theorem collectKeys_stays (sqrt : F → F) (camPos : float3 F) (r : F) (keys : List (Key F)) :
    ∀ s : GameState F,
      List.Forall₂ doorStays s.m_Doors (forEachMut (collectKey sqrt camPos r) keys s).1.m_Doors := by
  induction keys with
  | nil => intro s; exact doorsStay_refl _
  | cons k rest ih =>
    intro s
    simp only [forEachMut]
    by_cases h : keyHit sqrt camPos r k = true
    · refine doorsStay_trans ?_ (ih _)
      rw [collectKey_hit sqrt camPos r s k h]
      exact openDoors_stays s.Objects k.DoorIds s.m_Doors
    · have h2 : keyHit sqrt camPos r k = false := by simpa using h
      rw [collectKey_not_hit sqrt camPos r s k h2]
      exact ih s

theorem collectKeys_objectAt_frame (sqrt : F → F) (camPos : float3 F) (r : F)
    (keys : List (Key F)) (j : Nat) :
    ∀ s : GameState F, (∀ k ∈ keys, k.ObjectIdx ≠ j) →
      objectAt (forEachMut (collectKey sqrt camPos r) keys s).1.Objects j = objectAt s.Objects j := by
  induction keys with
  | nil => intro s _; rfl
  | cons k rest ih =>
    intro s hj
    simp only [forEachMut]
    rw [ih _ (fun k2 hk2 => hj k2 (List.mem_cons_of_mem k hk2))]
    by_cases h : keyHit sqrt camPos r k = true
    · rw [collectKey_hit sqrt camPos r s k h]
      exact objectAt_setModelMat_ne _ _ _ _ (hj k (List.mem_cons_self k rest))
    · have h2 : keyHit sqrt camPos r k = false := by simpa using h
      rw [collectKey_not_hit sqrt camPos r s k h2]

theorem HandleKeyCollection_tables (sqrt : F → F) (camPos : float3 F) (r : F)
    (s : GameState F) :
    (HandleKeyCollection sqrt camPos r s).MazeWalls = s.MazeWalls ∧
    (HandleKeyCollection sqrt camPos r s).Objects.length = s.Objects.length ∧
    (HandleKeyCollection sqrt camPos r s).DynamicObjects = s.DynamicObjects ∧
    (HandleKeyCollection sqrt camPos r s).CameraPos = s.CameraPos ∧
    (HandleKeyCollection sqrt camPos r s).m_Health = s.m_Health ∧
    (HandleKeyCollection sqrt camPos r s).m_IsGameOver = s.m_IsGameOver ∧
    (HandleKeyCollection sqrt camPos r s).m_KeysCollected = s.m_KeysCollected := by
  have h := forEachMut_preserves (collectKey sqrt camPos r)
    (fun t : GameState F => (t.MazeWalls, t.Objects.length, t.DynamicObjects, t.CameraPos,
      t.m_Health, t.m_IsGameOver, t.m_KeysCollected))
    (collectKey_frame sqrt camPos r) s.m_Keys s
  simp only [Prod.mk.injEq] at h
  exact h

theorem HandleKeyCollection_step (sqrt : F → F) (camPos : float3 F) (r : F) (s : GameState F) :
    TickStep s (HandleKeyCollection sqrt camPos r s) := by
  obtain ⟨h1, h2, h3, -⟩ := HandleKeyCollection_tables sqrt camPos r s
  refine ⟨by rw [h1], h2, h3, ?_, collectKeys_stays sqrt camPos r s.m_Keys s,
    fun j hk _ _ => collectKeys_objectAt_frame sqrt camPos r s.m_Keys j s hk,
    fun j _ => by rw [h1]⟩
  show (forEachMut (collectKey sqrt camPos r) s.m_Keys s).2.map Key.ObjectIdx = _
  rw [collectKeys_keys, List.map_map]
  refine List.map_congr_left (fun k _ => ?_)
  simp only [Function.comp]
  split_ifs <;> rfl

theorem keyStage_step (M : MathLib F) (NewCamPos : Option (float3 F)) (s : GameState F) :
    TickStep s (keyStage M NewCamPos s) := by
  cases NewCamPos with
  | none => exact TickStep_refl s
  | some p => exact HandleKeyCollection_step M.sqrt p (1 / 2) s

theorem keyStage_tables (M : MathLib F) (NewCamPos : Option (float3 F)) (s : GameState F) :
    (keyStage M NewCamPos s).MazeWalls = s.MazeWalls ∧
    (keyStage M NewCamPos s).m_Health = s.m_Health ∧
    (keyStage M NewCamPos s).m_IsGameOver = s.m_IsGameOver := by
  cases NewCamPos with
  | none => exact ⟨rfl, rfl, rfl⟩
  | some p =>
    obtain ⟨h1, -, -, -, h5, h6, -⟩ := HandleKeyCollection_tables M.sqrt p (1 / 2) s
    exact ⟨h1, h5, h6⟩

theorem TryOpenDoors_tables (s : GameState F) :
    (TryOpenDoors s).MazeWalls = s.MazeWalls ∧ (TryOpenDoors s).Objects = s.Objects ∧
    (TryOpenDoors s).DynamicObjects = s.DynamicObjects ∧ (TryOpenDoors s).m_Keys = s.m_Keys ∧
    (TryOpenDoors s).CameraPos = s.CameraPos ∧ (TryOpenDoors s).m_Health = s.m_Health ∧
    (TryOpenDoors s).m_IsGameOver = s.m_IsGameOver := by
  unfold TryOpenDoors
  split_ifs <;> exact ⟨rfl, rfl, rfl, rfl, rfl, rfl, rfl⟩

theorem TryOpenDoors_stays (s : GameState F) :
    List.Forall₂ doorStays s.m_Doors (TryOpenDoors s).m_Doors := by
  unfold TryOpenDoors
  split_ifs
  · show List.Forall₂ doorStays s.m_Doors (s.m_Doors.map _)
    rw [List.forall₂_map_right_iff, List.forall₂_same]
    intro d _
    by_cases ho : d.Opened = false
    · rw [if_pos ho]; exact doorStays_openDoor s.Objects d ho
    · rw [if_neg ho]; exact doorStays_refl d
  · exact doorsStay_refl _

theorem TryOpenDoors_step (s : GameState F) : TickStep s (TryOpenDoors s) := by
  obtain ⟨h1, h2, h3, h4, -⟩ := TryOpenDoors_tables s
  exact ⟨by rw [h1], by rw [h2], h3, by rw [h4], TryOpenDoors_stays s,
    fun j _ _ _ => by rw [h2], fun j _ => by rw [h1]⟩

theorem tickDoor_stays (dt : F) (d : Door F) : doorStays d (tickDoor dt d) := by
  unfold tickDoor
  split_ifs with h1 h2
  · exact doorStays_refl d
  · exact ⟨rfl, rfl, rfl, fun h => h, fun _ hr => absurd hr h1⟩
  · exact ⟨rfl, rfl, rfl, fun h => h, fun _ hr => absurd hr h1⟩

theorem animateDoor_frame (dt : F) (s : GameState F) (d : Door F) :
    (fun t : GameState F => (t.DynamicObjects, t.m_Keys, t.CameraPos, t.m_Health,
        t.m_IsGameOver, t.m_KeysCollected)) (animateDoor dt s d).1 =
      (s.DynamicObjects, s.m_Keys, s.CameraPos, s.m_Health, s.m_IsGameOver,
        s.m_KeysCollected) := by
  rw [animateDoor_eq]
  split_ifs <;> rfl

theorem doorAnimation_tables (dt : F) (s : GameState F) :
    (doorAnimation dt s).DynamicObjects = s.DynamicObjects ∧
    (doorAnimation dt s).m_Keys = s.m_Keys ∧
    (doorAnimation dt s).CameraPos = s.CameraPos ∧
    (doorAnimation dt s).m_Health = s.m_Health ∧
    (doorAnimation dt s).m_IsGameOver = s.m_IsGameOver ∧
    (doorAnimation dt s).m_KeysCollected = s.m_KeysCollected := by
  have h := forEachMut_preserves (animateDoor dt)
    (fun t : GameState F => (t.DynamicObjects, t.m_Keys, t.CameraPos, t.m_Health,
      t.m_IsGameOver, t.m_KeysCollected))
    (animateDoor_frame dt) s.m_Doors s
  simp only [Prod.mk.injEq] at h
  exact h

theorem doorAnimation_step (dt : F) (s : GameState F) : TickStep s (doorAnimation dt s) := by
  obtain ⟨h1, h2, -⟩ := doorAnimation_tables dt s
  have hl := animateDoors_lengths dt s.m_Doors s
  refine ⟨hl.1, hl.2, h1, by rw [h2], ?_, fun j _ _ hd => ?_, fun j hd => ?_⟩
  · show List.Forall₂ doorStays s.m_Doors (forEachMut (animateDoor dt) s.m_Doors s).2
    rw [animateDoors_doors, List.forall₂_map_right_iff, List.forall₂_same]
    exact fun d _ => tickDoor_stays dt d
  · refine animateDoors_objectAt_frame dt s.m_Doors j s (fun d hd2 hr hj => ?_)
    have := (hd d hd2 hj).2
    rw [hr] at this
    exact absurd this (by simp)
  · show wallAt (forEachMut (animateDoor dt) s.m_Doors s).1.MazeWalls j = _
    rw [animateDoors_wallAt, if_neg]
    rintro ⟨d, hd2, hr, -, hj⟩
    have := (hd d hd2 hj).2
    rw [hr] at this
    exact absurd this (by simp)

theorem advanceCamera_step (inp : FrameInput F) (s : GameState F) :
    TickStep s (advanceCamera inp s) := by
  obtain ⟨h1, h2, h3, h4, h5, -⟩ := advanceCamera_tables inp s
  exact TickStep_of_same_tables _ _ h1 h2 h3 h4 h5

theorem hostileChase_step (M : MathLib F) (dt : F) (s : GameState F) :
    TickStep s (hostileChase M dt s) := by
  obtain ⟨h1, h2, h3, h4, h5, -, -, -, -, -, -, h6⟩ := hostileChase_tables M dt s
  exact TickStep_of_dynamic_objects _ _ h1 h2 h3 h4 h5 h6

theorem damageUpdate_step (d dt : F) (s : GameState F) : TickStep s (damageUpdate d dt s) := by
  obtain ⟨h1, h2, h3, h4, h5, -⟩ := damageUpdate_tables d dt s
  exact TickStep_of_same_tables _ _ h1 h2 h3 h4 h5

theorem damageStage_step (M : MathLib F) (dt : F) (s : GameState F) :
    TickStep s (damageStage M dt s) := by
  obtain ⟨h1, h2, h3, h4, h5, -⟩ := damageStage_tables M dt s
  exact TickStep_of_same_tables _ _ h1 h2 h3 h4 h5

theorem overlayFade_step (dt : F) (s : GameState F) : TickStep s (overlayFade dt s) := by
  obtain ⟨h1, h2, h3, h4, h5, -⟩ := overlayFade_tables dt s
  exact TickStep_of_same_tables _ _ h1 h2 h3 h4 h5

theorem unlockMsgTick_step (dt : F) (s : GameState F) : TickStep s (unlockMsgTick dt s) := by
  obtain ⟨h1, h2, h3, h4, h5, -⟩ := unlockMsgTick_tables dt s
  exact TickStep_of_same_tables _ _ h1 h2 h3 h4 h5

theorem UpdateUI_step (ui : UIInput) (s : GameState F) : TickStep s (UpdateUI ui s) := by
  obtain ⟨h1, h2, h3, h4, h5⟩ := UpdateUI_tables ui s
  exact TickStep_of_same_tables _ _ h1 h2 h3 h4 h5

theorem tickBeforeDoors_step (M : MathLib F) (inp : FrameInput F) (s : GameState F) :
    TickStep s (tickBeforeDoors M inp s).1 :=
  TickStep_trans (advanceCamera_step inp s)
    (TickStep_trans (hostileChase_step M inp.ElapsedTime _)
      (TickStep_trans (damageStage_step M inp.ElapsedTime _)
        (TickStep_trans (overlayFade_step inp.ElapsedTime _)
          (TickStep_trans (keyStage_step M _ _)
            (TickStep_trans (unlockMsgTick_step inp.ElapsedTime _) (TryOpenDoors_step _))))))

theorem simulate_step (M : MathLib F) (inp : FrameInput F) (s : GameState F) :
    TickStep s (simulate M inp s) := by
  have h3 : TickStep (doorAnimation inp.ElapsedTime (tickBeforeDoors M inp s).1)
      (simulate M inp s) := by
    obtain ⟨hl, hf⟩ := rotateDynamic_frame M inp.ElapsedTime
      (doorAnimation inp.ElapsedTime (tickBeforeDoors M inp s).1).DynamicObjects (15 / 100)
      (doorAnimation inp.ElapsedTime (tickBeforeDoors M inp s).1).Objects
    exact TickStep_of_dynamic_objects _ _ rfl hl rfl rfl rfl hf
  exact TickStep_trans (tickBeforeDoors_step M inp s)
    (TickStep_trans (doorAnimation_step inp.ElapsedTime _) h3)

theorem Update_step (M : MathLib F) (inp : FrameInput F) (s : GameState F) :
    TickStep s (Update M inp s) := by
  unfold Update
  split_ifs
  · exact UpdateUI_step inp.ui s
  · exact TickStep_trans (UpdateUI_step inp.ui s) (simulate_step M inp _)

theorem tickBeforeDoors_walls (M : MathLib F) (inp : FrameInput F) (s : GameState F) :
    (tickBeforeDoors M inp s).1.MazeWalls = s.MazeWalls := by
  show (TryOpenDoors (unlockMsgTick inp.ElapsedTime (keyStage M _
    (overlayFade inp.ElapsedTime (damageStage M inp.ElapsedTime
      (hostileChase M inp.ElapsedTime (advanceCamera inp s))))))).MazeWalls = _
  rw [(TryOpenDoors_tables _).1, (unlockMsgTick_tables _ _).1, (keyStage_tables M _ _).1,
    (overlayFade_tables _ _).1, (damageStage_tables M _ _).1, (hostileChase_tables M _ _).1,
    (advanceCamera_tables inp s).1]

theorem simulate_wallAt (M : MathLib F) (inp : FrameInput F) (s : GameState F) (j : Nat) :
    wallAt (simulate M inp s).MazeWalls j =
      if ∃ d ∈ (tickBeforeDoors M inp s).1.m_Doors,
          d.Rising = true ∧ doorOffset inp.ElapsedTime d > 3 ∧ d.WallIdx = j
      then zeroBox else wallAt s.MazeWalls j := by
  show wallAt (forEachMut (animateDoor inp.ElapsedTime) (tickBeforeDoors M inp s).1.m_Doors
    (tickBeforeDoors M inp s).1).1.MazeWalls j = _
  rw [animateDoors_wallAt, tickBeforeDoors_walls]

theorem OpenedStays_of_step {s s2 : GameState F} (h : TickStep s s2) : OpenedStays s s2 :=
  List.Forall₂.imp (fun _ _ hst => hst.2.2.2.1) h.2.2.2.2.1

theorem forall₂_imp_mem {α β : Type} {R Q : α → β → Prop} {l : List α} {l2 : List β}
    (h : List.Forall₂ R l l2) : (∀ a ∈ l, ∀ b, R a b → Q a b) → List.Forall₂ Q l l2 := by
  induction h with
  | nil => intro _; exact List.Forall₂.nil
  | cons hab _ ih =>
    intro himp
    exact List.Forall₂.cons (himp _ (List.mem_cons_self _ _) _ hab)
      (ih (fun a ha b hr => himp a (List.mem_cons_of_mem _ ha) b hr))

theorem RisenUntouched_of_step {s s2 : GameState F} (hwf : SceneWellFormed s)
    (h : TickStep s s2) : RisenUntouched s s2 := by
  obtain ⟨⟨hW, hO, -⟩, hK, hDy⟩ := hwf
  obtain ⟨-, -, -, -, hD, hobj, hwall⟩ := h
  refine forall₂_imp_mem hD (fun d hd d2 hst ho hr => ⟨hst.2.2.2.2 ho hr, ?_, ?_⟩)
  · refine hwall d.WallIdx (fun e he hj => ?_)
    rw [List.inj_on_of_nodup_map hW he hd hj]
    exact ⟨ho, hr⟩
  · refine hobj d.ObjectIdx (fun k hk => hK k hk d hd) (fun i hi => hDy i hi d hd)
      (fun e he hj => ?_)
    rw [List.inj_on_of_nodup_map hO he hd hj]
    exact ⟨ho, hr⟩

/-- The well-formedness of the tables is kept by every step of the tick. -/
theorem SceneWellFormed_of_step {s s2 : GameState F} (hwf : SceneWellFormed s)
    (h : TickStep s s2) : SceneWellFormed s2 := by
  obtain ⟨⟨hW, hO, hR⟩, hK, hDy⟩ := hwf
  obtain ⟨h1, h2, h3, h4, hD, -, -⟩ := h
  obtain ⟨hiW, hiO⟩ := doorsStay_indices hD
  have hback : ∀ d2 ∈ s2.m_Doors, ∃ d ∈ s.m_Doors, doorStays d d2 := forall₂_exists_left hD
  refine ⟨⟨by rw [hiW]; exact hW, by rw [hiO]; exact hO, fun d2 hd2 => ?_⟩,
    fun k2 hk2 d2 hd2 => ?_, fun i hi d2 hd2 => ?_⟩
  · obtain ⟨d, hd, hst⟩ := hback d2 hd2
    rw [hst.2.1, hst.2.2.1, h1, h2]
    exact hR d hd
  · obtain ⟨d, hd, hst⟩ := hback d2 hd2
    have : k2.ObjectIdx ∈ s2.m_Keys.map Key.ObjectIdx := List.mem_map.mpr ⟨k2, hk2, rfl⟩
    rw [h4] at this
    obtain ⟨k, hk, hk3⟩ := List.mem_map.mp this
    rw [hst.2.2.1, ← hk3]
    exact hK k hk d hd
  · obtain ⟨d, hd, hst⟩ := hback d2 hd2
    rw [hst.2.2.1]
    rw [h3] at hi
    exact hDy i hi d hd

theorem simulate_health (M : MathLib F) (inp : FrameInput F) (s : GameState F) :
    (simulate M inp s).m_Health =
      (damageStage M inp.ElapsedTime
        (hostileChase M inp.ElapsedTime (advanceCamera inp s))).m_Health ∧
    (simulate M inp s).m_IsGameOver =
      (damageStage M inp.ElapsedTime
        (hostileChase M inp.ElapsedTime (advanceCamera inp s))).m_IsGameOver := by
  constructor
  · show (doorAnimation inp.ElapsedTime (TryOpenDoors (unlockMsgTick inp.ElapsedTime
      (keyStage M _ (overlayFade inp.ElapsedTime _))))).m_Health = _
    rw [(doorAnimation_tables _ _).2.2.2.1, (TryOpenDoors_tables _).2.2.2.2.2.1,
      (unlockMsgTick_tables _ _).2.2.2.2.2.2.1, (keyStage_tables M _ _).2.1,
      (overlayFade_tables _ _).2.2.2.2.2.2.1]
  · show (doorAnimation inp.ElapsedTime (TryOpenDoors (unlockMsgTick inp.ElapsedTime
      (keyStage M _ (overlayFade inp.ElapsedTime _))))).m_IsGameOver = _
    rw [(doorAnimation_tables _ _).2.2.2.2.1, (TryOpenDoors_tables _).2.2.2.2.2.2,
      (unlockMsgTick_tables _ _).2.2.2.2.2.2.2.1, (keyStage_tables M _ _).2.2,
      (overlayFade_tables _ _).2.2.2.2.2.2.2.1]

/-- The state the collision resolution of the tick reads: camera and wall volumes of the
state after the camera advance. -/
theorem tickBeforeDoors_camera (M : MathLib F) (inp : FrameInput F) (s : GameState F) :
    (tickBeforeDoors M inp s).2 = resolveCamera M (advanceCamera inp s) := by
  show resolveCamera M (overlayFade inp.ElapsedTime (damageStage M inp.ElapsedTime
    (hostileChase M inp.ElapsedTime (advanceCamera inp s)))) = _
  unfold resolveCamera
  rw [(overlayFade_tables _ _).1, (damageStage_tables M _ _).1, (hostileChase_tables M _ _).1,
    (overlayFade_tables _ _).2.2.2.2.2.1, (damageStage_tables M _ _).2.2.2.2.2.1,
    (hostileChase_tables M _ _).2.2.2.2.2.1]

theorem tickBeforeDoors_keys (M : MathLib F) (inp : FrameInput F) (s : GameState F) :
    (tickBeforeDoors M inp s).1.m_Keys =
      match (tickBeforeDoors M inp s).2 with
      | some p => s.m_Keys.map (fun k =>
          if keyHit M.sqrt p (1 / 2) k then { k with Collected := true } else k)
      | none => s.m_Keys := by
  have hk : (overlayFade inp.ElapsedTime (damageStage M inp.ElapsedTime
      (hostileChase M inp.ElapsedTime (advanceCamera inp s)))).m_Keys = s.m_Keys := by
    rw [(overlayFade_tables _ _).2.2.2.1, (damageStage_tables M _ _).2.2.2.1,
      (hostileChase_tables M _ _).2.2.2.1, (advanceCamera_tables inp s).2.2.2.1]
  show (TryOpenDoors (unlockMsgTick inp.ElapsedTime (keyStage M (tickBeforeDoors M inp s).2
    (overlayFade inp.ElapsedTime (damageStage M inp.ElapsedTime
      (hostileChase M inp.ElapsedTime (advanceCamera inp s))))))).m_Keys = _
  rw [(TryOpenDoors_tables _).2.2.2.1, (unlockMsgTick_tables _ _).2.2.2.1]
  cases (tickBeforeDoors M inp s).2 with
  | none => exact hk
  | some p =>
    show (forEachMut (collectKey M.sqrt p (1 / 2)) _ _).2 = _
    rw [collectKeys_keys, hk]

end TickLemmas

section TickTheorems

variable {F : Type} [LinearOrderedField F]

/-- C11: every gameplay operation keeps `Opened = true` on every door that has it:
`HandleKeyCollection`, `TryOpenDoors`, the door animation loop, the hostile chase, the damage
block (on a given distance and as a stage of the tick), the reset button, `UpdateUI` and the
whole of `Update`. The door table keeps its length and its order, so the doors are compared
position by position. -/
theorem opened_never_reset (M : MathLib F) (inp : FrameInput F) (sqrt : F → F)
    (camPos : float3 F) (r d dt : F) (s : GameState F) :
    OpenedStays s (HandleKeyCollection sqrt camPos r s) ∧
    OpenedStays s (TryOpenDoors s) ∧
    OpenedStays s (doorAnimation dt s) ∧
    OpenedStays s (hostileChase M dt s) ∧
    OpenedStays s (damageUpdate d dt s) ∧
    OpenedStays s (damageStage M dt s) ∧
    OpenedStays s (resetGame s) ∧
    OpenedStays s (UpdateUI inp.ui s) ∧
    OpenedStays s (Update M inp s) :=
  ⟨OpenedStays_of_step (HandleKeyCollection_step sqrt camPos r s),
   OpenedStays_of_step (TryOpenDoors_step s),
   OpenedStays_of_step (doorAnimation_step dt s),
   OpenedStays_of_step (hostileChase_step M dt s),
   OpenedStays_of_step (damageUpdate_step d dt s),
   OpenedStays_of_step (damageStage_step M dt s),
   OpenedStays_of_step (TickStep_of_same_tables s (resetGame s) rfl rfl rfl rfl rfl),
   OpenedStays_of_step (UpdateUI_step inp.ui s),
   OpenedStays_of_step (Update_step M inp s)⟩

/-- C16: on tables whose doors point at pairwise distinct wall volumes and objects that no
key and no dynamic object shares, a door with `Opened = true` and `Rising = false` keeps its
whole record (`Opened`, `Rising`, `RiseTimer`, `OriginalMat`, indices, id), its wall volume
and its object through `HandleKeyCollection`, `TryOpenDoors`, the door animation loop, the
hostile chase, the damage stage and the whole of `Update`; and `Update` keeps the tables in
that form, so that this holds tick after tick. -/
theorem risen_is_terminal (M : MathLib F) (inp : FrameInput F) (sqrt : F → F)
    (camPos : float3 F) (r dt : F) (s : GameState F) (hwf : SceneWellFormed s) :
    RisenUntouched s (HandleKeyCollection sqrt camPos r s) ∧
    RisenUntouched s (TryOpenDoors s) ∧
    RisenUntouched s (doorAnimation dt s) ∧
    RisenUntouched s (hostileChase M dt s) ∧
    RisenUntouched s (damageStage M dt s) ∧
    RisenUntouched s (Update M inp s) ∧
    SceneWellFormed (Update M inp s) :=
  ⟨RisenUntouched_of_step hwf (HandleKeyCollection_step sqrt camPos r s),
   RisenUntouched_of_step hwf (TryOpenDoors_step s),
   RisenUntouched_of_step hwf (doorAnimation_step dt s),
   RisenUntouched_of_step hwf (hostileChase_step M dt s),
   RisenUntouched_of_step hwf (damageStage_step M dt s),
   RisenUntouched_of_step hwf (Update_step M inp s),
   SceneWellFormed_of_step hwf (Update_step M inp s)⟩

theorem risen_is_terminal_witness :
    SceneWellFormed (risenDoorScene : GameState ℝ) ∧
    RisenUntouched (risenDoorScene : GameState ℝ)
      (Update (mathLibOf Real.sqrt Real.cos Real.sin Real.pi) stillInput risenDoorScene) ∧
    RisenUntouched (risenDoorScene : GameState ℝ)
      (HandleKeyCollection Real.sqrt ⟨1 / 2, 1 / 2, 1 / 2⟩ (1 / 2) risenDoorScene) := by
  have hwf : SceneWellFormed (risenDoorScene : GameState ℝ) := by
    simp [SceneWellFormed, DoorsWellFormed, risenDoorScene, oneDoorScene, emptyScene]
  have h := risen_is_terminal (mathLibOf Real.sqrt Real.cos Real.sin Real.pi) stillInput
    Real.sqrt ⟨1 / 2, 1 / 2, 1 / 2⟩ (1 / 2) (1 / 1000) (risenDoorScene : GameState ℝ) hwf
  exact ⟨hwf, h.2.2.2.2.2.1, h.1⟩

/-- C17: the wall volumes through a tick. `HandleKeyCollection` and `TryOpenDoors` return the
list of volumes they were given, and so does the part of `Update` before the door loop, which
holds the call of `HandleCollisions`. After `Update` the list has the length it had, and the
volume at an index `j` is the zero box when the simulation ran and a rising door of the table
at the door loop has `WallIdx = j` and a rise offset above 3 in this tick; it is the volume
it was in every other case. -/
theorem walls_change_only_at_risen_doors (M : MathLib F) (inp : FrameInput F) (sqrt : F → F)
    (camPos : float3 F) (r : F) (s : GameState F) :
    (HandleKeyCollection sqrt camPos r s).MazeWalls = s.MazeWalls ∧
    (TryOpenDoors s).MazeWalls = s.MazeWalls ∧
    (tickBeforeDoors M inp s).1.MazeWalls = s.MazeWalls ∧
    (Update M inp s).MazeWalls.length = s.MazeWalls.length ∧
    ∀ j, wallAt (Update M inp s).MazeWalls j =
      if ((UpdateUI inp.ui s).m_ShowStartScreen = false ∧
          (UpdateUI inp.ui s).m_ShowControlsScreen = false) ∧
          ∃ d ∈ (tickBeforeDoors M inp (UpdateUI inp.ui s)).1.m_Doors,
            d.Rising = true ∧ doorOffset inp.ElapsedTime d > 3 ∧ d.WallIdx = j
      then zeroBox else wallAt s.MazeWalls j := by
  refine ⟨(HandleKeyCollection_tables sqrt camPos r s).1, (TryOpenDoors_tables s).1,
    tickBeforeDoors_walls M inp s, (Update_step M inp s).1, fun j => ?_⟩
  unfold Update
  by_cases hscreen : (UpdateUI inp.ui s).m_ShowStartScreen = true ∨
      (UpdateUI inp.ui s).m_ShowControlsScreen = true
  · rw [if_pos hscreen, if_neg, (UpdateUI_tables inp.ui s).1]
    rintro ⟨⟨h1, h2⟩, -⟩
    rcases hscreen with h | h
    · rw [h1] at h; exact Bool.false_ne_true h
    · rw [h2] at h; exact Bool.false_ne_true h
  · rw [if_neg hscreen, simulate_wallAt, (UpdateUI_tables inp.ui s).1]
    have hns : (UpdateUI inp.ui s).m_ShowStartScreen = false ∧
        (UpdateUI inp.ui s).m_ShowControlsScreen = false := by
      constructor
      · by_contra hc; exact hscreen (Or.inl (by simpa using hc))
      · by_contra hc; exact hscreen (Or.inr (by simpa using hc))
    by_cases hex : ∃ d ∈ (tickBeforeDoors M inp (UpdateUI inp.ui s)).1.m_Doors,
        d.Rising = true ∧ doorOffset inp.ElapsedTime d > 3 ∧ d.WallIdx = j
    · rw [if_pos hex, if_pos ⟨hns, hex⟩]
    · rw [if_neg hex, if_neg (fun hc => hex hc.2)]

end TickTheorems

section TickOrderTheorems

theorem length_axis (a : ℝ) (h : 0 ≤ a) : length Real.sqrt ⟨a, 0, 0⟩ = a := by
  simp [length, dot, Real.sqrt_mul_self h]

theorem monsterPosOf_translation {F : Type} [LinearOrderedField F] (x y z : F) :
    monsterPosOf ((Scale 1 1 1 * Translation x y z).transpose) = ⟨x, y, z⟩ := by
  rw [monsterPosOf, Matrix.transpose_transpose]
  simp [Scale, Translation, Matrix.mul_apply, Fin.sum_univ_four]

theorem chaseScene_code_order :
    (damageStage (mathLibOf Real.sqrt Real.cos Real.sin Real.pi) (1 / 1000)
      (hostileChase (mathLibOf Real.sqrt Real.cos Real.sin Real.pi) (1 / 1000)
        (advanceCamera stillInput (chaseScene : GameState ℝ)))).m_Health = 75 := by
  have e : ((⟨3 / 2, 3, 0⟩ : float3 ℝ).sub ⟨0, 3, 0⟩) = ⟨3 / 2, 0, 0⟩ := by
    norm_num [float3.sub]
  have hadv : advanceCamera (stillInput : FrameInput ℝ) chaseScene = chaseScene := by
    simp [advanceCamera, stillInput, chaseScene, emptyScene]
  have hchase : hostileChase (mathLibOf Real.sqrt Real.cos Real.sin Real.pi) (1 / 1000)
      (chaseScene : GameState ℝ) = chaseScene := by
    simp only [hostileChase, chaseScene, emptyScene, objectAt, List.getD_cons_zero,
      monsterPosOf_translation, mathLibOf, e, length_axis (3 / 2) (by norm_num)]
    simp [setModelMat]
  have hd : playerDistance (mathLibOf Real.sqrt Real.cos Real.sin Real.pi)
      (chaseScene : GameState ℝ) = some (3 / 2) := by
    simp only [playerDistance, chaseScene, emptyScene, objectAt, List.headD_cons,
      List.getD_cons_zero, monsterPosOf_translation, mathLibOf, Option.map_some', e,
      length_axis (3 / 2) (by norm_num)]
  rw [hadv, hchase]
  simp only [damageStage, hd, damageUpdate]
  rw [if_pos (by constructor; norm_num; rfl)]
  rw [damageLoop, if_pos (by norm_num [chaseScene, emptyScene]),
    if_neg (by norm_num [chaseScene, emptyScene])]
  rw [damageLoop, if_neg (by norm_num [chaseScene, emptyScene])]
  norm_num [chaseScene, emptyScene]

theorem chaseScene_spec_order :
    (simulateSpecOrder (mathLibOf Real.sqrt Real.cos Real.sin Real.pi) stillInput
      (chaseScene : GameState ℝ)).m_Health = 100 := by
  have hadv : advanceCamera (stillInput : FrameInput ℝ) chaseScene = chaseScene := by
    simp [advanceCamera, stillInput, chaseScene, emptyScene]
  have hres : resolveCamera (mathLibOf Real.sqrt Real.cos Real.sin Real.pi)
      (chaseScene : GameState ℝ) = some ⟨1003 / 500, 3, 0⟩ := by
    have e : ((⟨3 / 2, 3, 0⟩ : float3 ℝ).sub
        (closestPoint ⟨⟨1, 0, -1⟩, ⟨73 / 50, 3, 1⟩⟩ ⟨3 / 2, 3, 0⟩)) = ⟨1 / 25, 0, 0⟩ := by
      norm_num [float3.sub, closestPoint]
    simp only [resolveCamera, chaseScene, emptyScene, mathLibOf, Option.some_bind,
      HandleCollisions, collideWall, e, length_axis (1 / 25) (by norm_num)]
    norm_num [float3.add, float3.scale, float3.divScalar]
  have hdoors : doorAnimation (1 / 1000) (TryOpenDoors (unlockMsgTick (1 / 1000)
      (keyStage (mathLibOf Real.sqrt Real.cos Real.sin Real.pi) (some ⟨1003 / 500, 3, 0⟩)
        { (chaseScene : GameState ℝ) with CameraPos := some ⟨1003 / 500, 3, 0⟩ }))) =
      { (chaseScene : GameState ℝ) with CameraPos := some ⟨1003 / 500, 3, 0⟩ } := by
    simp [keyStage, HandleKeyCollection, forEachMut, unlockMsgTick, TryOpenDoors,
      doorAnimation, chaseScene, emptyScene]
  have e : ((⟨1003 / 500, 3, 0⟩ : float3 ℝ).sub ⟨0, 3, 0⟩) = ⟨1003 / 500, 0, 0⟩ := by
    norm_num [float3.sub]
  have e2 : ((⟨1003 / 500, 3, 0⟩ : float3 ℝ).sub ⟨3 / 1000, 3, 0⟩) = ⟨2003 / 1000, 0, 0⟩ := by
    norm_num [float3.sub]
  have hchase : hostileChase (mathLibOf Real.sqrt Real.cos Real.sin Real.pi) (1 / 1000)
      { (chaseScene : GameState ℝ) with CameraPos := some ⟨1003 / 500, 3, 0⟩ } =
      { (chaseScene : GameState ℝ) with
        CameraPos := some ⟨1003 / 500, 3, 0⟩
        Objects := [{ ModelMat := (Scale (1 : ℝ) 1 1 * Translation (3 / 1000) 3 0).transpose
                      MaterialId := 18
                      MeshId := 0 }] } := by
    simp only [hostileChase, chaseScene, emptyScene, objectAt, List.getD_cons_zero,
      monsterPosOf_translation, mathLibOf, e, length_axis (1003 / 500) (by norm_num)]
    rw [if_pos (by norm_num)]
    norm_num [setModelMat, float3.add, float3.scale, float3.divScalar]
  have hd : playerDistance (mathLibOf Real.sqrt Real.cos Real.sin Real.pi)
      { (chaseScene : GameState ℝ) with
        CameraPos := some ⟨1003 / 500, 3, 0⟩
        Objects := [{ ModelMat := (Scale (1 : ℝ) 1 1 * Translation (3 / 1000) 3 0).transpose
                      MaterialId := 18
                      MeshId := 0 }] } = some (2003 / 1000) := by
    simp only [playerDistance, chaseScene, emptyScene, objectAt, List.headD_cons,
      List.getD_cons_zero, monsterPosOf_translation, mathLibOf, Option.map_some', e2,
      length_axis (2003 / 1000) (by norm_num)]
  show (overlayFade _ (damageStage _ _ (hostileChase _ _ (doorAnimation _ (TryOpenDoors
    (unlockMsgTick _ (keyStage _ _ _))))))).m_Health = 100
  rw [(overlayFade_tables _ _).2.2.2.2.2.2.1, hadv, hres]
  have ht : (stillInput : FrameInput ℝ).ElapsedTime = 1 / 1000 := rfl
  rw [ht, hdoors, hchase]
  simp only [damageStage, hd, damageUpdate]
  rw [if_neg (by norm_num)]
  rfl

theorem advanceCamera_camera {F : Type} [LinearOrderedField F] (inp : FrameInput F)
    (s : GameState F) : (advanceCamera inp s).CameraPos = s.CameraPos.map inp.CameraUpdate := by
  simp only [advanceCamera]
  split_ifs <;> rfl

/-- C15, the claim as it is worded, on the scene `chaseScene` with a standing camera: the
tick of the source takes the health from 100 to 75, since at the damage block the camera is
still where the input left it, at distance 1.5 of the hostile; in the order of the
specification the collision resolution first pushes the camera to `x = 2.006`, the hostile
steps by 0.003, the distance is 2.003 and no health is lost. -/
theorem tick_order_counterexample :
    (Update (mathLibOf Real.sqrt Real.cos Real.sin Real.pi) stillInput
      (chaseScene : GameState ℝ)).m_Health = 75 ∧
    (simulateSpecOrder (mathLibOf Real.sqrt Real.cos Real.sin Real.pi) stillInput
      (chaseScene : GameState ℝ)).m_Health = 100 ∧
    Update (mathLibOf Real.sqrt Real.cos Real.sin Real.pi) stillInput
        (chaseScene : GameState ℝ) ≠
      simulateSpecOrder (mathLibOf Real.sqrt Real.cos Real.sin Real.pi) stillInput
        (chaseScene : GameState ℝ) := by
  have hUI : UpdateUI (stillInput : FrameInput ℝ).ui (chaseScene : GameState ℝ) = chaseScene := by
    simp [UpdateUI, stillInput, chaseScene, emptyScene]
  have hcode : (Update (mathLibOf Real.sqrt Real.cos Real.sin Real.pi) stillInput
      (chaseScene : GameState ℝ)).m_Health = 75 := by
    unfold Update
    rw [hUI, if_neg (by simp [chaseScene, emptyScene]),
      (simulate_health _ _ _).1]
    exact chaseScene_code_order
  refine ⟨hcode, chaseScene_spec_order, fun heq => ?_⟩
  have h := hcode
  rw [heq, chaseScene_spec_order] at h
  norm_num at h

/-- C15, amended: the order of the stages in the simulation of a tick. Health and game-over
flag after the tick are those the damage block leaves when it runs right after the camera
advance and the hostile chase; the camera the chase and the damage block read is the one the
input produced, not yet corrected. The collision resolution comes after them and corrects
that same position against the wall volumes the tick started with; the key loop then runs on
the corrected position, and the camera the tick leaves is the clamp of the corrected
position. With no start or controls screen shown after `UpdateUI`, `Update` is that
simulation on the state `UpdateUI` leaves. -/
theorem tick_stage_order {F : Type} [LinearOrderedField F] (M : MathLib F)
    (inp : FrameInput F) (s : GameState F) :
    (simulate M inp s).m_Health =
      (damageStage M inp.ElapsedTime
        (hostileChase M inp.ElapsedTime (advanceCamera inp s))).m_Health ∧
    (simulate M inp s).m_IsGameOver =
      (damageStage M inp.ElapsedTime
        (hostileChase M inp.ElapsedTime (advanceCamera inp s))).m_IsGameOver ∧
    (hostileChase M inp.ElapsedTime (advanceCamera inp s)).CameraPos =
      s.CameraPos.map inp.CameraUpdate ∧
    (tickBeforeDoors M inp s).2 =
      (s.CameraPos.map inp.CameraUpdate).bind
        (fun p => HandleCollisions M.sqrt s.MazeWalls p (1 / 2)) ∧
    (tickBeforeDoors M inp s).1.m_Keys =
      (match (tickBeforeDoors M inp s).2 with
       | some p => s.m_Keys.map (fun k =>
           if keyHit M.sqrt p (1 / 2) k then { k with Collected := true } else k)
       | none => s.m_Keys) ∧
    (simulate M inp s).CameraPos = clampCamera (tickBeforeDoors M inp s).2 ∧
    ((UpdateUI inp.ui s).m_ShowStartScreen = false →
      (UpdateUI inp.ui s).m_ShowControlsScreen = false →
      Update M inp s = simulate M inp (UpdateUI inp.ui s)) := by
  refine ⟨(simulate_health M inp s).1, (simulate_health M inp s).2, ?_, ?_,
    tickBeforeDoors_keys M inp s, rfl, fun h1 h2 => ?_⟩
  · rw [(hostileChase_tables M _ _).2.2.2.2.2.1, advanceCamera_camera]
  · rw [tickBeforeDoors_camera]
    unfold resolveCamera
    rw [advanceCamera_camera, (advanceCamera_tables inp s).1]
  · unfold Update
    rw [if_neg]
    rintro (h | h)
    · rw [h1] at h; exact Bool.false_ne_true h
    · rw [h2] at h; exact Bool.false_ne_true h

theorem tick_stage_order_witness :
    Update (mathLibOf Real.sqrt Real.cos Real.sin Real.pi) stillInput
        (chaseScene : GameState ℝ) =
      simulate (mathLibOf Real.sqrt Real.cos Real.sin Real.pi) stillInput
        (UpdateUI (stillInput : FrameInput ℝ).ui chaseScene) ∧
    (tickBeforeDoors (mathLibOf Real.sqrt Real.cos Real.sin Real.pi) stillInput
        (chaseScene : GameState ℝ)).2 =
      ((chaseScene : GameState ℝ).CameraPos.map (stillInput : FrameInput ℝ).CameraUpdate).bind
        (fun p => HandleCollisions Real.sqrt (chaseScene : GameState ℝ).MazeWalls p (1 / 2)) := by
  have h := tick_stage_order (mathLibOf Real.sqrt Real.cos Real.sin Real.pi) stillInput
    (chaseScene : GameState ℝ)
  exact ⟨h.2.2.2.2.2.2 (by simp [UpdateUI, stillInput, chaseScene, emptyScene])
    (by simp [UpdateUI, stillInput, chaseScene, emptyScene]), h.2.2.2.1⟩

end TickOrderTheorems

section CameraTheorems

theorem chaseScene_UpdateUI :
    UpdateUI (stillInput : FrameInput ℝ).ui (chaseScene : GameState ℝ) = chaseScene := by
  simp [UpdateUI, stillInput, chaseScene, emptyScene]

theorem chaseScene_resolve :
    resolveCamera (mathLibOf Real.sqrt Real.cos Real.sin Real.pi)
      (advanceCamera stillInput (chaseScene : GameState ℝ)) = some ⟨1003 / 500, 3, 0⟩ := by
  have hadv : advanceCamera (stillInput : FrameInput ℝ) chaseScene = chaseScene := by
    simp [advanceCamera, stillInput, chaseScene, emptyScene]
  have e : ((⟨3 / 2, 3, 0⟩ : float3 ℝ).sub
      (closestPoint ⟨⟨1, 0, -1⟩, ⟨73 / 50, 3, 1⟩⟩ ⟨3 / 2, 3, 0⟩)) = ⟨1 / 25, 0, 0⟩ := by
    norm_num [float3.sub, closestPoint]
  rw [hadv]
  simp only [resolveCamera, chaseScene, emptyScene, mathLibOf, Option.some_bind,
    HandleCollisions, collideWall, e, length_axis (1 / 25) (by norm_num)]
  norm_num [float3.add, float3.scale, float3.divScalar]

theorem clamp_bounds {F : Type} [LinearOrderedField F] (v lo hi : F) (h : lo ≤ hi) :
    lo ≤ clamp v lo hi ∧ clamp v lo hi ≤ hi := by
  unfold clamp
  exact ⟨le_max_left _ _, max_le h (min_le_right _ _)⟩

theorem clampCamera_eq {F : Type} [LinearOrderedField F] (NewCamPos : Option (float3 F)) :
    clampCamera NewCamPos =
      NewCamPos.map (fun q => ⟨clamp q.x (-100) 100, 3, clamp q.z (-100) 100⟩) := by
  unfold clampCamera
  congr 1
  funext q
  have : clamp (3 : F) (1 / 10) 60 = 3 := by
    unfold clamp
    rw [min_eq_left (by norm_num), max_eq_right (by norm_num)]
  simp only [this]

/-- C21: a tick that runs the simulation (no start screen and no controls screen after
`UpdateUI`) writes back the position corrected by the collision resolution with its height
replaced by 3 and its `x` and `z` clamped to `[-100, 100]`; so the position written back,
whatever the input movement and the collision correction were, has `y = 3`, and `x` and `z`
in `[-100, 100]`. -/
theorem camera_clamped {F : Type} [LinearOrderedField F] (M : MathLib F) (inp : FrameInput F)
    (s : GameState F) (h1 : (UpdateUI inp.ui s).m_ShowStartScreen = false)
    (h2 : (UpdateUI inp.ui s).m_ShowControlsScreen = false) :
    (Update M inp s).CameraPos =
      (tickBeforeDoors M inp (UpdateUI inp.ui s)).2.map
        (fun q => ⟨clamp q.x (-100) 100, 3, clamp q.z (-100) 100⟩) ∧
    ∀ p, (Update M inp s).CameraPos = some p →
      p.y = 3 ∧ -100 ≤ p.x ∧ p.x ≤ 100 ∧ -100 ≤ p.z ∧ p.z ≤ 100 := by
  have hU : Update M inp s = simulate M inp (UpdateUI inp.ui s) := by
    unfold Update
    rw [if_neg]
    rintro (h | h)
    · rw [h1] at h; exact Bool.false_ne_true h
    · rw [h2] at h; exact Bool.false_ne_true h
  have hC : (Update M inp s).CameraPos =
      (tickBeforeDoors M inp (UpdateUI inp.ui s)).2.map
        (fun q => ⟨clamp q.x (-100) 100, 3, clamp q.z (-100) 100⟩) := by
    rw [hU, ← clampCamera_eq]
    rfl
  refine ⟨hC, fun p hp => ?_⟩
  rw [hC] at hp
  cases hq : (tickBeforeDoors M inp (UpdateUI inp.ui s)).2 with
  | none => rw [hq] at hp; exact Option.noConfusion hp
  | some q =>
    rw [hq] at hp
    simp only [Option.map_some', Option.some.injEq] at hp
    subst hp
    have hx := clamp_bounds q.x (-100 : F) 100 (by norm_num)
    have hz := clamp_bounds q.z (-100 : F) 100 (by norm_num)
    exact ⟨rfl, hx.1, hx.2, hz.1, hz.2⟩

theorem camera_clamped_witness :
    ((UpdateUI (stillInput : FrameInput ℝ).ui (chaseScene : GameState ℝ)).m_ShowStartScreen
        = false ∧
      (UpdateUI (stillInput : FrameInput ℝ).ui (chaseScene : GameState ℝ)).m_ShowControlsScreen
        = false) ∧
    (Update (mathLibOf Real.sqrt Real.cos Real.sin Real.pi) stillInput
      (chaseScene : GameState ℝ)).CameraPos = some ⟨1003 / 500, 3, 0⟩ := by
  have h1 : (UpdateUI (stillInput : FrameInput ℝ).ui
      (chaseScene : GameState ℝ)).m_ShowStartScreen = false := by
    rw [chaseScene_UpdateUI]; rfl
  have h2 : (UpdateUI (stillInput : FrameInput ℝ).ui
      (chaseScene : GameState ℝ)).m_ShowControlsScreen = false := by
    rw [chaseScene_UpdateUI]; rfl
  have h := (camera_clamped (mathLibOf Real.sqrt Real.cos Real.sin Real.pi) stillInput
    (chaseScene : GameState ℝ) h1 h2).1
  rw [chaseScene_UpdateUI, tickBeforeDoors_camera, chaseScene_resolve] at h
  rw [h]
  norm_num [clamp]
  exact ⟨h1, h2⟩

end CameraTheorems

section PushTheorems

variable {F : Type} [LinearOrderedField F]

theorem dot_self_nonneg (v : float3 F) : 0 ≤ dot v v := by
  unfold dot
  nlinarith [mul_self_nonneg v.x, mul_self_nonneg v.y, mul_self_nonneg v.z]

/-- Moving a coordinate away from its clamp by a factor of at least 1 keeps the clamp. -/
theorem clamp_axis_scale (lo hi v k : F) (hk : 1 ≤ k) :
    max lo (min (max lo (min v hi) + (v - max lo (min v hi)) * k) hi) = max lo (min v hi) := by
  rcases lt_or_le hi lo with h | h
  · have e : ∀ w : F, max lo (min w hi) = lo := fun w =>
      max_eq_left (le_trans (min_le_right _ _) (le_of_lt h))
    rw [e, e]
  · rcases lt_or_le v lo with h1 | h1
    · have e : max lo (min v hi) = lo := by
        rw [min_eq_left (le_trans (le_of_lt h1) h), max_eq_left (le_of_lt h1)]
      rw [e]
      have hle : lo + (v - lo) * k ≤ lo := by nlinarith
      rw [min_eq_left (le_trans hle h), max_eq_left hle]
    · rcases le_or_lt v hi with h2 | h2
      · have e : max lo (min v hi) = v := by rw [min_eq_left h2, max_eq_right h1]
        rw [e, sub_self, zero_mul, add_zero, e]
      · have e : max lo (min v hi) = hi := by
          rw [min_eq_right (le_of_lt h2), max_eq_right h]
        rw [e]
        have hge : hi ≤ hi + (v - hi) * k := by nlinarith
        rw [min_eq_right hge, max_eq_right h]

theorem sqrt_mul_self_of (sqrt : F → F)
    (hsqrt : ∀ a : F, 0 ≤ a → 0 ≤ sqrt a ∧ sqrt a * sqrt a = a) (y : F) (hy : 0 ≤ y) :
    sqrt (y * y) = y := by
  obtain ⟨h1, h2⟩ := hsqrt (y * y) (mul_self_nonneg y)
  exact (mul_self_inj h1 hy).mp h2

/-- C27: one push resolves a single volume. With a square root that is the nonnegative root
on nonnegative numbers, a position `p` with clamped closest point `c` on the box and
`0 < |p - c| = d < r` is moved by the step to a position `p2` that still has `c` as its
closest point on the box and lies at distance `1.1 r - 0.1 d` of it, which is above `r`; the
step for the same volume leaves `p2` where it is. -/
theorem one_push_resolves (sqrt : F → F)
    (hsqrt : ∀ a : F, 0 ≤ a → 0 ≤ sqrt a ∧ sqrt a * sqrt a = a)
    (wall : AABB F) (p : float3 F) (r : F)
    (h0 : 0 < length sqrt (p.sub (closestPoint wall p)))
    (h1 : length sqrt (p.sub (closestPoint wall p)) < r) :
    ∃ p2 : float3 F, collideWall sqrt r p wall = some p2 ∧
      closestPoint wall p2 = closestPoint wall p ∧
      length sqrt (p2.sub (closestPoint wall p2)) =
        11 / 10 * r - 1 / 10 * length sqrt (p.sub (closestPoint wall p)) ∧
      r < length sqrt (p2.sub (closestPoint wall p2)) ∧
      collideWall sqrt r p2 wall = some p2 := by
  have hd2 : length sqrt (p.sub (closestPoint wall p)) *
      length sqrt (p.sub (closestPoint wall p)) =
      dot (p.sub (closestPoint wall p)) (p.sub (closestPoint wall p)) :=
    (hsqrt _ (dot_self_nonneg _)).2
  generalize hdef : length sqrt (p.sub (closestPoint wall p)) = d at h0 h1 hd2
  have hdne : d ≠ 0 := ne_of_gt h0
  have hk : (1 : F) ≤ 1 + (r - d) * (11 / 10) / d := by
    have : 0 ≤ (r - d) * (11 / 10) / d :=
      div_nonneg (mul_nonneg (by linarith) (by norm_num)) (le_of_lt h0)
    linarith
  have hkd : (1 + (r - d) * (11 / 10) / d) * d = 11 / 10 * r - 1 / 10 * d := by
    field_simp
    ring
  have hcoord : ∀ v c : F, v + (v - c) / d * (r - d) * (11 / 10) =
      c + (v - c) * (1 + (r - d) * (11 / 10) / d) := by
    intro v c
    field_simp
    ring
  have hstep : collideWall sqrt r p wall = some (p.add
      ((((p.sub (closestPoint wall p)).divScalar d).scale (r - d)).scale (11 / 10))) := by
    unfold collideWall
    simp only
    rw [hdef, if_pos h1, if_neg hdne]
  have hcp : closestPoint wall (p.add
      ((((p.sub (closestPoint wall p)).divScalar d).scale (r - d)).scale (11 / 10))) =
      closestPoint wall p := by
    simp only [closestPoint, float3.add, float3.scale, float3.divScalar, float3.sub, hcoord,
      clamp_axis_scale _ _ _ _ hk]
  have hlen : length sqrt ((p.add
      ((((p.sub (closestPoint wall p)).divScalar d).scale (r - d)).scale (11 / 10))).sub
        (closestPoint wall p)) = 11 / 10 * r - 1 / 10 * d := by
    have hdot : dot ((p.add
        ((((p.sub (closestPoint wall p)).divScalar d).scale (r - d)).scale (11 / 10))).sub
          (closestPoint wall p)) ((p.add
        ((((p.sub (closestPoint wall p)).divScalar d).scale (r - d)).scale (11 / 10))).sub
          (closestPoint wall p)) =
        ((1 + (r - d) * (11 / 10) / d) * d) * ((1 + (r - d) * (11 / 10) / d) * d) := by
      have : ((1 + (r - d) * (11 / 10) / d) * d) * ((1 + (r - d) * (11 / 10) / d) * d) =
          (1 + (r - d) * (11 / 10) / d) * (1 + (r - d) * (11 / 10) / d) *
            dot (p.sub (closestPoint wall p)) (p.sub (closestPoint wall p)) := by
        rw [← hd2]; ring
      rw [this]
      simp only [dot, float3.add, float3.scale, float3.divScalar, float3.sub, hcoord]
      ring
    rw [length, hdot, sqrt_mul_self_of sqrt hsqrt _ (by rw [hkd]; linarith), hkd]
  refine ⟨_, hstep, hcp, by rw [hcp]; exact hlen, by rw [hcp, hlen]; linarith, ?_⟩
  unfold collideWall
  simp only
  rw [hcp, hlen, if_neg (by linarith)]

theorem one_push_resolves_witness :
    (0 < length Real.sqrt ((⟨5 / 4, 3, 0⟩ : float3 ℝ).sub
        (closestPoint ⟨⟨-1, 0, -1⟩, ⟨1, 3, 1⟩⟩ ⟨5 / 4, 3, 0⟩)) ∧
      length Real.sqrt ((⟨5 / 4, 3, 0⟩ : float3 ℝ).sub
        (closestPoint ⟨⟨-1, 0, -1⟩, ⟨1, 3, 1⟩⟩ ⟨5 / 4, 3, 0⟩)) < 1 / 2) ∧
    ∃ p2 : float3 ℝ,
      collideWall Real.sqrt (1 / 2) ⟨5 / 4, 3, 0⟩ ⟨⟨-1, 0, -1⟩, ⟨1, 3, 1⟩⟩ = some p2 ∧
      closestPoint ⟨⟨-1, 0, -1⟩, ⟨1, 3, 1⟩⟩ p2 =
        closestPoint ⟨⟨-1, 0, -1⟩, ⟨1, 3, 1⟩⟩ ⟨5 / 4, 3, 0⟩ ∧
      collideWall Real.sqrt (1 / 2) p2 ⟨⟨-1, 0, -1⟩, ⟨1, 3, 1⟩⟩ = some p2 := by
  have e : (⟨5 / 4, 3, 0⟩ : float3 ℝ).sub
      (closestPoint ⟨⟨-1, 0, -1⟩, ⟨1, 3, 1⟩⟩ ⟨5 / 4, 3, 0⟩) = ⟨1 / 4, 0, 0⟩ := by
    norm_num [float3.sub, closestPoint]
  have hl : length Real.sqrt ((⟨5 / 4, 3, 0⟩ : float3 ℝ).sub
      (closestPoint ⟨⟨-1, 0, -1⟩, ⟨1, 3, 1⟩⟩ ⟨5 / 4, 3, 0⟩)) = 1 / 4 := by
    rw [e, length_axis (1 / 4) (by norm_num)]
  have h0 : 0 < length Real.sqrt ((⟨5 / 4, 3, 0⟩ : float3 ℝ).sub
      (closestPoint ⟨⟨-1, 0, -1⟩, ⟨1, 3, 1⟩⟩ ⟨5 / 4, 3, 0⟩)) := by rw [hl]; norm_num
  have h1 : length Real.sqrt ((⟨5 / 4, 3, 0⟩ : float3 ℝ).sub
      (closestPoint ⟨⟨-1, 0, -1⟩, ⟨1, 3, 1⟩⟩ ⟨5 / 4, 3, 0⟩)) < 1 / 2 := by rw [hl]; norm_num
  obtain ⟨p2, a1, a2, -, -, a5⟩ := one_push_resolves Real.sqrt
    (fun a ha => ⟨Real.sqrt_nonneg a, Real.mul_self_sqrt ha⟩)
    ⟨⟨-1, 0, -1⟩, ⟨1, 3, 1⟩⟩ ⟨5 / 4, 3, 0⟩ (1 / 2) h0 h1
  exact ⟨⟨h0, h1⟩, p2, a1, a2, a5⟩

/-- C28: the zero-extent box is inert for a position at height `|p.y| >= r`. With a square
root that is the nonnegative root on nonnegative numbers the closest point of the box is the
origin, the distance is at least `|p.y|`, and the step of `HandleCollisions` returns `p`; so
does `HandleCollisions` on a table whose volumes are all zero boxes, and in particular the
step for the camera at height 3 with radius 0.5. -/
theorem zero_box_inert (sqrt : F → F)
    (hsqrt : ∀ a : F, 0 ≤ a → 0 ≤ sqrt a ∧ sqrt a * sqrt a = a)
    (p : float3 F) (r : F) (h : r ≤ |p.y|) :
    collideWall sqrt r p zeroBox = some p ∧
    (∀ walls : List (AABB F), (∀ w ∈ walls, w = zeroBox) →
      HandleCollisions sqrt walls p r = some p) ∧
    (p.y = 3 → collideWall sqrt (1 / 2) p zeroBox = some p) := by
  have hstep : ∀ r2 : F, r2 ≤ |p.y| → collideWall sqrt r2 p zeroBox = some p := by
    intro r2 h2
    have hc : closestPoint zeroBox p = ⟨0, 0, 0⟩ := by
      simp only [closestPoint, zeroBox, max_eq_left (min_le_right _ (0 : F))]
    have hsub : p.sub ⟨0, 0, 0⟩ = p := by
      simp only [float3.sub, sub_zero]
    obtain ⟨s1, s2⟩ := hsqrt (dot p p) (dot_self_nonneg p)
    have hy : |p.y| ≤ sqrt (dot p p) := by
      by_contra hc2
      have hlt := mul_self_lt_mul_self s1 (not_le.mp hc2)
      rw [s2, abs_mul_abs_self] at hlt
      unfold dot at hlt
      nlinarith [mul_self_nonneg p.x, mul_self_nonneg p.z]
    unfold collideWall
    simp only
    rw [hc, hsub, length, if_neg (not_lt.mpr (le_trans h2 hy))]
  refine ⟨hstep r h, fun walls hw => ?_, fun hy => hstep (1 / 2) ?_⟩
  · induction walls with
    | nil => rfl
    | cons w ws ih =>
      rw [hw w (List.mem_cons_self w ws)]
      simp only [HandleCollisions, hstep r h]
      exact ih (fun v hv => hw v (List.mem_cons_of_mem w hv))
  · rw [hy]
    rw [abs_of_pos (by norm_num)]
    norm_num

theorem zero_box_inert_witness :
    ((1 / 2 : ℝ) ≤ |(⟨7, 3, -2⟩ : float3 ℝ).y|) ∧
    collideWall Real.sqrt (1 / 2) (⟨7, 3, -2⟩ : float3 ℝ) zeroBox = some ⟨7, 3, -2⟩ := by
  have h : (1 / 2 : ℝ) ≤ |(⟨7, 3, -2⟩ : float3 ℝ).y| := by
    show (1 / 2 : ℝ) ≤ |3|
    rw [abs_of_pos (by norm_num)]
    norm_num
  exact ⟨h, (zero_box_inert Real.sqrt
    (fun a ha => ⟨Real.sqrt_nonneg a, Real.mul_self_sqrt ha⟩) ⟨7, 3, -2⟩ (1 / 2) h).1⟩

end PushTheorems

section DoorIdTheorems

variable {F : Type} [LinearOrderedField F]

theorem doorsOfRuns_head_id (runs : List Run) :
    ∀ (wb ob : Nat) (i : Int), ∀ d ∈ (doorsOfRuns wb ob i runs : List (Door F)).head?,
      d.Id = i := by
  induction runs with
  | nil => intro wb ob i d hd; simp [doorsOfRuns] at hd
  | cons r rs ih =>
    intro wb ob i d hd
    by_cases hdoor : isDoorCode r.blockType = true
    · simp only [doorsOfRuns, if_pos hdoor, List.head?_cons, Option.mem_def,
        Option.some.injEq] at hd
      rw [← hd]
    · simp only [doorsOfRuns, if_neg hdoor] at hd
      exact ih (wb + 1) (ob + 1) i d hd

theorem doorsOfRuns_chain (runs : List Run) :
    ∀ (wb ob : Nat) (i : Int),
      List.Chain' (fun (a b : Door F) => b.Id = a.Id + 1) (doorsOfRuns wb ob i runs) := by
  induction runs with
  | nil => intro wb ob i; simp [doorsOfRuns]
  | cons r rs ih =>
    intro wb ob i
    by_cases hdoor : isDoorCode r.blockType = true
    · simp only [doorsOfRuns, if_pos hdoor]
      rw [List.chain'_cons']
      exact ⟨fun d hd => doorsOfRuns_head_id rs (wb + 1) (ob + 1) (i + 1) d hd,
        ih (wb + 1) (ob + 1) (i + 1)⟩
    · simp only [doorsOfRuns, if_neg hdoor]
      exact ih (wb + 1) (ob + 1) i

theorem doorsOfRuns_ids (runs : List Run) :
    ∀ (wb ob : Nat) (i : Int),
      (doorsOfRuns wb ob i runs : List (Door F)).map Door.Id =
        (List.range (runs.countP (fun r => isDoorCode r.blockType))).map
          (fun k : Nat => i + (k : Int)) := by
  induction runs with
  | nil => intro wb ob i; simp [doorsOfRuns]
  | cons r rs ih =>
    intro wb ob i
    by_cases hdoor : isDoorCode r.blockType = true
    · have hc : (r :: rs).countP (fun r => isDoorCode r.blockType) =
          rs.countP (fun r => isDoorCode r.blockType) + 1 := by
        simp [List.countP_cons, hdoor]
      simp only [doorsOfRuns, if_pos hdoor, List.map_cons, hc,
        List.range_succ_eq_map, ih, List.map_map]
      refine congrArg₂ _ (by simp) (List.map_congr_left (fun k _ => ?_))
      simp only [Function.comp, Nat.succ_eq_add_one, Nat.cast_add, Nat.cast_one]
      ring
    · have hc : (r :: rs).countP (fun r => isDoorCode r.blockType) =
          rs.countP (fun r => isDoorCode r.blockType) := by
        simp [List.countP_cons, hdoor]
      simp only [doorsOfRuns, if_neg hdoor, hc, ih]

/-- C24: after `CreateSceneObjects` started on an empty door table there is one door per
door run of Pass 1, the ids are `m_nextDoorId`, `m_nextDoorId + 1`, ... in table order: each
door's id is one more than the id of the door before it, so the ids are strictly increasing
and pairwise distinct; and the counter is left one past the last id. -/
theorem door_ids_consecutive (P : SceneParams) (g : TileGrid) (s : GameState F)
    (hDo : s.m_Doors = []) :
    (CreateSceneObjects P g s).m_Doors.length =
      ((afterPass1 P g s).runs.filter (fun r => isDoorCode r.blockType)).length ∧
    (CreateSceneObjects P g s).m_Doors.map Door.Id =
      (List.range (CreateSceneObjects P g s).m_Doors.length).map
        (fun k : Nat => s.m_nextDoorId + (k : Int)) ∧
    List.Chain' (fun (a b : Door F) => b.Id = a.Id + 1) (CreateSceneObjects P g s).m_Doors ∧
    List.Pairwise (fun (a b : Door F) => a.Id < b.Id) (CreateSceneObjects P g s).m_Doors ∧
    ((CreateSceneObjects P g s).m_Doors.map Door.Id).Nodup ∧
    (CreateSceneObjects P g s).m_nextDoorId =
      s.m_nextDoorId + ((CreateSceneObjects P g s).m_Doors.length : Int) := by
  have hD : ∀ d ∈ s.m_Doors, d.ObjectIdx < s.Objects.length := by
    intro d hd; rw [hDo] at hd; simp at hd
  obtain ⟨-, -, a3, a4, -, -, -⟩ := gridPasses_tables P g s hD
  have e : (CreateSceneObjects P g s).m_Doors = (gridPasses P g s).m_Doors := rfl
  have e2 : (CreateSceneObjects P g s).m_nextDoorId = (gridPasses P g s).m_nextDoorId := rfl
  rw [hDo, List.nil_append] at a3
  rw [e, e2, a3, a4, doorsOfRuns_length, List.countP_eq_length_filter]
  refine ⟨rfl, ?_, doorsOfRuns_chain _ _ _ _, ?_, ?_, rfl⟩
  · rw [doorsOfRuns_ids, List.countP_eq_length_filter]
  · exact (doorsOfRuns_pairwise (F := F) (afterPass1 P g s).runs _ _ _).imp (fun h => h.2.2)
  · unfold List.Nodup
    rw [List.pairwise_map]
    exact (doorsOfRuns_pairwise (F := F) (afterPass1 P g s).runs _ _ _).imp
      (fun h => ne_of_lt h.2.2)

theorem door_ids_consecutive_witness :
    (emptyScene : GameState ℚ).m_Doors = [] ∧
    List.Chain' (fun (a b : Door ℚ) => b.Id = a.Id + 1)
      (CreateSceneObjects scenarioParams scenarioGrid (emptyScene : GameState ℚ)).m_Doors ∧
    (CreateSceneObjects scenarioParams scenarioGrid (emptyScene : GameState ℚ)).m_Doors.map
      Door.Id = [0] :=
  ⟨rfl, (door_ids_consecutive scenarioParams scenarioGrid (emptyScene : GameState ℚ)
    rfl).2.2.1, by decide⟩

end DoorIdTheorems

section ChaseTheorems

variable {F : Type} [LinearOrderedField F]

/-- The rotation of the dynamic objects keeps the position read in the model matrix when
the last row of the rotation matrix is `(0, 0, 0, 1)`. -/
theorem rotate_keeps_position (M : MathLib F) (dt : F) (idx : Nat)
    (hR : ∀ (a : F) (j : Fin 4), M.RotationY a 3 j = if j = 3 then 1 else 0)
    (speed : F) (O : List (ObjectAttribs F)) (hO : idx < O.length) :
    monsterPosOf (objectAt (rotateDynamic M dt [idx] speed O) idx).ModelMat =
      monsterPosOf (objectAt O idx).ModelMat := by
  simp only [rotateDynamic]
  rw [objectAt_setModelMat_eq _ _ _ hO]
  simp only [monsterPosOf, Matrix.transpose_transpose, Matrix.mul_apply, Fin.sum_univ_four, hR]
  simp

/-- C26: the hostile chase on a state whose first dynamic object `idx` is in the object table
and whose camera position `player` is a number, `m` being the position read in the model
matrix of the hostile. Past the distance 1.5 the position read after the chase is
`m + (player - m) / |player - m| * 3 * dt` with its height replaced by 3; up to the distance
1.5 it is `m`. The rotation of the dynamic objects at the end of the tick does not move it,
for a rotation matrix whose last row is `(0, 0, 0, 1)`. -/
theorem hostile_chase_step (M : MathLib F) (dt : F) (s : GameState F) (idx : Nat)
    (rest : List Nat) (player : float3 F) (hdyn : s.DynamicObjects = idx :: rest)
    (hidx : idx < s.Objects.length) (hcam : s.CameraPos = some player) :
    (length M.sqrt (player.sub (monsterPosOf (objectAt s.Objects idx).ModelMat)) > 3 / 2 →
      monsterPosOf (objectAt (hostileChase M dt s).Objects idx).ModelMat =
        ⟨(monsterPosOf (objectAt s.Objects idx).ModelMat).x +
            (player.x - (monsterPosOf (objectAt s.Objects idx).ModelMat).x) /
              length M.sqrt (player.sub (monsterPosOf (objectAt s.Objects idx).ModelMat)) *
              3 * dt,
          3,
          (monsterPosOf (objectAt s.Objects idx).ModelMat).z +
            (player.z - (monsterPosOf (objectAt s.Objects idx).ModelMat).z) /
              length M.sqrt (player.sub (monsterPosOf (objectAt s.Objects idx).ModelMat)) *
              3 * dt⟩) ∧
    (length M.sqrt (player.sub (monsterPosOf (objectAt s.Objects idx).ModelMat)) ≤ 3 / 2 →
      monsterPosOf (objectAt (hostileChase M dt s).Objects idx).ModelMat =
        monsterPosOf (objectAt s.Objects idx).ModelMat) ∧
    ((∀ (a : F) (j : Fin 4), M.RotationY a 3 j = if j = 3 then 1 else 0) →
      ∀ speed : F,
        monsterPosOf (objectAt (rotateDynamic M dt [idx] speed
          (hostileChase M dt s).Objects) idx).ModelMat =
        monsterPosOf (objectAt (hostileChase M dt s).Objects idx).ModelMat) := by
  have hread : ∀ q : float3 F,
      monsterPosOf (objectAt (setModelMat s.Objects idx
        (Scale 1 1 1 * Translation q.x q.y q.z).transpose) idx).ModelMat = q := by
    intro q
    rw [objectAt_setModelMat_eq _ _ _ hidx]
    exact monsterPosOf_translation q.x q.y q.z
  refine ⟨?_, ?_, fun hR speed => rotate_keeps_position M dt idx hR speed _
    (by rw [(hostileChase_tables M dt s).2.1]; exact hidx)⟩
  · intro hfar
    simp only [hostileChase, hdyn, hcam]
    rw [if_pos hfar, hread]
    simp only [float3.add, float3.scale, float3.divScalar, float3.sub]
  · intro hnear
    simp only [hostileChase, hdyn, hcam]
    rw [if_neg (not_lt.mpr hnear), hread]

theorem hostile_chase_step_witness :
    ((chaseScene : GameState ℝ).DynamicObjects = [0] ∧
      0 < (chaseScene : GameState ℝ).Objects.length ∧
      (chaseScene : GameState ℝ).CameraPos = some ⟨3 / 2, 3, 0⟩) ∧
    length Real.sqrt ((⟨3 / 2, 3, 0⟩ : float3 ℝ).sub
      (monsterPosOf (objectAt (chaseScene : GameState ℝ).Objects 0).ModelMat)) ≤ 3 / 2 ∧
    monsterPosOf (objectAt (hostileChase (mathLibOf Real.sqrt Real.cos Real.sin Real.pi)
      (1 / 1000) (chaseScene : GameState ℝ)).Objects 0).ModelMat = ⟨0, 3, 0⟩ := by
  have hm : monsterPosOf (objectAt (chaseScene : GameState ℝ).Objects 0).ModelMat =
      ⟨0, 3, 0⟩ := by
    simp only [chaseScene, emptyScene, objectAt, List.getD_cons_zero, monsterPosOf_translation]
  have hlen : length Real.sqrt ((⟨3 / 2, 3, 0⟩ : float3 ℝ).sub
      (monsterPosOf (objectAt (chaseScene : GameState ℝ).Objects 0).ModelMat)) ≤ 3 / 2 := by
    have e : ((⟨3 / 2, 3, 0⟩ : float3 ℝ).sub ⟨0, 3, 0⟩) = ⟨3 / 2, 0, 0⟩ := by
      norm_num [float3.sub]
    rw [hm, e, length_axis (3 / 2) (by norm_num)]
  have hlen0 : 0 < (chaseScene : GameState ℝ).Objects.length := by
    simp [chaseScene]
  have h := (hostile_chase_step (mathLibOf Real.sqrt Real.cos Real.sin Real.pi) (1 / 1000)
    (chaseScene : GameState ℝ) 0 [] ⟨3 / 2, 3, 0⟩ rfl hlen0 rfl).2.1 hlen
  rw [hm] at h
  exact ⟨⟨rfl, hlen0, rfl⟩, hlen, h⟩

end ChaseTheorems

section DamageLoopTheorems

variable {F : Type} [LinearOrderedField F]

theorem damageLoop_steps (s : GameState F) (h0 : 0 ≤ s.m_Health) :
    (0 < s.m_Health → 25 * (damageLoopSteps s : Int) ≤ s.m_Health + 24) ∧
    (s.m_Health = 0 → damageLoopSteps s ≤ 1) ∧
    (damageLoop s).m_Health = max 0 (s.m_Health - 25 * (damageLoopSteps s : Int)) ∧
    (damageLoop s).m_TimeSinceLastDamage =
      s.m_TimeSinceLastDamage - (damageLoopSteps s : F) * s.m_DamageCooldown := by
  induction s using damageLoop.induct with
  | case1 s ht hh =>
    rw [damageLoop, damageLoopSteps, if_pos ht, if_pos hh, if_pos ht, if_pos hh]
    refine ⟨fun hp => by simp; omega, fun _ => le_refl _, ?_, by simp⟩
    show max 0 (s.m_Health - 25) = _
    simp
  | case2 s ht hh ih =>
    rw [damageLoop, damageLoopSteps, if_pos ht, if_neg hh, if_pos ht, if_neg hh]
    have hpos : 0 < s.m_Health - 25 := by
      by_contra hc
      exact hh (by rw [max_eq_left (not_lt.mp hc)])
    have hm : max 0 (s.m_Health - 25) = s.m_Health - 25 := max_eq_right (le_of_lt hpos)
    obtain ⟨i1, -, i3, i4⟩ := ih (le_max_left _ _)
    simp only [hm] at i1 i3 i4 ⊢
    refine ⟨fun _ => ?_, fun hz => by omega, ?_, ?_⟩
    · have := i1 hpos
      push_cast
      omega
    · rw [i3]
      push_cast
      congr 1
      ring
    · rw [i4]
      push_cast
      ring
  | case3 s ht =>
    rw [damageLoop, damageLoopSteps, if_neg ht, if_neg ht]
    refine ⟨fun _ => by simp; omega, fun _ => by omega, ?_, by simp⟩
    simp [h0]

/-- C29: the damage loop ends whatever the cooldown (zero and negative ones included) and
the time step are: `damageLoop` is a total function, its recursion descending on the health.
From a health `h >= 0` it takes at most `ceil(h / 25)` damage steps when `h > 0`, hence at
most 4 from `h <= 100`, and at most 1 when `h = 0`; the health it leaves is
`max(0, h - 25 * steps)` and the timer it leaves is the timer less `steps` cooldowns. -/
theorem damage_loop_bounded (s : GameState F) (h0 : 0 ≤ s.m_Health) :
    (0 < s.m_Health → (damageLoopSteps s : Int) ≤ (s.m_Health + 24) / 25) ∧
    (0 < s.m_Health → s.m_Health ≤ 100 → damageLoopSteps s ≤ 4) ∧
    (s.m_Health = 0 → damageLoopSteps s ≤ 1) ∧
    (damageLoop s).m_Health = max 0 (s.m_Health - 25 * (damageLoopSteps s : Int)) ∧
    (damageLoop s).m_TimeSinceLastDamage =
      s.m_TimeSinceLastDamage - (damageLoopSteps s : F) * s.m_DamageCooldown := by
  obtain ⟨a1, a2, a3, a4⟩ := damageLoop_steps s h0
  refine ⟨fun hp => ?_, fun hp hle => ?_, a2, a3, a4⟩
  · have := a1 hp
    omega
  · have := a1 hp
    omega

theorem damage_loop_bounded_witness :
    (0 : Int) ≤ ({ (emptyScene : GameState ℚ) with
      m_DamageCooldown := -1 } : GameState ℚ).m_Health ∧
    damageLoopSteps ({ (emptyScene : GameState ℚ) with m_DamageCooldown := -1 }) ≤ 4 ∧
    (damageLoop ({ (emptyScene : GameState ℚ) with m_DamageCooldown := -1 })).m_Health =
      max 0 (100 - 25 * (damageLoopSteps
        ({ (emptyScene : GameState ℚ) with m_DamageCooldown := -1 }) : Int)) := by
  have h := damage_loop_bounded
    ({ (emptyScene : GameState ℚ) with m_DamageCooldown := -1 }) (by decide)
  exact ⟨by decide, h.2.1 (by decide) (by decide), h.2.2.2.1⟩

end DamageLoopTheorems

section DoorRiseTheorems

variable {F : Type} [LinearOrderedField F]

/-- The entries of a matrix that the vertical translation multiplies on the left: the first
three rows are kept, the last row takes `off` times the second row. -/
theorem rise_entries (W : float4x4 F) (off : F) (j : Fin 4) :
    (Translation 0 off 0 * W) 0 j = W 0 j ∧ (Translation 0 off 0 * W) 1 j = W 1 j ∧
    (Translation 0 off 0 * W) 2 j = W 2 j ∧
    (Translation 0 off 0 * W) 3 j = W 3 j + off * W 1 j := by
  simp [Translation, Matrix.mul_apply, Fin.sum_univ_four]
  ring

theorem worldTranslation_rise (A : float4x4 F) (off : F) :
    worldTranslation (A * (Translation 0 off 0).transpose) =
      ⟨(worldTranslation A).x + off * A.transpose 1 0,
       (worldTranslation A).y + off * A.transpose 1 1,
       (worldTranslation A).z + off * A.transpose 1 2⟩ ∧
    linearPart (A * (Translation 0 off 0).transpose) = linearPart A := by
  have e : (A * (Translation 0 off 0).transpose).transpose =
      Translation 0 off 0 * A.transpose := by
    rw [Matrix.transpose_mul, Matrix.transpose_transpose]
  constructor
  · simp only [worldTranslation, e, (rise_entries A.transpose off _).2.2.2]
  · funext i j
    simp only [linearPart, e]
    fin_cases i
    · exact (rise_entries A.transpose off _).1
    · exact (rise_entries A.transpose off _).2.1
    · exact (rise_entries A.transpose off _).2.2.1

theorem scale_translation_entries (sx sy sz tx ty tz : F) :
    worldTranslation ((Scale sx sy sz * Translation tx ty tz).transpose) = ⟨tx, ty, tz⟩ ∧
    (Scale sx sy sz * Translation tx ty tz) 1 0 = 0 ∧
    (Scale sx sy sz * Translation tx ty tz) 1 1 = sy ∧
    (Scale sx sy sz * Translation tx ty tz) 1 2 = 0 := by
  rw [worldTranslation, Matrix.transpose_transpose]
  simp [Scale, Translation, Matrix.mul_apply, Fin.sum_univ_four]

/-- The model matrix the door loop leaves on the object of a door that is rising and stays
below the threshold. -/
theorem rising_object_mat (dt : F) (s : GameState F) (hwf : DoorsWellFormed s) (d : Door F)
    (hd : d ∈ s.m_Doors) (hr : d.Rising = true) (ho : ¬ doorOffset dt d > 3) :
    (objectAt (doorAnimation dt s).Objects d.ObjectIdx).ModelMat =
      d.OriginalMat * (Translation 0 (doorOffset dt d) 0).transpose := by
  obtain ⟨-, hO, hR⟩ := hwf
  have h := animateDoors_objectAt dt s.m_Doors s hO d hd (hR d hd).2
  rw [if_pos hr] at h
  show (objectAt (forEachMut (animateDoor dt) s.m_Doors s).1.Objects d.ObjectIdx).ModelMat = _
  rw [h]
  show risenMat dt d = _
  unfold risenMat
  rw [if_neg ho]

theorem risingDoorScene_wf : DoorsWellFormed (risingDoorScene : GameState ℚ) := by
  simp [DoorsWellFormed, risingDoorScene, oneDoorScene]

/-- C25, the claim as it is worded, on the scene `risingDoorScene` (a door one second into
its rise at speed 2, transform `Scale(3, 3, 1) * Translation(0, 2.8, 5)`) and a tick of a
quarter of a second: the offset after the tick is 2.5, below the threshold, and the
translation of the instance is `(0, 10.3, 5)`, the original `(0, 2.8, 5)` plus
`(0, 7.5, 0)`, not plus `(0, 2.5, 0)`. -/
theorem door_rise_counterexample :
    (risingDoorScene : GameState ℚ).m_Doors.map
      (fun d => (d.ObjectIdx, d.Rising, decide (doorOffset (1 / 4) d = 5 / 2))) =
        [(0, true, true)] ∧
    ((risingDoorScene : GameState ℚ).m_Doors.map
      (fun d => worldTranslation d.OriginalMat)) = [⟨0, 14 / 5, 5⟩] ∧
    worldTranslation
      (objectAt (doorAnimation (1 / 4) (risingDoorScene : GameState ℚ)).Objects 0).ModelMat =
        ⟨0, 103 / 10, 5⟩ ∧
    worldTranslation
      (objectAt (doorAnimation (1 / 4) (risingDoorScene : GameState ℚ)).Objects 0).ModelMat ≠
        ⟨0, 14 / 5 + 5 / 2, 5⟩ := by
  have hm : (risingDoorScene : GameState ℚ).m_Doors =
      [{ WallIdx := 0, ObjectIdx := 0, Opened := true, Rising := true, RiseTimer := 1,
         RiseSpeed := 2,
         OriginalMat := (Scale (3 : ℚ) 3 1 * Translation 0 (3 - 1 / 5) 5).transpose,
         Id := 0 }] := rfl
  have hoff : doorOffset (1 / 4 : ℚ)
      { WallIdx := 0, ObjectIdx := 0, Opened := true, Rising := true, RiseTimer := 1,
        RiseSpeed := 2,
        OriginalMat := (Scale (3 : ℚ) 3 1 * Translation 0 (3 - 1 / 5) 5).transpose,
        Id := 0 } = 5 / 2 := by
    norm_num [doorOffset]
  have hobj := rising_object_mat (1 / 4) (risingDoorScene : GameState ℚ) risingDoorScene_wf
    { WallIdx := 0, ObjectIdx := 0, Opened := true, Rising := true, RiseTimer := 1,
      RiseSpeed := 2,
      OriginalMat := (Scale (3 : ℚ) 3 1 * Translation 0 (3 - 1 / 5) 5).transpose,
      Id := 0 } (by rw [hm]; exact List.mem_singleton.mpr rfl) rfl (by rw [hoff]; norm_num)
  simp only at hobj
  have ht : worldTranslation
      (objectAt (doorAnimation (1 / 4) (risingDoorScene : GameState ℚ)).Objects 0).ModelMat =
        ⟨0, 103 / 10, 5⟩ := by
    rw [hobj, (worldTranslation_rise _ _).1, hoff, Matrix.transpose_transpose,
      (scale_translation_entries (3 : ℚ) 3 1 0 (3 - 1 / 5) 5).1,
      (scale_translation_entries (3 : ℚ) 3 1 0 (3 - 1 / 5) 5).2.1,
      (scale_translation_entries (3 : ℚ) 3 1 0 (3 - 1 / 5) 5).2.2.1,
      (scale_translation_entries (3 : ℚ) 3 1 0 (3 - 1 / 5) 5).2.2.2]
    norm_num
  refine ⟨?_, ?_, ht, ?_⟩
  · rw [hm]
    simp only [List.map_cons, List.map_nil, hoff]
    rfl
  · rw [hm]
    simp only [List.map_cons, List.map_nil,
      (scale_translation_entries (3 : ℚ) 3 1 0 (3 - 1 / 5) 5).1]
    norm_num
  · rw [ht]
    intro hc
    have := congrArg float3.y hc
    norm_num at this

/-- C25, amended: on tables whose doors point into the object table without sharing an
object, the object of a door that is rising and whose offset `(RiseTimer + dt) * RiseSpeed`
stays at or below 3 gets the model matrix `OriginalMat * Translation(0, offset, 0)^T`. Its
scale and rotation part is that of `OriginalMat`; its translation is that of `OriginalMat`
plus `offset` times the second row of that scale and rotation part: for an `OriginalMat`
that is `Scale(sx, sy, sz) * Translation(tx, ty, tz)` transposed, as the compiler emits with
`sy = 3`, the translation is `(tx, ty + offset * sy, tz)`. -/
theorem door_rise_transform (dt : F) (s : GameState F) (hwf : DoorsWellFormed s) (d : Door F)
    (hd : d ∈ s.m_Doors) (hr : d.Rising = true) (ho : ¬ doorOffset dt d > 3) :
    (objectAt (doorAnimation dt s).Objects d.ObjectIdx).ModelMat =
      d.OriginalMat * (Translation 0 (doorOffset dt d) 0).transpose ∧
    linearPart (objectAt (doorAnimation dt s).Objects d.ObjectIdx).ModelMat =
      linearPart d.OriginalMat ∧
    worldTranslation (objectAt (doorAnimation dt s).Objects d.ObjectIdx).ModelMat =
      ⟨(worldTranslation d.OriginalMat).x + doorOffset dt d * d.OriginalMat.transpose 1 0,
       (worldTranslation d.OriginalMat).y + doorOffset dt d * d.OriginalMat.transpose 1 1,
       (worldTranslation d.OriginalMat).z + doorOffset dt d * d.OriginalMat.transpose 1 2⟩ ∧
    (∀ sx sy sz tx ty tz : F,
      d.OriginalMat = (Scale sx sy sz * Translation tx ty tz).transpose →
      worldTranslation (objectAt (doorAnimation dt s).Objects d.ObjectIdx).ModelMat =
        ⟨tx, ty + doorOffset dt d * sy, tz⟩) := by
  have hobj := rising_object_mat dt s hwf d hd hr ho
  rw [hobj]
  refine ⟨rfl, (worldTranslation_rise _ _).2, (worldTranslation_rise _ _).1,
    fun sx sy sz tx ty tz hm => ?_⟩
  rw [(worldTranslation_rise _ _).1, hm, Matrix.transpose_transpose,
    (scale_translation_entries sx sy sz tx ty tz).1,
    (scale_translation_entries sx sy sz tx ty tz).2.1,
    (scale_translation_entries sx sy sz tx ty tz).2.2.1,
    (scale_translation_entries sx sy sz tx ty tz).2.2.2]
  simp

theorem door_rise_transform_witness :
    DoorsWellFormed (risingDoorScene : GameState ℚ) ∧
    linearPart (objectAt (doorAnimation (1 / 4) (risingDoorScene : GameState ℚ)).Objects
      0).ModelMat =
      linearPart ((Scale (3 : ℚ) 3 1 * Translation 0 (3 - 1 / 5) 5).transpose) := by
  have hm : (risingDoorScene : GameState ℚ).m_Doors =
      [{ WallIdx := 0, ObjectIdx := 0, Opened := true, Rising := true, RiseTimer := 1,
         RiseSpeed := 2,
         OriginalMat := (Scale (3 : ℚ) 3 1 * Translation 0 (3 - 1 / 5) 5).transpose,
         Id := 0 }] := rfl
  exact ⟨risingDoorScene_wf,
    (door_rise_transform (1 / 4) (risingDoorScene : GameState ℚ) risingDoorScene_wf
      { WallIdx := 0, ObjectIdx := 0, Opened := true, Rising := true, RiseTimer := 1,
        RiseSpeed := 2,
        OriginalMat := (Scale (3 : ℚ) 3 1 * Translation 0 (3 - 1 / 5) 5).transpose,
        Id := 0 } (by rw [hm]; exact List.mem_singleton.mpr rfl) rfl
      (by norm_num [doorOffset])).2.1⟩

end DoorRiseTheorems

section RunShapeLemmas

variable {F : Type} [LinearOrderedField F]

theorem pass1Cell_wall_shape (P : SceneParams) (g : TileGrid) (z x : Nat) (st : Pass1State F)
    (h : ∀ r ∈ st.runs, r.blockType = 1 → r.horizontal = true ∧ r.runLength = 1) :
    ∀ r ∈ (pass1Cell P g z x st).runs, r.blockType = 1 → r.horizontal = true ∧ r.runLength = 1 := by
  simp only [pass1Cell]
  split_ifs with h0 h1 h2 h3
  · intro r hr hb
    rcases List.mem_append.mp hr with hr | hr
    · exact h r hr hb
    · rw [List.mem_singleton] at hr
      subst hr
      exact ⟨rfl, rfl⟩
  · intro r hr hb
    rcases List.mem_append.mp hr with hr | hr
    · exact h r hr hb
    · rw [List.mem_singleton] at hr
      subst hr
      exact absurd hb h1
  · intro r hr hb
    rcases List.mem_append.mp hr with hr | hr
    · exact h r hr hb
    · rw [List.mem_singleton] at hr
      subst hr
      exact absurd hb h1
  · exact h
  · exact h

/-- The wall runs that Pass 1 emits are horizontal and of length 1. -/
theorem afterPass1_wall_shape (P : SceneParams) (g : TileGrid) (s : GameState F) :
    ∀ r ∈ (afterPass1 P g s).runs, r.blockType = 1 → r.horizontal = true ∧ r.runLength = 1 := by
  unfold afterPass1 pass1
  refine forLoop_induction g.mazeRows _ _
    (fun _ (t : Pass1State F) =>
      ∀ r ∈ t.runs, r.blockType = 1 → r.horizontal = true ∧ r.runLength = 1)
    (fun r hr => by simp at hr) ?_
  intro z _ t ht
  refine forLoop_induction g.mazeCols _ t
    (fun _ (u : Pass1State F) =>
      ∀ r ∈ u.runs, r.blockType = 1 → r.horizontal = true ∧ r.runLength = 1) ht ?_
  intro x _ u hu
  exact pass1Cell_wall_shape P g z x u hu

/-- An interval of length `2 L` is the union of `L` intervals of length 2. -/
theorem interval_union (a v : F) (L : Nat) (hL : 1 ≤ L) :
    (a ≤ v ∧ v ≤ a + 2 * (L : F)) ↔
      ∃ i, i < L ∧ a + 2 * (i : F) ≤ v ∧ v ≤ a + 2 * (i : F) + 2 := by
  induction L, hL using Nat.le_induction with
  | base =>
    constructor
    · rintro ⟨h1, h2⟩
      exact ⟨0, Nat.zero_lt_one, by simpa using h1, by simpa using h2⟩
    · rintro ⟨i, hi, h1, h2⟩
      have : i = 0 := by omega
      subst this
      exact ⟨by simpa using h1, by simpa using h2⟩
  | succ n hn ih =>
    constructor
    · rintro ⟨h1, h2⟩
      rcases le_or_lt v (a + 2 * (n : F)) with hv | hv
      · obtain ⟨i, hi, hh⟩ := ih.mp ⟨h1, hv⟩
        exact ⟨i, Nat.lt_succ_of_lt hi, hh⟩
      · refine ⟨n, Nat.lt_succ_self n, le_of_lt hv, ?_⟩
        push_cast at h2
        linarith
    · rintro ⟨i, hi, h1, h2⟩
      have hin : (i : F) ≤ (n : F) := Nat.cast_le.mpr (Nat.lt_succ_iff.mp hi)
      have h0 : (0 : F) ≤ (i : F) := Nat.cast_nonneg i
      push_cast
      exact ⟨by linarith, by linarith⟩

theorem runVolume_horizontal (g : TileGrid) (r : Run) (hh : r.horizontal = true)
    (hw : r.blockType = 1 → r.runLength = 1) :
    blockVolume (placementOf g r : F × F × F × F) =
      ⟨⟨2 * (r.x : F) - (g.mazeCols : F) - 1, 0, 2 * (r.z : F) - (g.mazeRows : F) - 1⟩,
       ⟨2 * ((r.x : F) + (r.runLength : F) - 1) - (g.mazeCols : F) + 1, 3,
        2 * (r.z : F) - (g.mazeRows : F) + 1⟩⟩ ∧
    (placementOf g r : F × F × F × F) =
      (2 * (r.x : F) + (r.runLength : F) - 1 - (g.mazeCols : F),
       2 * (r.z : F) - (g.mazeRows : F), (r.runLength : F), 1) := by
  have hp : (placementOf g r : F × F × F × F) =
      (2 * (r.x : F) + (r.runLength : F) - 1 - (g.mazeCols : F),
       2 * (r.z : F) - (g.mazeRows : F), (r.runLength : F), 1) := by
    by_cases hb : r.blockType = 1
    · simp only [placementOf, if_pos hb, wallPlacement, hw hb, Prod.mk.injEq]
      refine ⟨by push_cast; ring, by ring, by push_cast; ring, by ring⟩
    · simp only [placementOf, if_neg hb, runPlacement, hh, if_true, Prod.mk.injEq]
      refine ⟨by ring, by ring, by ring, by ring⟩
  refine ⟨?_, hp⟩
  rw [hp]
  simp only [blockVolume, AABB.mk.injEq, float3.mk.injEq, true_and, and_true]
  constructor <;> ring1

theorem runVolume_vertical (g : TileGrid) (r : Run) (hh : r.horizontal = false)
    (hw : r.blockType ≠ 1) :
    blockVolume (placementOf g r : F × F × F × F) =
      ⟨⟨2 * (r.x : F) - (g.mazeCols : F) - 1, 0, 2 * (r.z : F) - (g.mazeRows : F) - 1⟩,
       ⟨2 * (r.x : F) - (g.mazeCols : F) + 1, 3,
        2 * ((r.z : F) + (r.runLength : F) - 1) - (g.mazeRows : F) + 1⟩⟩ ∧
    (placementOf g r : F × F × F × F) =
      (2 * (r.x : F) - (g.mazeCols : F),
       2 * (r.z : F) + (r.runLength : F) - 1 - (g.mazeRows : F), 1, (r.runLength : F)) := by
  have hp : (placementOf g r : F × F × F × F) =
      (2 * (r.x : F) - (g.mazeCols : F),
       2 * (r.z : F) + (r.runLength : F) - 1 - (g.mazeRows : F), 1, (r.runLength : F)) := by
    simp only [placementOf, if_neg hw, runPlacement, hh, Bool.false_eq_true, if_false,
      Prod.mk.injEq]
    refine ⟨by ring, by ring, by ring, by ring⟩
  refine ⟨?_, hp⟩
  rw [hp]
  simp only [blockVolume, AABB.mk.injEq, float3.mk.injEq, true_and, and_true]
  constructor <;> ring1

/-- The volume of a run is the union of the boxes of its cells. -/
theorem runVolume_union (g : TileGrid) (r : Run) (hL : 1 ≤ r.runLength)
    (hw : r.blockType = 1 → r.horizontal = true ∧ r.runLength = 1) (p : float3 F) :
    (blockVolume (placementOf g r : F × F × F × F)).contains p ↔
      ∃ i, i < r.runLength ∧ (cellBox g (r.cell i).1 (r.cell i).2 : AABB F).contains p := by
  by_cases hh : r.horizontal = true
  · rw [(runVolume_horizontal g r hh (fun hb => (hw hb).2)).1]
    simp only [AABB.contains, Run.cell, hh, if_true, cellBox]
    have hu := interval_union (2 * (r.x : F) - (g.mazeCols : F) - 1) p.x r.runLength hL
    constructor
    · rintro ⟨⟨h1, h2⟩, hy, hz⟩
      obtain ⟨i, hi, h3, h4⟩ := hu.mp ⟨h1, by linarith⟩
      refine ⟨i, hi, ⟨?_, ?_⟩, hy, ⟨by linarith [hz.1], by linarith [hz.2]⟩⟩
      · push_cast; linarith
      · push_cast; linarith
    · rintro ⟨i, hi, ⟨h1, h2⟩, hy, hz⟩
      push_cast at h1 h2
      obtain ⟨h3, h4⟩ := hu.mpr ⟨i, hi, by linarith, by linarith⟩
      exact ⟨⟨h3, by linarith⟩, hy, ⟨by linarith [hz.1], by linarith [hz.2]⟩⟩
  · have hv : r.horizontal = false := by simpa using hh
    have hb : r.blockType ≠ 1 := fun hb => hh (hw hb).1
    rw [(runVolume_vertical g r hv hb).1]
    simp only [AABB.contains, Run.cell, hv, Bool.false_eq_true, if_false, cellBox]
    have hu := interval_union (2 * (r.z : F) - (g.mazeRows : F) - 1) p.z r.runLength hL
    constructor
    · rintro ⟨hx, hy, ⟨h1, h2⟩⟩
      obtain ⟨i, hi, h3, h4⟩ := hu.mp ⟨h1, by linarith⟩
      refine ⟨i, hi, ⟨by linarith [hx.1], by linarith [hx.2]⟩, hy, ⟨?_, ?_⟩⟩
      · push_cast; linarith
      · push_cast; linarith
    · rintro ⟨i, hi, hx, hy, ⟨h1, h2⟩⟩
      push_cast at h1 h2
      obtain ⟨h3, h4⟩ := hu.mpr ⟨i, hi, by linarith, by linarith⟩
      exact ⟨⟨by linarith [hx.1], by linarith [hx.2]⟩, hy, ⟨h3, by linarith⟩⟩

end RunShapeLemmas

section RunShapeTheorems

variable {F : Type} [LinearOrderedField F]

/-- C23: after `CreateSceneObjects` started on an empty door table the wall volumes pushed
are those of the runs of Pass 1, in order, each with the object of its run. For a run of
length `L >= 1` seeded at `(z, x)`: when horizontal its volume is
`min = (2x - cols - 1, 0, 2z - rows - 1)`, `max = (2(x + L - 1) - cols + 1, 3, 2z - rows + 1)`
and its object has the centre `(2x + L - 1 - cols, 2z - rows)`, the midpoint of the span,
and the half extents `(L, 1)`; when vertical the same holds with the roles of `x`, `cols`
and `z`, `rows` exchanged; and the volume is the union of the boxes of side 2 of the `L`
cells of the run. -/
theorem run_volume_footprint (P : SceneParams) (g : TileGrid) (s : GameState F)
    (hDo : s.m_Doors = []) :
    (CreateSceneObjects P g s).MazeWalls = s.MazeWalls ++
      (afterPass1 P g s).runs.map (fun r => blockVolume (placementOf g r)) ∧
    (∃ rest, (CreateSceneObjects P g s).Objects = s.Objects ++
      (afterPass1 P g s).runs.map (fun r => blockObject P r.blockType (placementOf g r)) ++
      rest) ∧
    ∀ r ∈ (afterPass1 P g s).runs,
      1 ≤ r.runLength ∧
      (r.horizontal = true →
        blockVolume (placementOf g r : F × F × F × F) =
          ⟨⟨2 * (r.x : F) - (g.mazeCols : F) - 1, 0, 2 * (r.z : F) - (g.mazeRows : F) - 1⟩,
           ⟨2 * ((r.x : F) + (r.runLength : F) - 1) - (g.mazeCols : F) + 1, 3,
            2 * (r.z : F) - (g.mazeRows : F) + 1⟩⟩ ∧
        (placementOf g r : F × F × F × F) =
          (2 * (r.x : F) + (r.runLength : F) - 1 - (g.mazeCols : F),
           2 * (r.z : F) - (g.mazeRows : F), (r.runLength : F), 1)) ∧
      (r.horizontal = false →
        blockVolume (placementOf g r : F × F × F × F) =
          ⟨⟨2 * (r.x : F) - (g.mazeCols : F) - 1, 0, 2 * (r.z : F) - (g.mazeRows : F) - 1⟩,
           ⟨2 * (r.x : F) - (g.mazeCols : F) + 1, 3,
            2 * ((r.z : F) + (r.runLength : F) - 1) - (g.mazeRows : F) + 1⟩⟩ ∧
        (placementOf g r : F × F × F × F) =
          (2 * (r.x : F) - (g.mazeCols : F),
           2 * (r.z : F) + (r.runLength : F) - 1 - (g.mazeRows : F), 1, (r.runLength : F))) ∧
      ((placementOf g r : F × F × F × F).1 =
          ((blockVolume (placementOf g r : F × F × F × F)).min.x +
            (blockVolume (placementOf g r : F × F × F × F)).max.x) / 2 ∧
        (placementOf g r : F × F × F × F).2.1 =
          ((blockVolume (placementOf g r : F × F × F × F)).min.z +
            (blockVolume (placementOf g r : F × F × F × F)).max.z) / 2) ∧
      ∀ p : float3 F, (blockVolume (placementOf g r : F × F × F × F)).contains p ↔
        ∃ i, i < r.runLength ∧ (cellBox g (r.cell i).1 (r.cell i).2 : AABB F).contains p := by
  have hD : ∀ d ∈ s.m_Doors, d.ObjectIdx < s.Objects.length := by
    intro d hd; rw [hDo] at hd; simp at hd
  obtain ⟨a1, a2, -, -, -, -, -⟩ := gridPasses_tables P g s hD
  obtain ⟨t1, -, -, t4, -, -⟩ := pushSceneTail_tables P g (gridPasses P g s)
  have e : CreateSceneObjects P g s = pushSceneTail P g (gridPasses P g s) := rfl
  obtain ⟨⟨-, -, i3⟩, -, -⟩ := afterPass1_spec P g s
  have hshape := afterPass1_wall_shape P g s
  refine ⟨by rw [e, t4, a1], ⟨_, by rw [e, t1, a2, List.append_assoc]⟩, fun r hr => ?_⟩
  have hL := (i3 r hr).2
  refine ⟨hL, fun hh => runVolume_horizontal g r hh (fun hb => (hshape r hr hb).2),
    fun hh => runVolume_vertical g r hh (fun hb => by
      have := (hshape r hr hb).1
      rw [hh] at this
      exact Bool.false_ne_true this), ?_, runVolume_union g r hL (hshape r hr)⟩
  simp only [blockVolume]
  constructor <;> ring

theorem run_volume_footprint_witness :
    (emptyScene : GameState ℚ).m_Doors = [] ∧
    (afterPass1 scenarioParams scenarioGrid (emptyScene : GameState ℚ)).runs.map
      (fun r => (r.z, r.x, r.horizontal, r.runLength)) = [(1, 0, true, 3)] ∧
    (CreateSceneObjects scenarioParams scenarioGrid (emptyScene : GameState ℚ)).MazeWalls =
      (emptyScene : GameState ℚ).MazeWalls ++
        (afterPass1 scenarioParams scenarioGrid (emptyScene : GameState ℚ)).runs.map
          (fun r => blockVolume (placementOf scenarioGrid r)) :=
  ⟨rfl, by decide,
    (run_volume_footprint scenarioParams scenarioGrid (emptyScene : GameState ℚ) rfl).1⟩

end RunShapeTheorems

section SeedRuleTheorems

variable {F : Type} [LinearOrderedField F]

theorem scanRunX_isMax (g : TileGrid) (v : Nat → Nat → Bool) (z x : Nat) (c : Int) :
    IsMaxRunX g v z x c (scanRunX g v z x c g.mazeCols 1) := by
  obtain ⟨h1, h2, h3⟩ := scanRunX_spec g v z x c g.mazeCols 1
  exact ⟨h1, h2, h3 (by omega)⟩

theorem scanRunZ_isMax (g : TileGrid) (v : Nat → Nat → Bool) (z x : Nat) (c : Int) :
    IsMaxRunZ g v z x c (scanRunZ g v z x c g.mazeRows 1) := by
  obtain ⟨h1, h2, h3⟩ := scanRunZ_spec g v z x c g.mazeRows 1
  exact ⟨h1, h2, h3 (by omega)⟩

theorem IsMaxRunX_unique (g : TileGrid) (v : Nat → Nat → Bool) (z x : Nat) (c : Int)
    (n m : Nat) (hn : IsMaxRunX g v z x c n) (hm : IsMaxRunX g v z x c m) : n = m := by
  obtain ⟨n1, n2, n3⟩ := hn
  obtain ⟨m1, m2, m3⟩ := hm
  rcases Nat.lt_trichotomy n m with h | h | h
  · exact absurd (m2 n n1 h) n3
  · exact h
  · exact absurd (n2 m m1 h) m3

theorem IsMaxRunZ_unique (g : TileGrid) (v : Nat → Nat → Bool) (z x : Nat) (c : Int)
    (n m : Nat) (hn : IsMaxRunZ g v z x c n) (hm : IsMaxRunZ g v z x c m) : n = m := by
  obtain ⟨n1, n2, n3⟩ := hn
  obtain ⟨m1, m2, m3⟩ := hm
  rcases Nat.lt_trichotomy n m with h | h | h
  · exact absurd (m2 n n1 h) n3
  · exact h
  · exact absurd (n2 m m1 h) m3

theorem seedRun_eq (g : TileGrid) (v : Nat → Nat → Bool) (z x : Nat) (c : Int) :
    seedRun g v z x c =
      ⟨z, x, c, decide (scanRunX g v z x c g.mazeCols 1 ≥ scanRunZ g v z x c g.mazeRows 1),
        max (scanRunX g v z x c g.mazeCols 1) (scanRunZ g v z x c g.mazeRows 1)⟩ := by
  by_cases hh : scanRunX g v z x c g.mazeCols 1 ≥ scanRunZ g v z x c g.mazeRows 1
  · simp [seedRun, hh, max_eq_left hh]
  · simp [seedRun, hh, max_eq_right (le_of_lt (not_le.mp hh))]

/-- C22: the body of Pass 1 at the cell `(z, x)`, of code `c`. At a visited cell or a cell
of code 0 nothing is emitted. At an unvisited wall cell one run of length 1 is emitted and
the cell alone is marked, whatever its neighbours are. At an unvisited door or decoration
cell one run is emitted, of length `max(runX, runZ)`, horizontal exactly when
`runX >= runZ`, where `runX` and `runZ` are the lengths of the maximal rightward and downward
runs of unvisited cells of code `c` from the seed (these lengths are unique); its object and
volume are pushed, with the door record for a door code, and the cells of the run are the
cells newly marked. -/
theorem seed_emission_rule (P : SceneParams) (g : TileGrid) (z x : Nat) (st : Pass1State F) :
    (st.visited z x = true ∨ g.maze z x = 0 → pass1Cell P g z x st = st) ∧
    (st.visited z x = false → g.maze z x = 1 →
      (pass1Cell P g z x st).runs = st.runs ++ [⟨z, x, 1, true, 1⟩] ∧
      (pass1Cell P g z x st).scene = pushBlock P 1 (wallPlacement g z x) st.scene ∧
      ∀ cz cx, (pass1Cell P g z x st).visited cz cx =
        (decide (cz = z ∧ cx = x) || st.visited cz cx)) ∧
    (st.visited z x = false →
      isDoorCode (g.maze z x) = true ∨ isDecorationCode (g.maze z x) = true →
      ∃ runX runZ : Nat,
        IsMaxRunX g st.visited z x (g.maze z x) runX ∧
        IsMaxRunZ g st.visited z x (g.maze z x) runZ ∧
        (pass1Cell P g z x st).runs =
          st.runs ++ [⟨z, x, g.maze z x, decide (runX ≥ runZ), max runX runZ⟩] ∧
        (pass1Cell P g z x st).scene =
          emitRun P g ⟨z, x, g.maze z x, decide (runX ≥ runZ), max runX runZ⟩ st.scene ∧
        ∀ cz cx, (pass1Cell P g z x st).visited cz cx =
          (Run.covers ⟨z, x, g.maze z x, decide (runX ≥ runZ), max runX runZ⟩ cz cx ||
            st.visited cz cx)) ∧
    (∀ n m : Nat, IsMaxRunX g st.visited z x (g.maze z x) n →
      IsMaxRunX g st.visited z x (g.maze z x) m → n = m) ∧
    (∀ n m : Nat, IsMaxRunZ g st.visited z x (g.maze z x) n →
      IsMaxRunZ g st.visited z x (g.maze z x) m → n = m) := by
  refine ⟨fun h => ?_, fun hv h1 => ?_, fun hv hc => ?_,
    fun n m => IsMaxRunX_unique g st.visited z x (g.maze z x) n m,
    fun n m => IsMaxRunZ_unique g st.visited z x (g.maze z x) n m⟩
  · have hg : ¬ (st.visited z x = false ∧ g.maze z x ≠ 0) := by
      rintro ⟨a, b⟩
      rcases h with h | h
      · rw [a] at h; exact Bool.false_ne_true h
      · exact b h
    simp only [pass1Cell, if_neg hg]
  · have hg : st.visited z x = false ∧ g.maze z x ≠ 0 := ⟨hv, by rw [h1]; decide⟩
    simp only [pass1Cell, if_pos hg, if_pos h1]
    refine ⟨by rw [h1], by rw [h1], fun cz cx => ?_⟩
    by_cases hcell : cz = z ∧ cx = x
    · simp [hcell]
    · simp [hcell]
  · have hne0 : g.maze z x ≠ 0 := by
      intro h0
      rw [h0] at hc
      simp [isDoorCode, isDecorationCode] at hc
    have hne1 : g.maze z x ≠ 1 := by
      intro h1
      rw [h1] at hc
      simp [isDoorCode, isDecorationCode] at hc
    have hg : st.visited z x = false ∧ g.maze z x ≠ 0 := ⟨hv, hne0⟩
    refine ⟨scanRunX g st.visited z x (g.maze z x) g.mazeCols 1,
      scanRunZ g st.visited z x (g.maze z x) g.mazeRows 1, scanRunX_isMax _ _ _ _ _,
      scanRunZ_isMax _ _ _ _ _, ?_⟩
    rw [← seedRun_eq]
    by_cases hd : 10 ≤ g.maze z x ∧ g.maze z x ≤ 17
    · have hdc : isDoorCode (seedRun g st.visited z x (g.maze z x)).blockType = true := by
        show isDoorCode (g.maze z x) = true
        simp [isDoorCode, hd]
      simp only [pass1Cell, if_pos hg, if_neg hne1, if_pos hd]
      refine ⟨trivial, ?_, fun cz cx => ?_⟩
      · have hb : (seedRun g st.visited z x (g.maze z x)).blockType ≠ 1 := hne1
        simp only [emitRun, hdc, if_true, placementOf, if_neg hb]
        rfl
      · simp only [markRun]
        cases (seedRun g st.visited z x (g.maze z x)).covers cz cx <;> simp
    · have hdec : (2 ≤ g.maze z x ∧ g.maze z x ≤ 9) ∨ g.maze z x = 19 := by
        rcases hc with hc | hc
        · simp only [isDoorCode, decide_eq_true_eq] at hc
          exact absurd hc hd
        · simpa [isDecorationCode] using hc
      have hdc : isDoorCode (seedRun g st.visited z x (g.maze z x)).blockType = false := by
        show isDoorCode (g.maze z x) = false
        simp only [isDoorCode, decide_eq_false_iff_not]
        exact hd
      simp only [pass1Cell, if_pos hg, if_neg hne1, if_neg hd, if_pos hdec]
      refine ⟨trivial, ?_, fun cz cx => ?_⟩
      · have hb : (seedRun g st.visited z x (g.maze z x)).blockType ≠ 1 := hne1
        simp only [emitRun, hdc, Bool.false_eq_true, if_false, placementOf, if_neg hb]
        rfl
      · simp only [markRun]
        cases (seedRun g st.visited z x (g.maze z x)).covers cz cx <;> simp

theorem seed_emission_rule_witness :
    (isDoorCode (scenarioGrid.maze 1 0) = true ∨ isDecorationCode (scenarioGrid.maze 1 0) = true) ∧
    (pass1Cell scenarioParams scenarioGrid 1 0
      (⟨fun _ _ => false, (emptyScene : GameState ℚ), []⟩ : Pass1State ℚ)).runs.map
        (fun r => (r.z, r.x, r.blockType, r.horizontal, r.runLength)) = [(1, 0, 10, true, 3)] ∧
    ∃ runX runZ : Nat,
      IsMaxRunX scenarioGrid (fun _ _ => false) 1 0 (scenarioGrid.maze 1 0) runX ∧
      IsMaxRunZ scenarioGrid (fun _ _ => false) 1 0 (scenarioGrid.maze 1 0) runZ ∧
      (pass1Cell scenarioParams scenarioGrid 1 0
        (⟨fun _ _ => false, (emptyScene : GameState ℚ), []⟩ : Pass1State ℚ)).runs =
        [] ++ [⟨1, 0, scenarioGrid.maze 1 0, decide (runX ≥ runZ), max runX runZ⟩] := by
  have hc : isDoorCode (scenarioGrid.maze 1 0) = true ∨
      isDecorationCode (scenarioGrid.maze 1 0) = true := Or.inl (by decide)
  obtain ⟨runX, runZ, h1, h2, h3, -, -⟩ :=
    (seed_emission_rule scenarioParams scenarioGrid 1 0
      (⟨fun _ _ => false, (emptyScene : GameState ℚ), []⟩ : Pass1State ℚ)).2.2.1 rfl hc
  exact ⟨hc, by decide, runX, runZ, h1, h2, h3⟩

end SeedRuleTheorems

section DoorStateRelationLemmas

theorem forall₂_and {α β : Type} {R Q : α → β → Prop} {l : List α} {l2 : List β}
    (h1 : List.Forall₂ R l l2) : List.Forall₂ Q l l2 →
      List.Forall₂ (fun a b => R a b ∧ Q a b) l l2 := by
  induction h1 with
  | nil => intro _; exact List.Forall₂.nil
  | cons hab _ ih =>
    intro h2
    cases h2 with
    | cons hq hrest => exact List.Forall₂.cons ⟨hab, hq⟩ (ih hrest)

theorem doorOpens_refl {F : Type} (d : Door F) : doorOpens d d := Or.inl rfl

theorem doorOpens_trans {F : Type} (a b c : Door F) (h1 : doorOpens a b)
    (h2 : doorOpens b c) : doorOpens a c := by
  rcases h1 with h1 | ⟨a1, a2, a3⟩
  · rw [h1] at h2; exact h2
  · rcases h2 with h2 | ⟨b1, -, -⟩
    · rw [h2]; exact Or.inr ⟨a1, a2, a3⟩
    · rw [a2] at b1; exact absurd b1 (by simp)

theorem doorsOpen_refl {F : Type} (D : List (Door F)) : List.Forall₂ doorOpens D D :=
  List.forall₂_same.mpr (fun d _ => doorOpens_refl d)

theorem doorsOpen_trans {F : Type} {D D2 D3 : List (Door F)}
    (h1 : List.Forall₂ doorOpens D D2) (h2 : List.Forall₂ doorOpens D2 D3) :
    List.Forall₂ doorOpens D D3 :=
  forall₂_trans_of doorOpens_trans h1 D3 h2

end DoorStateRelationLemmas

section DoorStateLemmas

variable {F : Type} [LinearOrderedField F]

theorem doorOpens_openDoor (O : List (ObjectAttribs F)) (d : Door F) (h : d.Opened = false) :
    doorOpens d (openDoor O d) := Or.inr ⟨h, rfl, rfl⟩

theorem openDoorWithId_opens (O : List (ObjectAttribs F)) (doorId : Int) (D : List (Door F)) :
    List.Forall₂ doorOpens D (openDoorWithId O doorId D) := by
  induction D with
  | nil => exact List.Forall₂.nil
  | cons d ds ih =>
    by_cases h : d.Id = doorId ∧ d.Opened = false
    · simp only [openDoorWithId, if_pos h]
      exact List.Forall₂.cons (doorOpens_openDoor O d h.2) (doorsOpen_refl ds)
    · simp only [openDoorWithId, if_neg h]
      exact List.Forall₂.cons (doorOpens_refl d) ih

theorem openDoors_opens (O : List (ObjectAttribs F)) (ids : List Int) :
    ∀ D : List (Door F), List.Forall₂ doorOpens D (openDoors O ids D) := by
  induction ids with
  | nil => intro D; exact doorsOpen_refl D
  | cons i rest ih =>
    intro D
    simp only [openDoors]
    exact doorsOpen_trans (openDoorWithId_opens O i D) (ih _)

theorem collectKeys_opens (sqrt : F → F) (camPos : float3 F) (r : F) (keys : List (Key F)) :
    ∀ s : GameState F,
      List.Forall₂ doorOpens s.m_Doors (forEachMut (collectKey sqrt camPos r) keys s).1.m_Doors := by
  induction keys with
  | nil => intro s; exact doorsOpen_refl _
  | cons k rest ih =>
    intro s
    simp only [forEachMut]
    by_cases h : keyHit sqrt camPos r k = true
    · refine doorsOpen_trans ?_ (ih _)
      rw [collectKey_hit sqrt camPos r s k h]
      exact openDoors_opens s.Objects k.DoorIds s.m_Doors
    · have h2 : keyHit sqrt camPos r k = false := by simpa using h
      rw [collectKey_not_hit sqrt camPos r s k h2]
      exact ih s

theorem TryOpenDoors_opens (s : GameState F) :
    List.Forall₂ doorOpens s.m_Doors (TryOpenDoors s).m_Doors := by
  unfold TryOpenDoors
  split_ifs
  · show List.Forall₂ doorOpens s.m_Doors (s.m_Doors.map _)
    rw [List.forall₂_map_right_iff, List.forall₂_same]
    intro d _
    by_cases ho : d.Opened = false
    · rw [if_pos ho]; exact doorOpens_openDoor s.Objects d ho
    · rw [if_neg ho]; exact doorOpens_refl d
  · exact doorsOpen_refl _

/-- A step of the tick that leaves the door records or opens closed ones keeps the form of
the tables and the three door states. -/
theorem DoorStateInv_of_opens {s s2 : GameState F}
    (hinv : SceneWellFormed s ∧ DoorStateInv s) (hstep : TickStep s s2)
    (hop : List.Forall₂ doorOpens s.m_Doors s2.m_Doors) :
    SceneWellFormed s2 ∧ DoorStateInv s2 := by
  obtain ⟨hwf, hdi⟩ := hinv
  refine ⟨SceneWellFormed_of_step hwf hstep, fun d2 hd2 => ?_⟩
  obtain ⟨⟨hW, hO, -⟩, hK, hDy⟩ := hwf
  obtain ⟨-, -, -, -, hD, hobj, hwall⟩ := hstep
  obtain ⟨d, hd, -, hopn⟩ := forall₂_exists_left (forall₂_and hD hop) d2 hd2
  rcases hopn with he | ⟨-, ho2, hr2⟩
  · rw [he]
    refine ⟨(hdi d hd).1, fun ho hr => ?_⟩
    obtain ⟨w1, w2⟩ := (hdi d hd).2 ho hr
    constructor
    · rw [hwall d.WallIdx (fun e he2 hj => by
        rw [List.inj_on_of_nodup_map hW he2 hd hj]; exact ⟨ho, hr⟩)]
      exact w1
    · rw [hobj d.ObjectIdx (fun k hk => hK k hk d hd) (fun i hi => hDy i hi d hd)
        (fun e he2 hj => by rw [List.inj_on_of_nodup_map hO he2 hd hj]; exact ⟨ho, hr⟩)]
      exact w2
  · refine ⟨fun _ => ho2, fun _ hr => ?_⟩
    rw [hr2] at hr
    exact absurd hr (by simp)

theorem DoorStateInv_of_same {s s2 : GameState F}
    (hinv : SceneWellFormed s ∧ DoorStateInv s) (hstep : TickStep s s2)
    (hd : s2.m_Doors = s.m_Doors) : SceneWellFormed s2 ∧ DoorStateInv s2 :=
  DoorStateInv_of_opens hinv hstep (by rw [hd]; exact doorsOpen_refl _)

theorem doorAnimation_inv (dt : F) (s : GameState F)
    (hinv : SceneWellFormed s ∧ DoorStateInv s) :
    SceneWellFormed (doorAnimation dt s) ∧ DoorStateInv (doorAnimation dt s) := by
  obtain ⟨hwf, hdi⟩ := hinv
  refine ⟨SceneWellFormed_of_step hwf (doorAnimation_step dt s), fun d2 hd2 => ?_⟩
  obtain ⟨⟨-, hO, hR⟩, -, -⟩ := hwf
  have hdoors : (doorAnimation dt s).m_Doors = s.m_Doors.map (tickDoor dt) :=
    animateDoors_doors dt s.m_Doors s
  have hwalls : ∀ j, wallAt (doorAnimation dt s).MazeWalls j =
      if ∃ d ∈ s.m_Doors, d.Rising = true ∧ doorOffset dt d > 3 ∧ d.WallIdx = j then zeroBox
      else wallAt s.MazeWalls j := fun j => animateDoors_wallAt dt s.m_Doors j s
  have hobjs : ∀ d ∈ s.m_Doors, objectAt (doorAnimation dt s).Objects d.ObjectIdx =
      if d.Rising = true then { objectAt s.Objects d.ObjectIdx with ModelMat := risenMat dt d }
      else objectAt s.Objects d.ObjectIdx :=
    fun d hd => animateDoors_objectAt dt s.m_Doors s hO d hd (hR d hd).2
  rw [hdoors] at hd2
  obtain ⟨d, hd, rfl⟩ := List.mem_map.mp hd2
  by_cases hr : d.Rising = false
  · have ht : tickDoor dt d = d := by unfold tickDoor; rw [if_pos hr]
    rw [ht]
    refine ⟨(hdi d hd).1, fun ho _ => ?_⟩
    obtain ⟨w1, w2⟩ := (hdi d hd).2 ho hr
    constructor
    · rw [hwalls]
      split_ifs
      · rfl
      · exact w1
    · rw [hobjs d hd, if_neg (by rw [hr]; simp)]
      exact w2
  · have hr1 : d.Rising = true := by simpa using hr
    have ho1 : d.Opened = true := (hdi d hd).1 hr1
    by_cases hoff : doorOffset dt d > 3
    · have ht : tickDoor dt d = { d with RiseTimer := d.RiseTimer + dt, Rising := false } := by
        unfold tickDoor; rw [if_neg hr, if_pos hoff]
      rw [ht]
      refine ⟨fun h => absurd h (by simp), fun _ _ => ⟨?_, ?_⟩⟩
      · show wallAt (doorAnimation dt s).MazeWalls d.WallIdx = zeroBox
        rw [hwalls, if_pos ⟨d, hd, hr1, hoff, rfl⟩]
      · show (objectAt (doorAnimation dt s).Objects d.ObjectIdx).ModelMat = _
        rw [hobjs d hd, if_pos hr1]
        show risenMat dt d = _
        unfold risenMat
        rw [if_pos hoff]
    · have ht : tickDoor dt d = { d with RiseTimer := d.RiseTimer + dt } := by
        unfold tickDoor; rw [if_neg hr, if_neg hoff]
      rw [ht]
      exact ⟨fun _ => ho1, fun _ h => absurd (hr1.symm.trans h) (by simp)⟩

theorem HandleKeyCollection_inv (sqrt : F → F) (camPos : float3 F) (r : F) (s : GameState F)
    (hinv : SceneWellFormed s ∧ DoorStateInv s) :
    SceneWellFormed (HandleKeyCollection sqrt camPos r s) ∧
      DoorStateInv (HandleKeyCollection sqrt camPos r s) :=
  DoorStateInv_of_opens hinv (HandleKeyCollection_step sqrt camPos r s)
    (collectKeys_opens sqrt camPos r s.m_Keys s)

theorem keyStage_inv (M : MathLib F) (NewCamPos : Option (float3 F)) (s : GameState F)
    (hinv : SceneWellFormed s ∧ DoorStateInv s) :
    SceneWellFormed (keyStage M NewCamPos s) ∧ DoorStateInv (keyStage M NewCamPos s) := by
  cases NewCamPos with
  | none => exact hinv
  | some p => exact HandleKeyCollection_inv M.sqrt p (1 / 2) s hinv

theorem TryOpenDoors_inv (s : GameState F) (hinv : SceneWellFormed s ∧ DoorStateInv s) :
    SceneWellFormed (TryOpenDoors s) ∧ DoorStateInv (TryOpenDoors s) :=
  DoorStateInv_of_opens hinv (TryOpenDoors_step s) (TryOpenDoors_opens s)

theorem hostileChase_inv (M : MathLib F) (dt : F) (s : GameState F)
    (hinv : SceneWellFormed s ∧ DoorStateInv s) :
    SceneWellFormed (hostileChase M dt s) ∧ DoorStateInv (hostileChase M dt s) :=
  DoorStateInv_of_same hinv (hostileChase_step M dt s) (hostileChase_tables M dt s).2.2.2.2.1

theorem simulate_inv (M : MathLib F) (inp : FrameInput F) (s : GameState F)
    (hinv : SceneWellFormed s ∧ DoorStateInv s) :
    SceneWellFormed (simulate M inp s) ∧ DoorStateInv (simulate M inp s) := by
  have h3 := DoorStateInv_of_same hinv (advanceCamera_step inp s)
    (advanceCamera_tables inp s).2.2.2.2.1
  have h4 := hostileChase_inv M inp.ElapsedTime _ h3
  have h5 := DoorStateInv_of_same h4 (damageStage_step M inp.ElapsedTime _)
    (damageStage_tables M inp.ElapsedTime _).2.2.2.2.1
  have h6 := DoorStateInv_of_same h5 (overlayFade_step inp.ElapsedTime _)
    (overlayFade_tables inp.ElapsedTime _).2.2.2.2.1
  have h7 := keyStage_inv M (tickBeforeDoors M inp s).2 _ h6
  have h8 := DoorStateInv_of_same h7 (unlockMsgTick_step inp.ElapsedTime _)
    (unlockMsgTick_tables inp.ElapsedTime _).2.2.2.2.1
  have h9 := TryOpenDoors_inv _ h8
  have h10 : SceneWellFormed (doorAnimation inp.ElapsedTime (tickBeforeDoors M inp s).1) ∧
      DoorStateInv (doorAnimation inp.ElapsedTime (tickBeforeDoors M inp s).1) :=
    doorAnimation_inv inp.ElapsedTime _ h9
  have hstep : TickStep (doorAnimation inp.ElapsedTime (tickBeforeDoors M inp s).1)
      (simulate M inp s) := by
    obtain ⟨hl, hf⟩ := rotateDynamic_frame M inp.ElapsedTime
      (doorAnimation inp.ElapsedTime (tickBeforeDoors M inp s).1).DynamicObjects (15 / 100)
      (doorAnimation inp.ElapsedTime (tickBeforeDoors M inp s).1).Objects
    exact TickStep_of_dynamic_objects _ _ rfl hl rfl rfl rfl hf
  exact DoorStateInv_of_same h10 hstep rfl

theorem Update_inv (M : MathLib F) (inp : FrameInput F) (s : GameState F)
    (hinv : SceneWellFormed s ∧ DoorStateInv s) :
    SceneWellFormed (Update M inp s) ∧ DoorStateInv (Update M inp s) := by
  have h1 := DoorStateInv_of_same hinv (UpdateUI_step inp.ui s) (UpdateUI_tables inp.ui s).2.2.2.2
  unfold Update
  split_ifs
  · exact h1
  · exact simulate_inv M inp _ h1

theorem applyOp_inv (M : MathLib F) (op : TickOp F) (s : GameState F)
    (hinv : SceneWellFormed s ∧ DoorStateInv s) :
    SceneWellFormed (applyOp M op s) ∧ DoorStateInv (applyOp M op s) := by
  cases op with
  | keys camPos camRadius => exact HandleKeyCollection_inv M.sqrt camPos camRadius s hinv
  | tryOpen => exact TryOpenDoors_inv s hinv
  | animate dt => exact doorAnimation_inv dt s hinv
  | chase dt => exact hostileChase_inv M dt s hinv
  | update inp => exact Update_inv M inp s hinv

theorem runOps_inv (M : MathLib F) (ops : List (TickOp F)) :
    ∀ s : GameState F, SceneWellFormed s ∧ DoorStateInv s →
      SceneWellFormed (runOps M ops s) ∧ DoorStateInv (runOps M ops s) := by
  induction ops with
  | nil => intro s h; exact h
  | cons op rest ih => intro s h; exact ih _ (applyOp_inv M op s h)

theorem keysOfCells_objectIdx (P : SceneParams) (g : TileGrid) (B : List KeyDoorBinding)
    (O : List (ObjectAttribs F)) (D : List (Door F)) (cells : List (Nat × Nat)) :
    ∀ objBase : Nat, ∀ k ∈ keysOfCells P g B O D objBase cells, objBase ≤ k.ObjectIdx := by
  induction cells with
  | nil => intro objBase k hk; simp [keysOfCells] at hk
  | cons c cs ih =>
    intro objBase k hk
    simp only [keysOfCells, List.mem_cons] at hk
    rcases hk with hk | hk
    · rw [hk]; exact le_refl _
    · exact le_trans (Nat.le_succ _) (ih (objBase + 1) k hk)

theorem doorsOfRuns_closed (runs : List Run) :
    ∀ (wb ob : Nat) (i : Int), ∀ d ∈ (doorsOfRuns wb ob i runs : List (Door F)),
      d.Opened = false ∧ d.Rising = false := by
  induction runs with
  | nil => intro wb ob i d hd; simp [doorsOfRuns] at hd
  | cons r rs ih =>
    intro wb ob i d hd
    by_cases hdoor : isDoorCode r.blockType = true
    · simp only [doorsOfRuns, if_pos hdoor, List.mem_cons] at hd
      rcases hd with hd | hd
      · rw [hd]; exact ⟨rfl, rfl⟩
      · exact ih (wb + 1) (ob + 1) (i + 1) d hd
    · simp only [doorsOfRuns, if_neg hdoor] at hd
      exact ih (wb + 1) (ob + 1) i d hd

/-- The tables `CreateSceneObjects` leaves, started on empty door, key and dynamic-object
tables, are in the form the tick relies on, with every door closed. -/
theorem CreateSceneObjects_inv (P : SceneParams) (g : TileGrid) (s : GameState F)
    (hDo : s.m_Doors = []) (hK : s.m_Keys = []) (hDy : s.DynamicObjects = []) :
    (SceneWellFormed (CreateSceneObjects P g s) ∧ DoorStateInv (CreateSceneObjects P g s)) ∧
    ∀ d ∈ (CreateSceneObjects P g s).m_Doors, d.Opened = false ∧ d.Rising = false := by
  have hD : ∀ d ∈ s.m_Doors, d.ObjectIdx < s.Objects.length := by
    intro d hd; rw [hDo] at hd; simp at hd
  obtain ⟨a1, a2, a3, -, -, a6, -⟩ := gridPasses_tables P g s hD
  obtain ⟨t1, -, t3, t4, t5, t6⟩ := pushSceneTail_tables P g (gridPasses P g s)
  have e : CreateSceneObjects P g s = pushSceneTail P g (gridPasses P g s) := rfl
  rw [hDo, List.nil_append] at a3
  rw [hK, List.nil_append] at a6
  rw [(gridPasses_frame P g s).2, hDy, List.nil_append] at t3
  have hdoors : (CreateSceneObjects P g s).m_Doors =
      doorsOfRuns s.MazeWalls.length s.Objects.length s.m_nextDoorId (afterPass1 P g s).runs := by
    rw [e, t5, a3]
  have hwl : (CreateSceneObjects P g s).MazeWalls.length =
      s.MazeWalls.length + (afterPass1 P g s).runs.length := by
    rw [e, t4, a1, List.length_append, List.length_map]
  have hol : (CreateSceneObjects P g s).Objects.length =
      s.Objects.length + (afterPass1 P g s).runs.length +
        (afterPass2 P g s).keyCells.length + 3 := by
    rw [e, t1, a2]
    simp only [List.length_append, List.length_map, List.length_cons, List.length_nil]
  have hgl : (gridPasses P g s).Objects.length =
      s.Objects.length + (afterPass1 P g s).runs.length +
        (afterPass2 P g s).keyCells.length := by
    rw [a2]
    simp only [List.length_append, List.length_map]
  have hclosed : ∀ d ∈ (CreateSceneObjects P g s).m_Doors,
      d.Opened = false ∧ d.Rising = false := by
    intro d hd
    rw [hdoors] at hd
    exact doorsOfRuns_closed _ _ _ _ d hd
  refine ⟨⟨⟨⟨?_, ?_, fun d hd => ?_⟩, fun k hk d hd => ?_, fun i hi d hd => ?_⟩,
    fun d hd => ?_⟩, hclosed⟩
  · rw [hdoors]
    unfold List.Nodup
    rw [List.pairwise_map]
    exact (doorsOfRuns_pairwise (F := F) (afterPass1 P g s).runs _ _ _).imp
      (fun h => ne_of_lt h.1)
  · rw [hdoors]
    unfold List.Nodup
    rw [List.pairwise_map]
    exact (doorsOfRuns_pairwise (F := F) (afterPass1 P g s).runs _ _ _).imp
      (fun h => ne_of_lt h.2.1)
  · rw [hdoors] at hd
    have := doorsOfRuns_range _ _ _ _ d hd
    rw [hwl, hol]
    omega
  · rw [hdoors] at hd
    have h1 := doorsOfRuns_range _ _ _ _ d hd
    have hk2 : k ∈ (gridPasses P g s).m_Keys := by
      have : (CreateSceneObjects P g s).m_Keys = (gridPasses P g s).m_Keys := by rw [e, t6]
      rw [← this]; exact hk
    rw [a6] at hk2
    have h2 := keysOfCells_objectIdx _ _ _ _ _ _ _ k hk2
    omega
  · rw [hdoors] at hd
    have h1 := doorsOfRuns_range _ _ _ _ d hd
    have hi2 : i ∈ [(gridPasses P g s).Objects.length + 2] := by
      rw [← t3, ← e]; exact hi
    rw [List.mem_singleton] at hi2
    rw [hi2, hgl]
    omega
  · obtain ⟨c1, c2⟩ := hclosed d hd
    exact ⟨fun h => by rw [c2] at h; exact absurd h (by simp),
      fun h => by rw [c1] at h; exact absurd h (by simp)⟩

end DoorStateLemmas

section DoorStateTheorems

variable {F : Type} [LinearOrderedField F]

/-- C30: in every state reached from the tables `CreateSceneObjects` leaves (started on
empty door, key and dynamic-object tables) by a sequence of calls of `HandleKeyCollection`,
`TryOpenDoors`, the door animation loop, the hostile chase and `Update`, every door is in
one of three states: closed (`Opened = false`, `Rising = false`), rising (both true), or
risen (`Opened = true`, `Rising = false`) with its wall volume the zero box and the model
matrix of its object the zero-scale matrix. No door has `Rising = true` with
`Opened = false`, and the tables stay in the form the tick relies on. -/
theorem door_state_invariant (M : MathLib F) (P : SceneParams) (g : TileGrid)
    (s : GameState F) (hDo : s.m_Doors = []) (hK : s.m_Keys = [])
    (hDy : s.DynamicObjects = []) (ops : List (TickOp F)) :
    (∀ d ∈ (runOps M ops (CreateSceneObjects P g s)).m_Doors,
      (d.Opened = false ∧ d.Rising = false) ∨
      (d.Opened = true ∧ d.Rising = true) ∨
      (d.Opened = true ∧ d.Rising = false ∧
        wallAt (runOps M ops (CreateSceneObjects P g s)).MazeWalls d.WallIdx = zeroBox ∧
        (objectAt (runOps M ops (CreateSceneObjects P g s)).Objects d.ObjectIdx).ModelMat =
          (Scale 0 0 0).transpose)) ∧
    (∀ d ∈ (runOps M ops (CreateSceneObjects P g s)).m_Doors,
      ¬ (d.Rising = true ∧ d.Opened = false)) ∧
    (∀ d ∈ (CreateSceneObjects P g s).m_Doors, d.Opened = false ∧ d.Rising = false) ∧
    SceneWellFormed (runOps M ops (CreateSceneObjects P g s)) := by
  obtain ⟨h0, hclosed⟩ := CreateSceneObjects_inv P g s hDo hK hDy
  obtain ⟨hwf, hdi⟩ := runOps_inv M ops _ h0
  refine ⟨fun d hd => ?_, fun d hd hc => ?_, hclosed, hwf⟩
  · obtain ⟨i1, i2⟩ := hdi d hd
    cases ho : d.Opened with
    | false =>
      cases hr : d.Rising with
      | false => exact Or.inl ⟨rfl, rfl⟩
      | true =>
        have := i1 hr
        rw [ho] at this
        exact absurd this (by simp)
    | true =>
      cases hr : d.Rising with
      | false => exact Or.inr (Or.inr ⟨rfl, rfl, i2 ho hr⟩)
      | true => exact Or.inr (Or.inl ⟨rfl, rfl⟩)
  · have := (hdi d hd).1 hc.1
    rw [hc.2] at this
    exact absurd this (by simp)

theorem door_state_invariant_witness :
    ((emptyScene : GameState ℝ).m_Doors = [] ∧ (emptyScene : GameState ℝ).m_Keys = [] ∧
      (emptyScene : GameState ℝ).DynamicObjects = []) ∧
    (∀ d ∈ (runOps (mathLibOf Real.sqrt Real.cos Real.sin Real.pi)
        [TickOp.tryOpen, TickOp.animate 2, TickOp.update stillInput]
        (CreateSceneObjects scenarioParams scenarioGrid (emptyScene : GameState ℝ))).m_Doors,
      ¬ (d.Rising = true ∧ d.Opened = false)) ∧
    (CreateSceneObjects scenarioParams scenarioGrid (emptyScene : GameState ℚ)).m_Doors.map
      (fun d => (d.Opened, d.Rising)) = [(false, false)] :=
  ⟨⟨rfl, rfl, rfl⟩,
    (door_state_invariant (mathLibOf Real.sqrt Real.cos Real.sin Real.pi) scenarioParams
      scenarioGrid (emptyScene : GameState ℝ) rfl rfl rfl
      [TickOp.tryOpen, TickOp.animate 2, TickOp.update stillInput]).2.1,
    by decide⟩

end DoorStateTheorems

end HybridRendering
